import Mathlib

/-!
# GrubDash: dish and order handler chains

A shallow embedding of `src/dishes/dishes.controller.js` and
`src/orders/orders.controller.js`.

* A request body is a JavaScript value obtained from JSON (`JsVal`).
* The two module-level arrays `dishes` and `orders` form the `Store`.
* A middleware is a function of the request, `res.locals` and the store; it
  either calls `next()`, calls `next(err)`, raises a `TypeError`, or sends a
  response.  A handler chain (an entry of `module.exports`) runs its
  middlewares in order until one of them does not call `next()`.
* An object found by `Array.prototype.find` is a reference into the array; it
  is represented by its position.
-/

namespace GrubDash

/-! ## JavaScript values -/

/-- A JavaScript value as it can occur in a parsed request body or in a stored
entity.  A finite number is the dyadic rational `m / 2 ^ e` (every finite
double is one). -/
inductive JsVal where
  | undefined
  | null
  | bool (b : Bool)
  | num (m : Int) (e : Nat)
  | nan
  | inf (negative : Bool)
  | str (s : String)
  | arr (items : List JsVal)
  | obj (fields : List (String × JsVal))

namespace JsVal

/-- An integer-valued number. -/
def int (i : Int) : JsVal := .num i 0

/-- ToBoolean: the truthiness test of `if (v)`, `!v`, `v && ...`. -/
def truthy : JsVal → Bool
  | .undefined => false
  | .null => false
  | .bool b => b
  | .num m _ => m != 0
  | .nan => false
  | .inf _ => true
  | .str s => s != ""
  | .arr _ => true
  | .obj _ => true

/-- The test `typeof v === "number"`. -/
def isNumber : JsVal → Bool
  | .num _ _ => true
  | .nan => true
  | .inf _ => true
  | _ => false

/-- The built-in `Number.isInteger(v)`: a finite number without fractional part. -/
def isInteger : JsVal → Bool
  | .num m e => m % (2 : Int) ^ e == 0
  | _ => false

/-- The comparison `v > 0`.  Both call sites evaluate it only after
`Number.isInteger(v)` held, that is on numbers. -/
def gtZero : JsVal → Bool
  | .num m _ => decide (0 < m)
  | .inf negative => !negative
  | _ => false

/-- The comparison `v <= 0`, evaluated by its call site only on numbers. -/
def leZero : JsVal → Bool
  | .num m _ => decide (m ≤ 0)
  | .inf negative => negative
  | _ => false

/-- The test `v === s` for a string `s`. -/
def eqStr : JsVal → String → Bool
  | .str t, s => t == s
  | _, _ => false

/-- The test `v === ""`. -/
def isEmptyStr (v : JsVal) : Bool := v.eqStr ""

/-- The test `v !== undefined`. -/
def isDefined : JsVal → Bool
  | .undefined => false
  | _ => true

/-- The built-in `Array.isArray(v)`. -/
def isArray : JsVal → Bool
  | .arr _ => true
  | _ => false

/-- Whether the value is held by reference (an object or an array). -/
def isRef : JsVal → Bool
  | .arr _ => true
  | .obj _ => true
  | _ => false

/-- Strict equality `a === b` of two primitive values.  On operands held by
reference the answer is `false` here: identity of references is decided by
position (see `indexOf`). -/
def strictEqPrim : JsVal → JsVal → Bool
  | .undefined, .undefined => true
  | .null, .null => true
  | .bool a, .bool b => a == b
  | .num m e, .num n f => m * (2 : Int) ^ f == n * (2 : Int) ^ e
  | .inf a, .inf b => a == b
  | .str s, .str t => s == t
  | _, _ => false

/-- Own property `k` of the field list of an object. -/
def lookup (k : String) : List (String × JsVal) → JsVal
  | [] => .undefined
  | (k', v) :: rest => if k' = k then v else lookup k rest

/-- The property read `v[k]`, for the property names this program reads
(`data`, the entity field names and `quantity`: none of them is an index,
`length`, or inherited from a prototype).  `none` is the `TypeError` of reading
a property of `undefined` or `null`. -/
def getProp (v : JsVal) (k : String) : Option JsVal :=
  match v with
  | .undefined => none
  | .null => none
  | .obj fields => some (lookup k fields)
  | _ => some .undefined

/-- The destructuring `const { data = {} } = body`: `none` is the `TypeError`
raised when `body` is `undefined` or `null`. -/
def dataOf (body : JsVal) : Option JsVal :=
  match getProp body "data" with
  | none => none
  | some .undefined => some (.obj [])
  | some d => some d

/-- The destructuring `const { data: { k } = {} } = body`. -/
def dataField (body : JsVal) (k : String) : Option JsVal :=
  match dataOf body with
  | none => none
  | some d => getProp d k

end JsVal

/-! ## Store, requests and middleware results -/

/-- An element of the `dishes` array. -/
structure Dish where
  id : JsVal
  name : JsVal
  description : JsVal
  price : JsVal
  image_url : JsVal

/-- An element of the `orders` array; an absent `status` is `undefined`. -/
structure Order where
  id : JsVal
  deliverTo : JsVal
  mobileNumber : JsVal
  dishes : JsVal
  status : JsVal

/-- The two module-level arrays. -/
structure Store where
  dishes : List Dish
  orders : List Order

/-- What the handlers read of `req`: the route parameter (`req.params.dishId`,
`req.params.orderId`) and `req.body`. -/
structure Request where
  routeId : String
  body : JsVal

/-- The object `res.locals`: the entity found by the existence lookup, as its
position in the array. -/
structure Locals where
  dish : Option Nat
  order : Option Nat

/-- What `res.json` / `res.sendStatus` sends. -/
inductive Body where
  | empty
  | dish (d : Dish)
  | dishList (ds : List Dish)
  | order (o : Order)
  | orderList (os : List Order)

/-- How a middleware ends. -/
inductive Signal where
  | next
  | error (status : Nat) (message : String)
  | throw
  | respond (status : Nat) (body : Body)

/-- A middleware result: how it ended, and `res.locals` and the store as it
left them. -/
structure Step where
  signal : Signal
  locals : Locals
  store : Store

/-- A middleware. -/
abbrev Middleware := Request → Locals → Store → Step

/-- Express runs the middlewares of a route in order; each runs only if the
previous one called `next()`. -/
def runChain : List Middleware → Middleware
  | [], _, l, s => ⟨.next, l, s⟩
  | m :: ms, req, l, s =>
    match m req l s with
    | ⟨.next, l', s'⟩ => runChain ms req l' s'
    | r => r

/-- The `res.locals` of a fresh request. -/
def noLocals : Locals := ⟨none, none⟩

/-- Position of the first element satisfying `p`: the reference returned by
`Array.prototype.find`, and the result of `findIndex`. -/
def findIdx {α : Type} (p : α → Bool) : List α → Option Nat
  | [] => none
  | x :: xs => if p x then some 0 else (findIdx p xs).map (· + 1)


/-! ## `src/dishes/dishes.controller.js` -/

namespace Dishes

/-- Search `dishes` for the first dish whose `id` is the route id; keep it in
`res.locals.dish`, or fail with 404. -/
def dishExists : Middleware := fun req l s =>
  match findIdx (fun dish => dish.id.eqStr req.routeId) s.dishes with
  | some i => ⟨.next, { l with dish := some i }, s⟩
  | none => ⟨.error 404 ("Dish does not exist: " ++ req.routeId), l, s⟩

/-- The middleware `validateProperties(propertyName)`. -/
def validateProperties (propertyName : String) : Middleware := fun req l s =>
  match JsVal.dataOf req.body with
  | none => ⟨.throw, l, s⟩
  | some data =>
    match data.getProp propertyName with
    | none => ⟨.throw, l, s⟩
    | some v =>
      if v.truthy && !v.isEmptyStr && v.isDefined then ⟨.next, l, s⟩
      else ⟨.error 400 ("Dish must include a " ++ propertyName), l, s⟩

/-- The middleware `validatePrice`. -/
def validatePrice : Middleware := fun req l s =>
  match JsVal.dataField req.body "price" with
  | none => ⟨.throw, l, s⟩
  | some price =>
    if price.truthy && price.isInteger && price.gtZero then ⟨.next, l, s⟩
    else ⟨.error 400 "Dish must have a price that is an integer greater than 0", l, s⟩

/-- The handler `create`; `nextId` is the value returned by the call `nextId()`. -/
def create (nextId : String) : Middleware := fun req l s =>
  match JsVal.dataOf req.body with
  | none => ⟨.throw, l, s⟩
  | some data =>
    match data.getProp "name", data.getProp "description", data.getProp "price",
        data.getProp "image_url" with
    | some name, some description, some price, some image_url =>
      let newDish : Dish :=
        { id := .str nextId, name := name, description := description, price := price,
          image_url := image_url }
      ⟨.respond 201 (.dish newDish), l, { s with dishes := s.dishes ++ [newDish] }⟩
    | _, _, _, _ => ⟨.throw, l, s⟩

/-- The handler `list`. -/
def list : Middleware := fun _ l s => ⟨.respond 200 (.dishList s.dishes), l, s⟩

/-- The handler `read`: sends `res.locals.dish`. -/
def read : Middleware := fun _ l s =>
  match l.dish.bind (fun i => s.dishes[i]?) with
  | some dish => ⟨.respond 200 (.dish dish), l, s⟩
  | none => ⟨.respond 200 .empty, l, s⟩

/-- The handler `update`; `toStr` is the string conversion `${id}` of a template
literal, `none` being the `TypeError` it raises for a value that cannot be
converted to a string (such as an object with an own `toString` property, which
is not callable).  Assigning to a property of an undefined `res.locals.dish`
raises a `TypeError`. -/
def update (toStr : JsVal → Option String) : Middleware := fun req l s =>
  match JsVal.dataOf req.body with
  | none => ⟨.throw, l, s⟩
  | some data =>
    match data.getProp "id", data.getProp "name", data.getProp "description",
        data.getProp "price", data.getProp "image_url" with
    | some id, some name, some description, some price, some image_url =>
      if id.truthy && !id.eqStr req.routeId then
        match toStr id with
        | none => ⟨.throw, l, s⟩
        | some text =>
          ⟨.error 400
            ("Dish id does not match route id. Dish: " ++ text ++ ", Route: " ++ req.routeId),
            l, s⟩
      else
        match l.dish.bind (fun i => (s.dishes[i]?).map (fun dish => (i, dish))) with
        | none => ⟨.throw, l, s⟩
        | some (i, dish) =>
          let dish' : Dish :=
            { dish with name := name, description := description, price := price,
                        image_url := image_url }
          ⟨.respond 200 (.dish dish'), l, { s with dishes := s.dishes.set i dish' }⟩
    | _, _, _, _, _ => ⟨.throw, l, s⟩

namespace exports

/-- The chain `module.exports.create`. -/
def create (nextId : String) : List Middleware :=
  [validateProperties "name", validateProperties "description",
   validateProperties "image_url", validatePrice, Dishes.create nextId]

/-- The chain `module.exports.read`. -/
def read : List Middleware := [dishExists, Dishes.read]

/-- The chain `module.exports.update`. -/
def update (toStr : JsVal → Option String) : List Middleware :=
  [dishExists, validateProperties "name", validateProperties "description",
   validateProperties "image_url", validatePrice, Dishes.update toStr]

end exports

end Dishes

/-! ## `src/orders/orders.controller.js` -/

namespace Orders

/-- Search `orders` for the first order whose `id` is the route id; keep it in
`res.locals.order`, or fail with 404. -/
def orderExists : Middleware := fun req l s =>
  match findIdx (fun order => order.id.eqStr req.routeId) s.orders with
  | some i => ⟨.next, { l with order := some i }, s⟩
  | none => ⟨.error 404 ("Order not found: " ++ req.routeId), l, s⟩

/-- The middleware `validateDeliverTo`. -/
def validateDeliverTo : Middleware := fun req l s =>
  match JsVal.dataField req.body "deliverTo" with
  | none => ⟨.throw, l, s⟩
  | some deliverTo =>
    if !deliverTo.truthy || deliverTo.isEmptyStr then
      ⟨.error 400 "Order must include a deliverTo", l, s⟩
    else ⟨.next, l, s⟩

/-- The middleware `validateMobileNumber`. -/
def validateMobileNumber : Middleware := fun req l s =>
  match JsVal.dataField req.body "mobileNumber" with
  | none => ⟨.throw, l, s⟩
  | some mobileNumber =>
    if !mobileNumber.truthy || mobileNumber.isEmptyStr then
      ⟨.error 400 "Order must include a mobileNumber", l, s⟩
    else ⟨.next, l, s⟩

/-- The test `!Array.isArray(dishes) || dishes.length === 0`. -/
def notNonEmptyArray : JsVal → Bool
  | .arr (_ :: _) => false
  | _ => true

/-- The middleware `validateDishes`. -/
def validateDishes : Middleware := fun req l s =>
  match JsVal.dataField req.body "dishes" with
  | none => ⟨.throw, l, s⟩
  | some dishes =>
    if !dishes.truthy then ⟨.error 400 "Order must include a dish", l, s⟩
    else if notNonEmptyArray dishes then
      ⟨.error 400 "Order must include at least one dish", l, s⟩
    else ⟨.next, l, s⟩

/-- The callback of `dishes.find` applied to `dish.quantity`. -/
def badQuantity (quantity : JsVal) : Bool :=
  !quantity.truthy || !quantity.isNumber || !quantity.isInteger || quantity.leZero

/-- The call `dishes.find(callback)`.  `none`: the callback raised a
`TypeError` (reading `quantity` of `null`); `some none`: no element satisfies
the callback, the result is `undefined`; `some (some (i, dish))`: the first
element satisfying it, with the position it is held at. -/
def findInvalid : List JsVal → Option (Option (Nat × JsVal))
  | [] => some none
  | dish :: rest =>
    match dish.getProp "quantity" with
    | none => none
    | some quantity =>
      if badQuantity quantity then some (some (0, dish))
      else (findInvalid rest).map (Option.map (fun r => (r.1 + 1, r.2)))

/-- Scan of `indexOf` from position `j`: the first position holding a value
strictly equal to `x`.  A value held by reference equals only itself, that is
the element at position `slot`, where `x` was taken from. -/
def indexOfFrom (x : JsVal) (slot : Nat) : List JsVal → Nat → Option Nat
  | [], _ => none
  | y :: ys, j =>
    if (if x.isRef then j == slot else JsVal.strictEqPrim y x) then some j
    else indexOfFrom x slot ys (j + 1)

/-- The call `dishes.indexOf(x)` for an `x` taken from position `slot` of `dishes`. -/
def indexOf (dishes : List JsVal) (slot : Nat) (x : JsVal) : Int :=
  match indexOfFrom x slot dishes 0 with
  | some j => (j : Int)
  | none => -1

/-- The message of `validateDishQuantity` for the index `index`. -/
def quantityMessage (index : Int) : String :=
  "Dish " ++ toString index ++ " must have a quantity that is an integer greater than 0"

/-- The middleware `validateDishQuantity`.  Calling `dishes.find` on a value
that is not an array raises a `TypeError`. -/
def validateDishQuantity : Middleware := fun req l s =>
  match JsVal.dataField req.body "dishes" with
  | some (.arr dishes) =>
    match findInvalid dishes with
    | none => ⟨.throw, l, s⟩
    | some none => ⟨.next, l, s⟩
    | some (some (slot, invalidDish)) =>
      if invalidDish.truthy then
        ⟨.error 400 (quantityMessage (indexOf dishes slot invalidDish)), l, s⟩
      else ⟨.next, l, s⟩
  | _ => ⟨.throw, l, s⟩

/-- The middleware `validateOrderIdMatch`; `toStr` is the string conversion
`${id}` of a template literal, `none` being the `TypeError` it raises for a
value that cannot be converted to a string. -/
def validateOrderIdMatch (toStr : JsVal → Option String) : Middleware := fun req l s =>
  match JsVal.dataField req.body "id" with
  | none => ⟨.throw, l, s⟩
  | some id =>
    if id.truthy && !id.eqStr req.routeId then
      match toStr id with
      | none => ⟨.throw, l, s⟩
      | some text =>
        ⟨.error 400
          ("Order id does not match route id. Order: " ++ text ++ ", Route: " ++
            req.routeId ++ "."), l, s⟩
    else ⟨.next, l, s⟩

/-- The array `validStatuses`. -/
def validStatuses : List String := ["pending", "preparing", "out-for-delivery", "delivered"]

/-- The middleware `validateOrderStatus`. -/
def validateOrderStatus : Middleware := fun req l s =>
  match JsVal.dataField req.body "status" with
  | none => ⟨.throw, l, s⟩
  | some status =>
    if !status.truthy || !validStatuses.any (fun v => status.eqStr v) then
      ⟨.error 400
        "Order must have a status of pending, preparing, out-for-delivery, delivered", l, s⟩
    else ⟨.next, l, s⟩

/-- The middleware `validateOrderDelivered`. -/
def validateOrderDelivered : Middleware := fun _ l s =>
  match l.order.bind (fun i => s.orders[i]?) with
  | none => ⟨.throw, l, s⟩
  | some order =>
    if order.status.eqStr "delivered" then
      ⟨.error 400 "A delivered order cannot be changed", l, s⟩
    else ⟨.next, l, s⟩

/-- The handler `create`; `nextId` is the value returned by the call
`nextId()`.  The new order has no `status`. -/
def create (nextId : String) : Middleware := fun req l s =>
  match JsVal.dataOf req.body with
  | none => ⟨.throw, l, s⟩
  | some data =>
    match data.getProp "deliverTo", data.getProp "mobileNumber", data.getProp "dishes" with
    | some deliverTo, some mobileNumber, some dishes =>
      let newOrder : Order :=
        { id := .str nextId, deliverTo := deliverTo, mobileNumber := mobileNumber,
          dishes := dishes, status := .undefined }
      ⟨.respond 201 (.order newOrder), l, { s with orders := s.orders ++ [newOrder] }⟩
    | _, _, _ => ⟨.throw, l, s⟩

/-- The handler `list`. -/
def list : Middleware := fun _ l s => ⟨.respond 200 (.orderList s.orders), l, s⟩

/-- The handler `read`: sends `res.locals.order`. -/
def read : Middleware := fun _ l s =>
  match l.order.bind (fun i => s.orders[i]?) with
  | some order => ⟨.respond 200 (.order order), l, s⟩
  | none => ⟨.respond 200 .empty, l, s⟩

/-- The handler `update`. -/
def update : Middleware := fun req l s =>
  match JsVal.dataOf req.body with
  | none => ⟨.throw, l, s⟩
  | some data =>
    match data.getProp "deliverTo", data.getProp "mobileNumber", data.getProp "dishes",
        data.getProp "status" with
    | some deliverTo, some mobileNumber, some dishes, some status =>
      match l.order.bind (fun i => (s.orders[i]?).map (fun order => (i, order))) with
      | none => ⟨.throw, l, s⟩
      | some (i, order) =>
        let order' : Order :=
          { order with deliverTo := deliverTo, mobileNumber := mobileNumber,
                       dishes := dishes, status := status }
        ⟨.respond 200 (.order order'), l, { s with orders := s.orders.set i order' }⟩
    | _, _, _, _ => ⟨.throw, l, s⟩

/-- The handler `destroy`. -/
def destroy : Middleware := fun req l s =>
  match findIdx (fun order => order.id.eqStr req.routeId) s.orders with
  | none => ⟨.error 404 ("Order not found: " ++ req.routeId), l, s⟩
  | some index =>
    match s.orders[index]? with
    | none => ⟨.throw, l, s⟩
    | some order =>
      if !order.status.eqStr "pending" then
        ⟨.error 400 "An order cannot be deleted unless it is pending", l, s⟩
      else ⟨.respond 204 .empty, l, { s with orders := s.orders.eraseIdx index }⟩

namespace exports

/-- The chain `module.exports.create`. -/
def create (nextId : String) : List Middleware :=
  [validateDeliverTo, validateMobileNumber, validateDishes, validateDishQuantity,
   Orders.create nextId]

/-- The chain `module.exports.read`. -/
def read : List Middleware := [orderExists, Orders.read]

/-- The chain `module.exports.update`. -/
def update (toStr : JsVal → Option String) : List Middleware :=
  [orderExists, validateDeliverTo, validateMobileNumber, validateDishes,
   validateDishQuantity, validateOrderIdMatch toStr, validateOrderStatus,
   validateOrderDelivered, Orders.update]

/-- The chain `module.exports.destroy`. -/
def destroy : List Middleware := [orderExists, Orders.destroy]

end exports

end Orders

/-! ## Properties of middlewares, and sample data -/

/-- A middleware that changes the store only when it sends a response. -/
def Atomic (m : Middleware) : Prop :=
  ∀ req l s, (m req l s).store = s ∨ ∃ st b, (m req l s).signal = .respond st b

/-- A check: a middleware that leaves both `res.locals` and the store as they
were and never sends a response. -/
def Pure (m : Middleware) : Prop :=
  ∀ req l s, (m req l s).locals = l ∧ (m req l s).store = s ∧
    ∀ st b, (m req l s).signal ≠ .respond st b

/-- A string conversion for the sample requests: a string converts to itself, an
object with an own `toString` property cannot be converted; the samples convert
no other value. -/
def sampleToStr : JsVal → Option String
  | .str s => some s
  | .obj fields => if fields.any (fun f => f.1 == "toString") then none else some "[object Object]"
  | _ => none

/-- A request body `{ data: { ...fields } }`. -/
def bodyOf (fields : List (String × JsVal)) : JsVal := .obj [("data", .obj fields)]

/-- An order line `{ dishId, quantity }`. -/
def line (dishId : String) (quantity : JsVal) : JsVal :=
  .obj [("dishId", .str dishId), ("quantity", quantity)]

/-- A sample dish. -/
def dishA : Dish :=
  { id := .str "d1", name := .str "Taco", description := .str "A taco", price := .int 3,
    image_url := .str "taco.png" }

/-- A sample order with status `pending`. -/
def orderPending : Order :=
  { id := .str "o1", deliverTo := .str "120 SW", mobileNumber := .str "555-1234",
    dishes := .arr [line "d1" (.int 2)], status := .str "pending" }

/-- A sample order with status `delivered`. -/
def orderDelivered : Order :=
  { id := .str "o2", deliverTo := .str "8 Main St", mobileNumber := .str "555-9876",
    dishes := .arr [line "d1" (.int 1)], status := .str "delivered" }

/-- A sample store: one dish, a pending order `o1` and a delivered order `o2`. -/
def sampleStore : Store := { dishes := [dishA], orders := [orderPending, orderDelivered] }

/-- A store with two pending orders carrying the same id `o1`. -/
def twinStore : Store :=
  { dishes := [], orders := [orderPending, { orderPending with deliverTo := .str "77 Elm St" }] }

/-- A valid order payload, asking for status `pending`. -/
def sampleOrderPayload : JsVal :=
  bodyOf [("deliverTo", .str "9 Oak Ave"), ("mobileNumber", .str "555-0000"),
    ("dishes", .arr [line "d1" (.int 4)]), ("status", .str "pending")]

/-- A dish update payload with valid fields and the id `d9`. -/
def mismatchedDishPayload : JsVal :=
  bodyOf [("id", .str "d9"), ("name", .str "Soup"), ("description", .str "Hot"),
    ("image_url", .str "soup.png"), ("price", .int 7)]

/-- A valid order payload with status `preparing` whose `id` is the number `0`. -/
def zeroIdOrderPayload : JsVal :=
  bodyOf [("id", .int 0), ("deliverTo", .str "9 Oak Ave"), ("mobileNumber", .str "555-0000"),
    ("dishes", .arr [line "d1" (.int 4)]), ("status", .str "preparing")]

/-- A valid order payload with status `preparing` whose `id` is `o9`. -/
def mismatchedOrderPayload : JsVal :=
  bodyOf [("id", .str "o9"), ("deliverTo", .str "9 Oak Ave"), ("mobileNumber", .str "555-0000"),
    ("dishes", .arr [line "d1" (.int 4)]), ("status", .str "preparing")]

/-! ## The data invariants of the data model -/

/-- A field that is present and not the empty string (the "non-empty" of the
field check: neither `undefined` nor `""`). -/
def presentNonEmpty (v : JsVal) : Bool := v.isDefined && !v.isEmptyStr

/-- The dish data invariant, for a reading `nonEmpty` of "non-empty": a strictly
positive integer `price`, and non-empty `name`, `description` and `image_url`. -/
def dishWellFormed (nonEmpty : JsVal → Bool) (dish : Dish) : Bool :=
  dish.price.isInteger && dish.price.gtZero && nonEmpty dish.name &&
    nonEmpty dish.description && nonEmpty dish.image_url

/-- The rule for one order line: it has a strictly positive integer `quantity`. -/
def lineWellFormed (line : JsVal) : Bool :=
  match line.getProp "quantity" with
  | some quantity => quantity.isInteger && quantity.gtZero
  | none => false

/-- The order data invariant: `dishes` is a non-empty sequence of well-formed
lines, and `status` is unset or one of the four enumerated values. -/
def orderWellFormed (order : Order) : Bool :=
  (match order.dishes with
    | .arr (first :: rest) => (first :: rest).all lineWellFormed
    | _ => false) &&
    (!order.status.isDefined || Orders.validStatuses.any (fun t => order.status.eqStr t))

/-- Every order of the store satisfies the order data invariant. -/
def ordersWellFormed (s : Store) : Bool := s.orders.all orderWellFormed

end GrubDash

/-! ## Theorems -/

namespace GrubDash

/-! ### The chain runner -/

theorem runChain_cons_of_next {m : Middleware} {ms : List Middleware} {req : Request}
    {l : Locals} {s : Store} (h : (m req l s).signal = .next) :
    runChain (m :: ms) req l s = runChain ms req (m req l s).locals (m req l s).store := by
  rcases hm : m req l s with ⟨sig, l', s'⟩
  rw [hm] at h
  simp only at h
  subst h
  simp [runChain, hm]

theorem runChain_cons_of_stop {m : Middleware} {ms : List Middleware} {req : Request}
    {l : Locals} {s : Store} (h : (m req l s).signal ≠ .next) :
    runChain (m :: ms) req l s = m req l s := by
  rcases hm : m req l s with ⟨sig, l', s'⟩
  rw [hm] at h
  simp only at h
  cases sig with
  | next => exact absurd rfl h
  | error st msg => simp [runChain, hm]
  | throw => simp [runChain, hm]
  | respond st b => simp [runChain, hm]

theorem runChain_cons_pure_next {m : Middleware} {ms : List Middleware} {req : Request}
    {l : Locals} {s : Store} (hp : Pure m) (h : (m req l s).signal = .next) :
    runChain (m :: ms) req l s = runChain ms req l s := by
  rw [runChain_cons_of_next h, (hp req l s).1, (hp req l s).2.1]

theorem runChain_cons_error {m : Middleware} {ms : List Middleware} {req : Request}
    {l : Locals} {s : Store} {st : Nat} {msg : String}
    (h : (m req l s).signal = .error st msg) :
    runChain (m :: ms) req l s = m req l s :=
  runChain_cons_of_stop (by rw [h]; exact Signal.noConfusion)

theorem atomic_of_pure {m : Middleware} (h : Pure m) : Atomic m :=
  fun req l s => Or.inl (h req l s).2.1

theorem atomic_runChain {ms : List Middleware} (h : ∀ m ∈ ms, Atomic m) :
    Atomic (runChain ms) := by
  induction ms with
  | nil => intro req l s; left; rfl
  | cons m ms ih =>
    intro req l s
    have hm := h m (List.mem_cons_self _ _)
    have ih' := ih (fun m' hm' => h m' (List.mem_cons_of_mem _ hm'))
    by_cases hn : (m req l s).signal = .next
    · rw [runChain_cons_of_next hn]
      rcases hm req l s with hs | ⟨st, b, hr⟩
      · rw [hs]
        exact ih' req _ s
      · rw [hr] at hn; cases hn
    · rw [runChain_cons_of_stop hn]
      exact hm req l s

/-! ### Effects of the dish middlewares -/

namespace Dishes

theorem pure_validateProperties (p : String) : Pure (validateProperties p) := by
  intro req l s
  unfold validateProperties
  split
  · exact ⟨rfl, rfl, fun _ _ h => nomatch h⟩
  · split
    · exact ⟨rfl, rfl, fun _ _ h => nomatch h⟩
    · split <;> exact ⟨rfl, rfl, fun _ _ h => nomatch h⟩

theorem pure_validatePrice : Pure validatePrice := by
  intro req l s
  unfold validatePrice
  split
  · exact ⟨rfl, rfl, fun _ _ h => nomatch h⟩
  · split <;> exact ⟨rfl, rfl, fun _ _ h => nomatch h⟩

theorem store_dishExists (req : Request) (l : Locals) (s : Store) :
    (dishExists req l s).store = s := by
  unfold dishExists
  split <;> rfl

theorem atomic_dish_create (nextId : String) : Atomic (create nextId) := by
  intro req l s
  unfold create
  split
  · left; rfl
  · split
    · right; exact ⟨_, _, rfl⟩
    · left; rfl

theorem atomic_dish_update (toStr : JsVal → Option String) : Atomic (update toStr) := by
  intro req l s
  unfold update
  split
  · left; rfl
  · split
    · split
      · split <;> (left; rfl)
      · split
        · left; rfl
        · right; exact ⟨_, _, rfl⟩
    · left; rfl

theorem atomic_dish_exports_create (nextId : String) : Atomic (runChain (exports.create nextId)) := by
  apply atomic_runChain
  intro m hm
  simp only [exports.create, List.mem_cons, List.mem_singleton, List.not_mem_nil,
    or_false] at hm
  rcases hm with rfl | rfl | rfl | rfl | rfl
  · exact atomic_of_pure (pure_validateProperties _)
  · exact atomic_of_pure (pure_validateProperties _)
  · exact atomic_of_pure (pure_validateProperties _)
  · exact atomic_of_pure pure_validatePrice
  · exact atomic_dish_create _

theorem atomic_dish_exports_update (toStr : JsVal → Option String) :
    Atomic (runChain (exports.update toStr)) := by
  apply atomic_runChain
  intro m hm
  simp only [exports.update, List.mem_cons, List.mem_singleton, List.not_mem_nil,
    or_false] at hm
  rcases hm with rfl | rfl | rfl | rfl | rfl | rfl
  · exact fun req l s => Or.inl (store_dishExists req l s)
  · exact atomic_of_pure (pure_validateProperties _)
  · exact atomic_of_pure (pure_validateProperties _)
  · exact atomic_of_pure (pure_validateProperties _)
  · exact atomic_of_pure pure_validatePrice
  · exact atomic_dish_update _

end Dishes

/-! ### Effects of the order middlewares -/

namespace Orders

theorem store_orderExists (req : Request) (l : Locals) (s : Store) :
    (orderExists req l s).store = s := by
  unfold orderExists
  split <;> rfl

theorem pure_validateDeliverTo : Pure validateDeliverTo := by
  intro req l s
  unfold validateDeliverTo
  split
  · exact ⟨rfl, rfl, fun _ _ h => nomatch h⟩
  · split <;> exact ⟨rfl, rfl, fun _ _ h => nomatch h⟩

theorem pure_validateMobileNumber : Pure validateMobileNumber := by
  intro req l s
  unfold validateMobileNumber
  split
  · exact ⟨rfl, rfl, fun _ _ h => nomatch h⟩
  · split <;> exact ⟨rfl, rfl, fun _ _ h => nomatch h⟩

theorem pure_validateDishes : Pure validateDishes := by
  intro req l s
  unfold validateDishes
  split
  · exact ⟨rfl, rfl, fun _ _ h => nomatch h⟩
  · split
    · exact ⟨rfl, rfl, fun _ _ h => nomatch h⟩
    · split <;> exact ⟨rfl, rfl, fun _ _ h => nomatch h⟩

theorem pure_validateDishQuantity : Pure validateDishQuantity := by
  intro req l s
  unfold validateDishQuantity
  split
  · split
    · exact ⟨rfl, rfl, fun _ _ h => nomatch h⟩
    · exact ⟨rfl, rfl, fun _ _ h => nomatch h⟩
    · split <;> exact ⟨rfl, rfl, fun _ _ h => nomatch h⟩
  · exact ⟨rfl, rfl, fun _ _ h => nomatch h⟩

theorem pure_validateOrderIdMatch (toStr : JsVal → Option String) :
    Pure (validateOrderIdMatch toStr) := by
  intro req l s
  unfold validateOrderIdMatch
  split
  · exact ⟨rfl, rfl, fun _ _ h => nomatch h⟩
  · split
    · split <;> exact ⟨rfl, rfl, fun _ _ h => nomatch h⟩
    · exact ⟨rfl, rfl, fun _ _ h => nomatch h⟩

theorem pure_validateOrderStatus : Pure validateOrderStatus := by
  intro req l s
  unfold validateOrderStatus
  split
  · exact ⟨rfl, rfl, fun _ _ h => nomatch h⟩
  · split <;> exact ⟨rfl, rfl, fun _ _ h => nomatch h⟩

theorem pure_validateOrderDelivered : Pure validateOrderDelivered := by
  intro req l s
  unfold validateOrderDelivered
  split
  · exact ⟨rfl, rfl, fun _ _ h => nomatch h⟩
  · split <;> exact ⟨rfl, rfl, fun _ _ h => nomatch h⟩

theorem atomic_order_create (nextId : String) : Atomic (create nextId) := by
  intro req l s
  unfold create
  split
  · left; rfl
  · split
    · right; exact ⟨_, _, rfl⟩
    · left; rfl

theorem atomic_order_update : Atomic update := by
  intro req l s
  unfold update
  split
  · left; rfl
  · split
    · split
      · left; rfl
      · right; exact ⟨_, _, rfl⟩
    · left; rfl

theorem atomic_order_destroy : Atomic destroy := by
  intro req l s
  unfold destroy
  split
  · left; rfl
  · split
    · left; rfl
    · split
      · left; rfl
      · right; exact ⟨_, _, rfl⟩

theorem atomic_order_exports_create (nextId : String) : Atomic (runChain (exports.create nextId)) := by
  apply atomic_runChain
  intro m hm
  simp only [exports.create, List.mem_cons, List.mem_singleton, List.not_mem_nil,
    or_false] at hm
  rcases hm with rfl | rfl | rfl | rfl | rfl
  · exact atomic_of_pure pure_validateDeliverTo
  · exact atomic_of_pure pure_validateMobileNumber
  · exact atomic_of_pure pure_validateDishes
  · exact atomic_of_pure pure_validateDishQuantity
  · exact atomic_order_create _

theorem atomic_order_exports_update (toStr : JsVal → Option String) :
    Atomic (runChain (exports.update toStr)) := by
  apply atomic_runChain
  intro m hm
  simp only [exports.update, List.mem_cons, List.mem_singleton, List.not_mem_nil,
    or_false] at hm
  rcases hm with rfl | rfl | rfl | rfl | rfl | rfl | rfl | rfl | rfl
  · exact fun req l s => Or.inl (store_orderExists req l s)
  · exact atomic_of_pure pure_validateDeliverTo
  · exact atomic_of_pure pure_validateMobileNumber
  · exact atomic_of_pure pure_validateDishes
  · exact atomic_of_pure pure_validateDishQuantity
  · exact atomic_of_pure (pure_validateOrderIdMatch _)
  · exact atomic_of_pure pure_validateOrderStatus
  · exact atomic_of_pure pure_validateOrderDelivered
  · exact atomic_order_update

theorem atomic_order_exports_destroy : Atomic (runChain exports.destroy) := by
  apply atomic_runChain
  intro m hm
  simp only [exports.destroy, List.mem_cons, List.mem_singleton, List.not_mem_nil,
    or_false] at hm
  rcases hm with rfl | rfl
  · exact fun req l s => Or.inl (store_orderExists req l s)
  · exact atomic_order_destroy

end Orders

/-! ### C1: a failing chain leaves the store untouched -/

/-- C1. Atomicity of the handler chains: for every store, every request and
each of the chains dish create, dish update, order create, order update and
order destroy, if the chain ends in an error passed to `next` (a 400 or a 404),
the store after the request (both collections, entry by entry) is the store
before it. -/
theorem failed_chain_leaves_store_unchanged (nextId : String) (toStr : JsVal → Option String)
    (chain : List Middleware) (req : Request) (s : Store) (status : Nat) (message : String)
    (hchain : chain = Dishes.exports.create nextId ∨ chain = Dishes.exports.update toStr ∨
      chain = Orders.exports.create nextId ∨ chain = Orders.exports.update toStr ∨
      chain = Orders.exports.destroy)
    (herr : (runChain chain req noLocals s).signal = .error status message) :
    (runChain chain req noLocals s).store = s := by
  have hat : Atomic (runChain chain) := by
    rcases hchain with rfl | rfl | rfl | rfl | rfl
    · exact Dishes.atomic_dish_exports_create _
    · exact Dishes.atomic_dish_exports_update _
    · exact Orders.atomic_order_exports_create _
    · exact Orders.atomic_order_exports_update _
    · exact Orders.atomic_order_exports_destroy
  rcases hat req noLocals s with h | ⟨st, b, h⟩
  · exact h
  · rw [h] at herr
    cases herr

/-- Witness for C1: deleting the delivered order `o2` of the sample store fails
with a 400 and leaves the store as it was. -/
theorem failed_chain_leaves_store_unchanged_witness :
    (runChain Orders.exports.destroy ⟨"o2", .obj []⟩ noLocals sampleStore).signal =
        .error 400 "An order cannot be deleted unless it is pending" ∧
      (runChain Orders.exports.destroy ⟨"o2", .obj []⟩ noLocals sampleStore).store =
        sampleStore :=
  ⟨rfl, failed_chain_leaves_store_unchanged "n1" sampleToStr Orders.exports.destroy
    ⟨"o2", .obj []⟩ sampleStore 400 "An order cannot be deleted unless it is pending"
    (Or.inr (Or.inr (Or.inr (Or.inr rfl)))) rfl⟩

/-! ### Lists: the first match -/

theorem findIdx_append_cons {α : Type} (p : α → Bool) (pre : List α) (o : α) (post : List α)
    (hpre : ∀ x ∈ pre, p x = false) (ho : p o = true) :
    findIdx p (pre ++ o :: post) = some pre.length := by
  induction pre with
  | nil => simp [findIdx, ho]
  | cons x xs ih =>
    have hx : p x = false := hpre x (List.mem_cons_self _ _)
    have h := ih (fun y hy => hpre y (List.mem_cons_of_mem _ hy))
    simp [findIdx, hx, h]

theorem findIdx_eq_none {α : Type} (p : α → Bool) (xs : List α)
    (h : ∀ x ∈ xs, p x = false) : findIdx p xs = none := by
  induction xs with
  | nil => rfl
  | cons x xs ih =>
    have hx : p x = false := h x (List.mem_cons_self _ _)
    have h' := ih (fun y hy => h y (List.mem_cons_of_mem _ hy))
    simp [findIdx, hx, h']

theorem findIdx_some_split {α : Type} (p : α → Bool) (xs : List α) (i : Nat)
    (h : findIdx p xs = some i) :
    ∃ pre o post, xs = pre ++ o :: post ∧ pre.length = i ∧ (∀ x ∈ pre, p x = false) ∧
      p o = true := by
  induction xs generalizing i with
  | nil => simp [findIdx] at h
  | cons x xs ih =>
    by_cases hx : p x = true
    · simp [findIdx, hx] at h
      exact ⟨[], x, xs, rfl, by simpa using h, by simp, hx⟩
    · have hx' : p x = false := by simpa using hx
      simp only [findIdx, hx', Bool.false_eq_true, if_false, Option.map_eq_some'] at h
      obtain ⟨j, hj, rfl⟩ := h
      obtain ⟨pre, o, post, rfl, hlen, hpre, ho⟩ := ih j hj
      refine ⟨x :: pre, o, post, rfl, by simp [hlen], ?_, ho⟩
      intro y hy
      rcases List.mem_cons.mp hy with rfl | hy
      · exact hx'
      · exact hpre y hy

theorem findIdx_none_all {α : Type} (p : α → Bool) (xs : List α)
    (h : findIdx p xs = none) : ∀ x ∈ xs, p x = false := by
  induction xs with
  | nil => simp
  | cons x xs ih =>
    by_cases hx : p x = true
    · simp [findIdx, hx] at h
    · have hx' : p x = false := by simpa using hx
      simp only [findIdx, hx', Bool.false_eq_true, if_false, Option.map_eq_none'] at h
      intro y hy
      rcases List.mem_cons.mp hy with rfl | hy
      · exact hx'
      · exact ih h y hy

/-- Every list with an element satisfying `p` splits at its first such element. -/
theorem exists_first_match {α : Type} (p : α → Bool) (xs : List α)
    (h : ∃ x ∈ xs, p x = true) :
    ∃ pre o post, xs = pre ++ o :: post ∧ (∀ x ∈ pre, p x = false) ∧ p o = true := by
  cases hf : findIdx p xs with
  | none =>
    obtain ⟨x, hx, hpx⟩ := h
    rw [findIdx_none_all p xs hf x hx] at hpx
    cases hpx
  | some i =>
    obtain ⟨pre, o, post, hxs, -, hpre, ho⟩ := findIdx_some_split p xs i hf
    exact ⟨pre, o, post, hxs, hpre, ho⟩

theorem getElem?_append_cons_length {α : Type} (pre : List α) (o : α) (post : List α) :
    (pre ++ o :: post)[pre.length]? = some o := by
  induction pre with
  | nil => simp
  | cons x xs ih => simpa using ih

theorem eraseIdx_append_cons_length {α : Type} (pre : List α) (o : α) (post : List α) :
    (pre ++ o :: post).eraseIdx pre.length = pre ++ post := by
  induction pre with
  | nil => rfl
  | cons x xs ih => simp [ih]

theorem set_append_cons_length {α : Type} (pre : List α) (o o' : α) (post : List α) :
    (pre ++ o :: post).set pre.length o' = pre ++ o' :: post := by
  induction pre with
  | nil => rfl
  | cons x xs ih => simp [ih]

/-! ### The first failing check -/

/-- Running checks `cs` before the rest `ms` of a chain: the result is that of the
first check that does not call `next()`, and the rest runs only if every check
passes. -/
theorem runChain_checks {cs ms : List Middleware} {req : Request} {l : Locals} {s : Store}
    (hp : ∀ c ∈ cs, Pure c) :
    (∀ pre c post, cs = pre ++ c :: post → (∀ c' ∈ pre, (c' req l s).signal = .next) →
        (c req l s).signal ≠ .next → runChain (cs ++ ms) req l s = c req l s) ∧
      ((∀ c ∈ cs, (c req l s).signal = .next) →
        runChain (cs ++ ms) req l s = runChain ms req l s) := by
  induction cs with
  | nil =>
    constructor
    · intro pre c post h
      simp at h
    · intro _
      rfl
  | cons c0 cs ih =>
    have hp0 : Pure c0 := hp c0 (List.mem_cons_self _ _)
    obtain ⟨ih1, ih2⟩ := ih (fun c hc => hp c (List.mem_cons_of_mem _ hc))
    constructor
    · intro pre c post h hpre hc
      cases pre with
      | nil =>
        simp only [List.nil_append, List.cons.injEq] at h
        obtain ⟨rfl, -⟩ := h
        exact runChain_cons_of_stop hc
      | cons p pre =>
        simp only [List.cons_append, List.cons.injEq] at h
        obtain ⟨rfl, rfl⟩ := h
        have h0 : (c0 req l s).signal = .next := hpre c0 (List.mem_cons_self _ _)
        rw [List.cons_append, runChain_cons_pure_next hp0 h0]
        exact ih1 pre c post rfl (fun c' hc' => hpre c' (List.mem_cons_of_mem _ hc')) hc
    · intro hall
      have h0 : (c0 req l s).signal = .next := hall c0 (List.mem_cons_self _ _)
      rw [List.cons_append, runChain_cons_pure_next hp0 h0]
      exact ih2 (fun c hc => hall c (List.mem_cons_of_mem _ hc))

/-! ### Reading values -/

theorem eqStr_eq_true {v : JsVal} {s : String} : v.eqStr s = true ↔ v = .str s := by
  cases v <;> simp [JsVal.eqStr]

theorem eqStr_eq_false {v : JsVal} {s : String} : v.eqStr s = false ↔ v ≠ .str s := by
  cases v <;> simp [JsVal.eqStr]

namespace Orders

/-! ### The existence lookup and `destroy` -/

theorem orderExists_found (req : Request) (l : Locals) (s : Store) (pre post : List Order)
    (o : Order) (hs : s.orders = pre ++ o :: post)
    (hpre : ∀ x ∈ pre, x.id.eqStr req.routeId = false) (hid : o.id.eqStr req.routeId = true) :
    orderExists req l s = ⟨.next, { l with order := some pre.length }, s⟩ := by
  unfold orderExists
  rw [hs, findIdx_append_cons (fun order : Order => order.id.eqStr req.routeId) pre o post hpre hid]

theorem orderExists_missing (req : Request) (l : Locals) (s : Store)
    (h : ∀ x ∈ s.orders, x.id.eqStr req.routeId = false) :
    orderExists req l s = ⟨.error 404 ("Order not found: " ++ req.routeId), l, s⟩ := by
  unfold orderExists
  rw [findIdx_eq_none (fun order : Order => order.id.eqStr req.routeId) s.orders h]

theorem destroy_found (req : Request) (l : Locals) (s : Store) (pre post : List Order)
    (o : Order) (hs : s.orders = pre ++ o :: post)
    (hpre : ∀ x ∈ pre, x.id.eqStr req.routeId = false) (hid : o.id.eqStr req.routeId = true) :
    destroy req l s =
      if !o.status.eqStr "pending" then
        ⟨.error 400 "An order cannot be deleted unless it is pending", l, s⟩
      else ⟨.respond 204 .empty, l, { s with orders := pre ++ post }⟩ := by
  unfold destroy
  rw [hs, findIdx_append_cons (fun order : Order => order.id.eqStr req.routeId) pre o post hpre hid]
  simp only [getElem?_append_cons_length, eraseIdx_append_cons_length]

theorem exports_destroy_found (req : Request) (s : Store) (pre post : List Order)
    (o : Order) (hs : s.orders = pre ++ o :: post)
    (hpre : ∀ x ∈ pre, x.id.eqStr req.routeId = false) (hid : o.id.eqStr req.routeId = true) :
    runChain exports.destroy req noLocals s =
      if !o.status.eqStr "pending" then
        ⟨.error 400 "An order cannot be deleted unless it is pending",
          { noLocals with order := some pre.length }, s⟩
      else ⟨.respond 204 .empty, { noLocals with order := some pre.length },
          { s with orders := pre ++ post }⟩ := by
  have h1 := orderExists_found req noLocals s pre post o hs hpre hid
  have hn : (orderExists req noLocals s).signal = .next := by rw [h1]
  unfold exports.destroy
  rw [runChain_cons_of_next hn, h1]
  simp only
  have h2 := destroy_found req { noLocals with order := some pre.length } s pre post o hs hpre hid
  by_cases hp : o.status.eqStr "pending" = true
  · simp only [hp, Bool.not_true, Bool.false_eq_true, if_false] at h2 ⊢
    rw [runChain_cons_of_stop (by rw [h2]; exact Signal.noConfusion), h2]
  · have hp' : o.status.eqStr "pending" = false := by simpa using hp
    simp only [hp', Bool.not_false, if_true] at h2 ⊢
    rw [runChain_cons_of_stop (by rw [h2]; exact Signal.noConfusion), h2]

end Orders

/-! ### C3: the delete rule -/

/-- C3, counterexample. In a store holding two pending orders with id `o1`, order
destroy on `o1` succeeds with 204 and removes the first of them only: an order
with that id is still in the collection afterwards. -/
theorem destroy_can_leave_an_order_with_the_id :
    (runChain Orders.exports.destroy ⟨"o1", .obj []⟩ noLocals twinStore).signal =
        .respond 204 .empty ∧
      ¬ (∀ x ∈ (runChain Orders.exports.destroy ⟨"o1", .obj []⟩ noLocals twinStore).store.orders,
          x.id ≠ .str "o1") := by
  refine ⟨rfl, ?_⟩
  intro h
  exact h { orderPending with deliverTo := .str "77 Elm St" } (List.mem_singleton.mpr rfl) rfl

/-- C3, amended. Let `o` be the first order of the store whose id is the route id
(the store's orders are `pre ++ o :: post`, no order of `pre` has that id).
If the status of `o` is `pending`, order destroy succeeds with 204 and the
collection becomes `pre ++ post`: exactly that entry is removed, the length
decreases by one, the other entries keep their order, and no order with that id
remains exactly when no later entry carried the same id (so always, when ids are
pairwise distinct).  If the status of `o` is anything else (also absent), order
destroy fails with the 400 not-pending error and the store is unchanged. -/
theorem destroy_removes_first_match_iff_pending (req : Request) (s : Store)
    (pre post : List Order) (o : Order) (hs : s.orders = pre ++ o :: post)
    (hpre : ∀ x ∈ pre, x.id.eqStr req.routeId = false) (hid : o.id.eqStr req.routeId = true) :
    (o.status = .str "pending" →
      (runChain Orders.exports.destroy req noLocals s).signal = .respond 204 .empty ∧
      (runChain Orders.exports.destroy req noLocals s).store = { s with orders := pre ++ post } ∧
      (runChain Orders.exports.destroy req noLocals s).store.orders.length + 1 =
        s.orders.length ∧
      ((∀ x ∈ (runChain Orders.exports.destroy req noLocals s).store.orders,
          x.id.eqStr req.routeId = false) ↔ ∀ x ∈ post, x.id.eqStr req.routeId = false)) ∧
    (o.status ≠ .str "pending" →
      (runChain Orders.exports.destroy req noLocals s).signal =
        .error 400 "An order cannot be deleted unless it is pending" ∧
      (runChain Orders.exports.destroy req noLocals s).store = s) := by
  have h := Orders.exports_destroy_found req s pre post o hs hpre hid
  constructor
  · intro hst
    have hp : o.status.eqStr "pending" = true := eqStr_eq_true.mpr hst
    simp only [hp, Bool.not_true, Bool.false_eq_true, if_false] at h
    rw [h]
    refine ⟨rfl, rfl, ?_, ?_⟩
    · simp only [hs, List.length_append, List.length_cons]
      omega
    · simp only [List.mem_append]
      constructor
      · intro hall x hx
        exact hall x (Or.inr hx)
      · intro hall x hx
        rcases hx with hx | hx
        · exact hpre x hx
        · exact hall x hx
  · intro hst
    have hp : o.status.eqStr "pending" = false := eqStr_eq_false.mpr hst
    simp only [hp, Bool.not_false, if_true] at h
    rw [h]
    exact ⟨rfl, rfl⟩

/-- Witness for C3: in the sample store, deleting the pending order `o1` leaves
only the delivered order `o2`. -/
theorem destroy_removes_first_match_iff_pending_witness :
    (runChain Orders.exports.destroy ⟨"o1", .obj []⟩ noLocals sampleStore).signal =
        .respond 204 .empty ∧
      (runChain Orders.exports.destroy ⟨"o1", .obj []⟩ noLocals sampleStore).store =
        { sampleStore with orders := [orderDelivered] } :=
  have h := (destroy_removes_first_match_iff_pending ⟨"o1", .obj []⟩ sampleStore []
    [orderDelivered] orderPending rfl (fun _ hx => nomatch hx) rfl).1 rfl
  ⟨h.1, h.2.1⟩

/-- Running checks `cs` before the rest `ms` of a chain: either some check is the
first not to call `next()` and the chain ends with its result, or every check
passes and the rest runs on the same `res.locals` and store. -/
theorem runChain_checks_cases (cs ms : List Middleware) (req : Request) (l : Locals)
    (s : Store) (hp : ∀ c ∈ cs, Pure c) :
    (∃ pre c post, cs = pre ++ c :: post ∧ (∀ c' ∈ pre, (c' req l s).signal = .next) ∧
        (c req l s).signal ≠ .next ∧ runChain (cs ++ ms) req l s = c req l s) ∨
      ((∀ c ∈ cs, (c req l s).signal = .next) ∧
        runChain (cs ++ ms) req l s = runChain ms req l s) := by
  induction cs with
  | nil => exact Or.inr ⟨by simp, rfl⟩
  | cons c0 cs ih =>
    have hp0 : Pure c0 := hp c0 (List.mem_cons_self _ _)
    by_cases h0 : (c0 req l s).signal = .next
    · rcases ih (fun c hc => hp c (List.mem_cons_of_mem _ hc)) with
        ⟨pre, c, post, rfl, hpre, hc, hr⟩ | ⟨hall, hr⟩
      · refine Or.inl ⟨c0 :: pre, c, post, rfl, ?_, hc, ?_⟩
        · intro c' hc'
          rcases List.mem_cons.mp hc' with rfl | hc'
          · exact h0
          · exact hpre c' hc'
        · rw [List.cons_append, runChain_cons_pure_next hp0 h0]
          exact hr
      · refine Or.inr ⟨?_, ?_⟩
        · intro c hc
          rcases List.mem_cons.mp hc with rfl | hc
          · exact h0
          · exact hall c hc
        · rw [List.cons_append, runChain_cons_pure_next hp0 h0]
          exact hr
    · exact Or.inl ⟨[], c0, cs, rfl, by simp, h0, runChain_cons_of_stop h0⟩

namespace Orders

/-! ### The payload checks do not read `res.locals` or the store -/

theorem validateDeliverTo_signal (req : Request) (l l' : Locals) (s s' : Store) :
    (validateDeliverTo req l s).signal = (validateDeliverTo req l' s').signal := by
  unfold validateDeliverTo
  split
  · rfl
  · split <;> rfl

theorem validateMobileNumber_signal (req : Request) (l l' : Locals) (s s' : Store) :
    (validateMobileNumber req l s).signal = (validateMobileNumber req l' s').signal := by
  unfold validateMobileNumber
  split
  · rfl
  · split <;> rfl

theorem validateDishes_signal (req : Request) (l l' : Locals) (s s' : Store) :
    (validateDishes req l s).signal = (validateDishes req l' s').signal := by
  unfold validateDishes
  split
  · rfl
  · split
    · rfl
    · split <;> rfl

theorem validateDishQuantity_signal (req : Request) (l l' : Locals) (s s' : Store) :
    (validateDishQuantity req l s).signal = (validateDishQuantity req l' s').signal := by
  unfold validateDishQuantity
  split
  · split
    · rfl
    · rfl
    · split <;> rfl
  · rfl

theorem validateOrderIdMatch_signal (toStr : JsVal → Option String) (req : Request) (l l' : Locals)
    (s s' : Store) :
    (validateOrderIdMatch toStr req l s).signal = (validateOrderIdMatch toStr req l' s').signal := by
  unfold validateOrderIdMatch
  split
  · rfl
  · split
    · split <;> rfl
    · rfl

theorem validateOrderStatus_signal (req : Request) (l l' : Locals) (s s' : Store) :
    (validateOrderStatus req l s).signal = (validateOrderStatus req l' s').signal := by
  unfold validateOrderStatus
  split
  · rfl
  · split <;> rfl

/-- The seven checks of the order update chain that follow the existence lookup. -/
theorem pure_update_checks (toStr : JsVal → Option String) :
    ∀ c ∈ [validateDeliverTo, validateMobileNumber, validateDishes, validateDishQuantity,
      validateOrderIdMatch toStr, validateOrderStatus, validateOrderDelivered], Pure c := by
  intro c hc
  simp only [List.mem_cons, List.mem_singleton, List.not_mem_nil, or_false] at hc
  rcases hc with rfl | rfl | rfl | rfl | rfl | rfl | rfl
  · exact pure_validateDeliverTo
  · exact pure_validateMobileNumber
  · exact pure_validateDishes
  · exact pure_validateDishQuantity
  · exact pure_validateOrderIdMatch _
  · exact pure_validateOrderStatus
  · exact pure_validateOrderDelivered

theorem validateOrderDelivered_found (req : Request) (l : Locals) (s : Store)
    (pre post : List Order) (o : Order) (hs : s.orders = pre ++ o :: post)
    (hl : l.order = some pre.length) :
    validateOrderDelivered req l s =
      if o.status.eqStr "delivered" then ⟨.error 400 "A delivered order cannot be changed", l, s⟩
      else ⟨.next, l, s⟩ := by
  unfold validateOrderDelivered
  simp only [hl, hs, Option.bind, getElem?_append_cons_length]

end Orders

namespace Orders

/-- After a successful lookup the order update chain runs its seven checks and
then `update`, with the found order in `res.locals`. -/
theorem exports_update_found (toStr : JsVal → Option String) (req : Request) (s : Store)
    (pre post : List Order) (o : Order) (hs : s.orders = pre ++ o :: post)
    (hpre : ∀ x ∈ pre, x.id.eqStr req.routeId = false) (hid : o.id.eqStr req.routeId = true) :
    runChain (exports.update toStr) req noLocals s =
      runChain ([validateDeliverTo, validateMobileNumber, validateDishes, validateDishQuantity,
        validateOrderIdMatch toStr, validateOrderStatus, validateOrderDelivered] ++ [update])
        req { noLocals with order := some pre.length } s := by
  have h1 := orderExists_found req noLocals s pre post o hs hpre hid
  have hn : (orderExists req noLocals s).signal = .next := by rw [h1]
  unfold exports.update
  rw [runChain_cons_of_next hn, h1]
  rfl

/-- The six payload checks pass on any `res.locals` if they pass on one. -/
theorem payload_checks_pass (toStr : JsVal → Option String) (req : Request) (l l' : Locals)
    (s : Store)
    (h : ∀ c ∈ [validateDeliverTo, validateMobileNumber, validateDishes, validateDishQuantity,
      validateOrderIdMatch toStr, validateOrderStatus], (c req l s).signal = .next) :
    ∀ c ∈ [validateDeliverTo, validateMobileNumber, validateDishes, validateDishQuantity,
      validateOrderIdMatch toStr, validateOrderStatus], (c req l' s).signal = .next := by
  intro c hc
  have hcl := h c hc
  simp only [List.mem_cons, List.mem_singleton, List.not_mem_nil, or_false] at hc
  rcases hc with rfl | rfl | rfl | rfl | rfl | rfl
  · rw [validateDeliverTo_signal req l' l s s]; exact hcl
  · rw [validateMobileNumber_signal req l' l s s]; exact hcl
  · rw [validateDishes_signal req l' l s s]; exact hcl
  · rw [validateDishQuantity_signal req l' l s s]; exact hcl
  · rw [validateOrderIdMatch_signal toStr req l' l s s]; exact hcl
  · rw [validateOrderStatus_signal req l' l s s]; exact hcl

end Orders

/-! ### Reading the payload -/

theorem getProp_some_of_some {d : JsVal} {k : String} {v : JsVal}
    (h : JsVal.getProp d k = some v) (k' : String) : ∃ v', JsVal.getProp d k' = some v' := by
  cases d <;> simp [JsVal.getProp] at h ⊢

theorem dataField_eq_some {body : JsVal} {k : String} {v : JsVal}
    (h : JsVal.dataField body k = some v) :
    ∃ d, JsVal.dataOf body = some d ∧ JsVal.getProp d k = some v := by
  unfold JsVal.dataField at h
  cases hd : JsVal.dataOf body with
  | none => rw [hd] at h; cases h
  | some d => rw [hd] at h; exact ⟨d, rfl, h⟩

theorem dataField_some_of_some {body : JsVal} {k : String} {v : JsVal}
    (h : JsVal.dataField body k = some v) (k' : String) :
    ∃ v', JsVal.dataField body k' = some v' := by
  obtain ⟨d, hd, hg⟩ := dataField_eq_some h
  obtain ⟨v', hv'⟩ := getProp_some_of_some hg k'
  exact ⟨v', by simp [JsVal.dataField, hd, hv']⟩

theorem truthy_test (v : JsVal) : (v.truthy && !v.isEmptyStr && v.isDefined) = v.truthy := by
  cases v <;> simp [JsVal.truthy, JsVal.isEmptyStr, JsVal.eqStr, JsVal.isDefined]

theorem falsy_test (v : JsVal) : (!v.truthy || v.isEmptyStr) = !v.truthy := by
  cases v <;> simp [JsVal.truthy, JsVal.isEmptyStr, JsVal.eqStr]

theorem truthy_eq_false_iff (v : JsVal) :
    v.truthy = false ↔ v = .undefined ∨ v = .null ∨ v = .bool false ∨ (∃ e, v = .num 0 e) ∨
      v = .nan ∨ v = .str "" := by
  cases v <;> simp [JsVal.truthy]

namespace Dishes

theorem validateProperties_eq (p : String) (req : Request) (l : Locals) (s : Store) :
    validateProperties p req l s =
      match JsVal.dataField req.body p with
      | none => ⟨.throw, l, s⟩
      | some v =>
        if v.truthy then ⟨.next, l, s⟩ else ⟨.error 400 ("Dish must include a " ++ p), l, s⟩ := by
  unfold validateProperties JsVal.dataField
  cases JsVal.dataOf req.body with
  | none => rfl
  | some d =>
    dsimp only
    cases JsVal.getProp d p with
    | none => rfl
    | some v => simp only [truthy_test]

end Dishes

namespace Orders

theorem validateDeliverTo_eq (req : Request) (l : Locals) (s : Store) :
    validateDeliverTo req l s =
      match JsVal.dataField req.body "deliverTo" with
      | none => ⟨.throw, l, s⟩
      | some v =>
        if v.truthy then ⟨.next, l, s⟩ else ⟨.error 400 "Order must include a deliverTo", l, s⟩ := by
  unfold validateDeliverTo
  cases JsVal.dataField req.body "deliverTo" with
  | none => rfl
  | some v =>
    simp only [falsy_test]
    cases v.truthy <;> rfl

theorem validateMobileNumber_eq (req : Request) (l : Locals) (s : Store) :
    validateMobileNumber req l s =
      match JsVal.dataField req.body "mobileNumber" with
      | none => ⟨.throw, l, s⟩
      | some v =>
        if v.truthy then ⟨.next, l, s⟩
        else ⟨.error 400 "Order must include a mobileNumber", l, s⟩ := by
  unfold validateMobileNumber
  cases JsVal.dataField req.body "mobileNumber" with
  | none => rfl
  | some v =>
    simp only [falsy_test]
    cases v.truthy <;> rfl

end Orders

/-! ### C4: the quantity check -/

/-- C4. Order create on the payload
`{ deliverTo: "120 SW", mobileNumber: "555-1234", dishes: [0] }`: the only line,
the number `0`, has no `quantity`, so it fails the positive-integer-quantity
rule and `find` returns it; but the returned line is falsy, the test
`if (invalidDish)` takes it for "nothing found", and the order is created with
201 instead of being rejected with the 400 for index 0. -/
theorem create_accepts_falsy_line_without_quantity :
    JsVal.getProp (.int 0) "quantity" = some .undefined ∧
      Orders.badQuantity .undefined = true ∧
      Orders.findInvalid [.int 0] = some (some (0, .int 0)) ∧
      runChain (Orders.exports.create "n1")
          ⟨"", bodyOf [("deliverTo", .str "120 SW"), ("mobileNumber", .str "555-1234"),
            ("dishes", .arr [.int 0])]⟩ noLocals sampleStore =
        ⟨.respond 201 (.order ⟨.str "n1", .str "120 SW", .str "555-1234", .arr [.int 0],
            .undefined⟩), noLocals,
          { sampleStore with
            orders := sampleStore.orders ++
              [⟨.str "n1", .str "120 SW", .str "555-1234", .arr [.int 0], .undefined⟩] }⟩ :=
  ⟨rfl, rfl, rfl, rfl⟩

/-! ### The checks of dish create -/

namespace Dishes

theorem validatePrice_invalid (req : Request) (l : Locals) (s : Store) (price : JsVal)
    (hprice : JsVal.dataField req.body "price" = some price)
    (hbad : price.isInteger = false ∨ price.gtZero = false) :
    validatePrice req l s =
      ⟨.error 400 "Dish must have a price that is an integer greater than 0", l, s⟩ := by
  unfold validatePrice
  rw [hprice]
  rcases hbad with h | h <;> simp [h]

theorem pure_create_checks :
    ∀ c ∈ [validateProperties "name", validateProperties "description",
      validateProperties "image_url", validatePrice], Pure c := by
  intro c hc
  simp only [List.mem_cons, List.mem_singleton, List.not_mem_nil, or_false] at hc
  rcases hc with rfl | rfl | rfl | rfl
  · exact pure_validateProperties _
  · exact pure_validateProperties _
  · exact pure_validateProperties _
  · exact pure_validatePrice

/-- With a non-null `data`, a failing `validateProperties` fails with a 400. -/
theorem validateProperties_fails_400 (p k : String) (req : Request) (l : Locals) (s : Store)
    (v : JsVal) (hv : JsVal.dataField req.body k = some v)
    (hfail : (validateProperties p req l s).signal ≠ .next) :
    (validateProperties p req l s).signal = .error 400 ("Dish must include a " ++ p) := by
  obtain ⟨v', hv'⟩ := dataField_some_of_some hv p
  rw [validateProperties_eq, hv'] at hfail ⊢
  cases ht : v'.truthy
  · simp [ht]
  · simp [ht] at hfail

end Dishes

/-! ### C6: the non-empty field check -/

/-- C6, counterexample. A `name` that is the number `0`, and a `deliverTo` that
is the boolean `false`, are present, defined and not the empty string, yet the
checks fail with a 400. -/
theorem nonempty_check_rejects_zero_and_false :
    JsVal.dataField (bodyOf [("name", .int 0)]) "name" = some (.int 0) ∧
      (Dishes.validateProperties "name" ⟨"", bodyOf [("name", .int 0)]⟩ noLocals
        sampleStore).signal = .error 400 "Dish must include a name" ∧
      JsVal.dataField (bodyOf [("deliverTo", .bool false)]) "deliverTo" = some (.bool false) ∧
      (Orders.validateDeliverTo ⟨"", bodyOf [("deliverTo", .bool false)]⟩ noLocals
        sampleStore).signal = .error 400 "Order must include a deliverTo" :=
  ⟨rfl, rfl, rfl, rfl⟩

/-- C6, amended. For each field name the dish chains check and every request
whose `data` is absent or not `null` (so that `data[fieldName]` can be read, an
absent `data` counting as the empty object), `validateProperties(fieldName)`
fails with a 400 if and only if `data[fieldName]` is falsy, and passes if and
only if it is truthy; likewise `validateDeliverTo` and `validateMobileNumber`
for their fields.  The falsy values are `undefined` (also an absent field),
`null`, `false`, `0`, `NaN` and the empty string.  With `data` equal to `null`
the check raises an exception.  The checks never change the store. -/
theorem nonempty_check_fails_iff_falsy (propertyName : String)
    (hname : propertyName ∈ ["name", "description", "image_url"]) (req : Request)
    (l : Locals) (s : Store) :
    (∀ v, JsVal.dataField req.body propertyName = some v →
      ((Dishes.validateProperties propertyName req l s).signal =
          .error 400 ("Dish must include a " ++ propertyName) ↔ v.truthy = false) ∧
      ((Dishes.validateProperties propertyName req l s).signal = .next ↔ v.truthy = true)) ∧
    (∀ v, JsVal.dataField req.body "deliverTo" = some v →
      ((Orders.validateDeliverTo req l s).signal =
          .error 400 "Order must include a deliverTo" ↔ v.truthy = false) ∧
      ((Orders.validateDeliverTo req l s).signal = .next ↔ v.truthy = true)) ∧
    (∀ v, JsVal.dataField req.body "mobileNumber" = some v →
      ((Orders.validateMobileNumber req l s).signal =
          .error 400 "Order must include a mobileNumber" ↔ v.truthy = false) ∧
      ((Orders.validateMobileNumber req l s).signal = .next ↔ v.truthy = true)) ∧
    (JsVal.dataField req.body propertyName = none →
      (Dishes.validateProperties propertyName req l s).signal = .throw) ∧
    ((Dishes.validateProperties propertyName req l s).store = s ∧
      (Orders.validateDeliverTo req l s).store = s ∧
      (Orders.validateMobileNumber req l s).store = s) ∧
    (∀ v : JsVal, v.truthy = false ↔
      v = .undefined ∨ v = .null ∨ v = .bool false ∨ (∃ e, v = .num 0 e) ∨ v = .nan ∨
        v = .str "") := by
  have _ := hname
  refine ⟨?_, ?_, ?_, ?_, ?_, truthy_eq_false_iff⟩
  · intro v hv
    rw [Dishes.validateProperties_eq, hv]
    cases ht : v.truthy <;> simp [ht]
  · intro v hv
    rw [Orders.validateDeliverTo_eq, hv]
    cases ht : v.truthy <;> simp [ht]
  · intro v hv
    rw [Orders.validateMobileNumber_eq, hv]
    cases ht : v.truthy <;> simp [ht]
  · intro hv
    rw [Dishes.validateProperties_eq, hv]
  · exact ⟨(Dishes.pure_validateProperties _ req l s).2.1,
      (Orders.pure_validateDeliverTo req l s).2.1, (Orders.pure_validateMobileNumber req l s).2.1⟩

/-- Witness for C6: a `description` that is `null` is rejected. -/
theorem nonempty_check_fails_iff_falsy_witness :
    (Dishes.validateProperties "description" ⟨"", bodyOf [("description", .null)]⟩ noLocals
      sampleStore).signal = .error 400 "Dish must include a description" :=
  ((nonempty_check_fails_iff_falsy "description" (by simp)
    ⟨"", bodyOf [("description", .null)]⟩ noLocals sampleStore).1 .null rfl).1.mpr rfl

namespace Orders

/-- The six payload checks give the same verdict on any `res.locals` and store. -/
theorem payload_check_signal (toStr : JsVal → Option String) (req : Request) (l l' : Locals)
    (s s' : Store) :
    ∀ c ∈ [validateDeliverTo, validateMobileNumber, validateDishes, validateDishQuantity,
      validateOrderIdMatch toStr, validateOrderStatus],
      (c req l s).signal = (c req l' s').signal := by
  intro c hc
  simp only [List.mem_cons, List.mem_singleton, List.not_mem_nil, or_false] at hc
  rcases hc with rfl | rfl | rfl | rfl | rfl | rfl
  · exact validateDeliverTo_signal req l l' s s'
  · exact validateMobileNumber_signal req l l' s s'
  · exact validateDishes_signal req l l' s s'
  · exact validateDishQuantity_signal req l l' s s'
  · exact validateOrderIdMatch_signal toStr req l l' s s'
  · exact validateOrderStatus_signal req l l' s s'

theorem validateOrderStatus_recognized (req : Request) (l : Locals) (s : Store) (t : String)
    (ht : t ∈ validStatuses) (hstatus : JsVal.dataField req.body "status" = some (.str t)) :
    validateOrderStatus req l s = ⟨.next, l, s⟩ := by
  unfold validateOrderStatus
  rw [hstatus]
  simp only [validStatuses, List.mem_cons, List.mem_singleton, List.not_mem_nil, or_false] at ht
  rcases ht with rfl | rfl | rfl | rfl <;> rfl

theorem validateOrderStatus_unrecognized (req : Request) (l : Locals) (s : Store) (v : JsVal)
    (hstatus : JsVal.dataField req.body "status" = some v)
    (hv : ∀ t ∈ validStatuses, v ≠ .str t) :
    validateOrderStatus req l s =
      ⟨.error 400 "Order must have a status of pending, preparing, out-for-delivery, delivered",
        l, s⟩ := by
  unfold validateOrderStatus
  rw [hstatus]
  have hany : validStatuses.any (fun t => v.eqStr t) = false := by
    rw [List.any_eq_false]
    intro t ht h
    exact hv t ht (eqStr_eq_true.mp h)
  simp [hany]

end Orders

/-! ### C7: the order of the checks of order update -/

/-- C7. Order update reports the first failing check, in the order existence
lookup, deliverTo, mobileNumber, dishes shape, per-line quantity, id match,
status recognized, order not delivered.
(a) When no order has the route id the chain ends with the 404 of the lookup.
(b) When the lookup finds an order, then for every split of the list of the
seven checks into the checks before, one check, and the checks after: if the
checks before all pass and that check does not, the chain ends with the result
of that check, and the store is unchanged.
(c) In particular, for an order whose status is `delivered` and a payload that
passes the five checks before the status check: a status that is missing or
not one of the four values yields the unrecognized-status error, and a status
that is one of the four values yields "A delivered order cannot be changed". -/
theorem update_reports_first_failing_check (toStr : JsVal → Option String) (req : Request)
    (s : Store) :
    ((∀ x ∈ s.orders, x.id.eqStr req.routeId = false) →
      runChain (Orders.exports.update toStr) req noLocals s =
        ⟨.error 404 ("Order not found: " ++ req.routeId), noLocals, s⟩) ∧
    (∀ i, findIdx (fun order : Order => order.id.eqStr req.routeId) s.orders = some i →
      ∀ pre c post,
        [Orders.validateDeliverTo, Orders.validateMobileNumber, Orders.validateDishes,
          Orders.validateDishQuantity, Orders.validateOrderIdMatch toStr,
          Orders.validateOrderStatus, Orders.validateOrderDelivered] = pre ++ c :: post →
        (∀ c' ∈ pre, (c' req { noLocals with order := some i } s).signal = .next) →
        (c req { noLocals with order := some i } s).signal ≠ .next →
        runChain (Orders.exports.update toStr) req noLocals s =
            c req { noLocals with order := some i } s ∧
          (runChain (Orders.exports.update toStr) req noLocals s).store = s) ∧
    (∀ pre post o, s.orders = pre ++ o :: post →
      (∀ x ∈ pre, x.id.eqStr req.routeId = false) → o.id.eqStr req.routeId = true →
      o.status = .str "delivered" →
      (∀ c ∈ [Orders.validateDeliverTo, Orders.validateMobileNumber, Orders.validateDishes,
        Orders.validateDishQuantity, Orders.validateOrderIdMatch toStr],
        (c req noLocals s).signal = .next) →
      (∀ v, JsVal.dataField req.body "status" = some v →
        (∀ t ∈ Orders.validStatuses, v ≠ .str t) →
        (runChain (Orders.exports.update toStr) req noLocals s).signal = .error 400
          "Order must have a status of pending, preparing, out-for-delivery, delivered") ∧
      (∀ t ∈ Orders.validStatuses, JsVal.dataField req.body "status" = some (.str t) →
        (runChain (Orders.exports.update toStr) req noLocals s).signal =
          .error 400 "A delivered order cannot be changed")) := by
  refine ⟨?_, ?_, ?_⟩
  · intro hnone
    have h := Orders.orderExists_missing req noLocals s hnone
    unfold Orders.exports.update
    rw [runChain_cons_of_stop (by rw [h]; exact Signal.noConfusion), h]
  · intro i hfind pre c post hsplit hpass hfail
    have hex : Orders.orderExists req noLocals s =
        ⟨.next, { noLocals with order := some i }, s⟩ := by
      unfold Orders.orderExists
      rw [hfind]
    have hchain : runChain (Orders.exports.update toStr) req noLocals s =
        runChain ([Orders.validateDeliverTo, Orders.validateMobileNumber, Orders.validateDishes,
          Orders.validateDishQuantity, Orders.validateOrderIdMatch toStr,
          Orders.validateOrderStatus, Orders.validateOrderDelivered] ++ [Orders.update])
          req { noLocals with order := some i } s := by
      unfold Orders.exports.update
      rw [runChain_cons_of_next (by rw [hex]), hex]
      rfl
    have hr := (@runChain_checks _ [Orders.update] req { noLocals with order := some i } s
      (Orders.pure_update_checks toStr)).1 pre c post hsplit hpass hfail
    have hc : c ∈ [Orders.validateDeliverTo, Orders.validateMobileNumber,
        Orders.validateDishes, Orders.validateDishQuantity, Orders.validateOrderIdMatch toStr,
        Orders.validateOrderStatus, Orders.validateOrderDelivered] := by
      rw [hsplit]; simp
    rw [hchain, hr]
    exact ⟨rfl, (Orders.pure_update_checks toStr c hc req _ s).2.1⟩
  · intro pre post o hs hpre hid hst hfive
    have hchain := Orders.exports_update_found toStr req s pre post o hs hpre hid
    have hfive' : ∀ c ∈ [Orders.validateDeliverTo, Orders.validateMobileNumber,
        Orders.validateDishes, Orders.validateDishQuantity, Orders.validateOrderIdMatch toStr],
        (c req { noLocals with order := some pre.length } s).signal = .next := by
      intro c hc
      have hc6 : c ∈ [Orders.validateDeliverTo, Orders.validateMobileNumber,
          Orders.validateDishes, Orders.validateDishQuantity,
          Orders.validateOrderIdMatch toStr, Orders.validateOrderStatus] := by
        simp only [List.mem_cons, List.mem_singleton, List.not_mem_nil, or_false] at hc ⊢
        tauto
      rw [Orders.payload_check_signal toStr req _ noLocals s s c hc6]
      exact hfive c hc
    constructor
    · intro v hstatus hv
      have hbad := Orders.validateOrderStatus_unrecognized req
        { noLocals with order := some pre.length } s v hstatus hv
      rw [hchain, (runChain_checks (Orders.pure_update_checks toStr)).1 _
        Orders.validateOrderStatus [Orders.validateOrderDelivered] rfl hfive'
        (by rw [hbad]; exact Signal.noConfusion), hbad]
    · intro t ht hstatus
      have hok := Orders.validateOrderStatus_recognized req
        { noLocals with order := some pre.length } s t ht hstatus
      have hdel : Orders.validateOrderDelivered req { noLocals with order := some pre.length } s =
          ⟨.error 400 "A delivered order cannot be changed",
            { noLocals with order := some pre.length }, s⟩ := by
        rw [Orders.validateOrderDelivered_found req _ s pre post o hs rfl, hst]
        rfl
      have hsix : ∀ c ∈ [Orders.validateDeliverTo, Orders.validateMobileNumber,
          Orders.validateDishes, Orders.validateDishQuantity,
          Orders.validateOrderIdMatch toStr, Orders.validateOrderStatus],
          (c req { noLocals with order := some pre.length } s).signal = .next := by
        intro c hc
        simp only [List.mem_cons, List.mem_singleton, List.not_mem_nil, or_false] at hc
        rcases hc with rfl | rfl | rfl | rfl | rfl | rfl
        · exact hfive' _ (by simp)
        · exact hfive' _ (by simp)
        · exact hfive' _ (by simp)
        · exact hfive' _ (by simp)
        · exact hfive' _ (by simp)
        · rw [hok]
      rw [hchain, (runChain_checks (Orders.pure_update_checks toStr)).1 _
        Orders.validateOrderDelivered [] rfl hsix (by rw [hdel]; exact Signal.noConfusion), hdel]

/-- Witness for C7: a valid update of the delivered order `o2` that carries no
status is answered with the unrecognized-status error. -/
theorem update_reports_first_failing_check_witness :
    (runChain (Orders.exports.update sampleToStr)
        ⟨"o2", bodyOf [("deliverTo", .str "9 Oak Ave"), ("mobileNumber", .str "555-0000"),
          ("dishes", .arr [line "d1" (.int 4)])]⟩ noLocals sampleStore).signal =
      .error 400 "Order must have a status of pending, preparing, out-for-delivery, delivered" :=
  ((update_reports_first_failing_check sampleToStr
      ⟨"o2", bodyOf [("deliverTo", .str "9 Oak Ave"), ("mobileNumber", .str "555-0000"),
        ("dishes", .arr [line "d1" (.int 4)])]⟩ sampleStore).2.2 [orderPending] [] orderDelivered
      rfl (fun x hx => by rw [List.mem_singleton.mp hx]; rfl) rfl rfl
      (by
        intro c hc
        simp only [List.mem_cons, List.mem_singleton, List.not_mem_nil, or_false] at hc
        rcases hc with rfl | rfl | rfl | rfl | rfl <;> rfl)).1 .undefined rfl
    (by intro t _ h; cases h)

/-! ### The dish lookup -/

namespace Dishes

theorem dishExists_found (req : Request) (l : Locals) (s : Store) (pre post : List Dish)
    (d : Dish) (hs : s.dishes = pre ++ d :: post)
    (hpre : ∀ x ∈ pre, x.id.eqStr req.routeId = false) (hid : d.id.eqStr req.routeId = true) :
    dishExists req l s = ⟨.next, { l with dish := some pre.length }, s⟩ := by
  unfold dishExists
  rw [hs, findIdx_append_cons (fun dish : Dish => dish.id.eqStr req.routeId) pre d post hpre hid]

theorem dishExists_missing (req : Request) (l : Locals) (s : Store)
    (h : ∀ x ∈ s.dishes, x.id.eqStr req.routeId = false) :
    dishExists req l s = ⟨.error 404 ("Dish does not exist: " ++ req.routeId), l, s⟩ := by
  unfold dishExists
  rw [findIdx_eq_none (fun dish : Dish => dish.id.eqStr req.routeId) s.dishes h]

end Dishes

/-! ### C8: the order of the checks of the dish chains -/

/-- C8. (a) Dish create reports the first failing check in the order name,
description, image_url, price: for every split of that list into the checks
before, one check and the checks after, if the checks before pass and that
check does not, the chain ends with the result of that check.  (b) So a
request whose name is missing (or otherwise falsy) ends with the name failure
alone, whatever its price.  (c) Dish update runs the existence lookup first: a
route id matching no dish yields the 404 whatever the payload. -/
theorem dish_chains_report_first_failing_check (nextId : String) (toStr : JsVal → Option String)
    (req : Request) (s : Store) :
    (∀ pre c post,
      [Dishes.validateProperties "name", Dishes.validateProperties "description",
        Dishes.validateProperties "image_url", Dishes.validatePrice] = pre ++ c :: post →
      (∀ c' ∈ pre, (c' req noLocals s).signal = .next) →
      (c req noLocals s).signal ≠ .next →
      runChain (Dishes.exports.create nextId) req noLocals s = c req noLocals s) ∧
    (∀ v, JsVal.dataField req.body "name" = some v → v.truthy = false →
      runChain (Dishes.exports.create nextId) req noLocals s =
        ⟨.error 400 "Dish must include a name", noLocals, s⟩) ∧
    ((∀ x ∈ s.dishes, x.id.eqStr req.routeId = false) →
      runChain (Dishes.exports.update toStr) req noLocals s =
        ⟨.error 404 ("Dish does not exist: " ++ req.routeId), noLocals, s⟩) := by
  have hchain : Dishes.exports.create nextId =
      [Dishes.validateProperties "name", Dishes.validateProperties "description",
        Dishes.validateProperties "image_url", Dishes.validatePrice] ++
        [Dishes.create nextId] := rfl
  refine ⟨?_, ?_, ?_⟩
  · intro pre c post hsplit hpass hfail
    rw [hchain]
    exact (runChain_checks Dishes.pure_create_checks).1 pre c post hsplit hpass hfail
  · intro v hv hfalsy
    have h : Dishes.validateProperties "name" req noLocals s =
        ⟨.error 400 "Dish must include a name", noLocals, s⟩ := by
      rw [Dishes.validateProperties_eq, hv]
      simp [hfalsy]
    unfold Dishes.exports.create
    rw [runChain_cons_of_stop (by rw [h]; exact Signal.noConfusion), h]
  · intro hnone
    have h := Dishes.dishExists_missing req noLocals s hnone
    unfold Dishes.exports.update
    rw [runChain_cons_of_stop (by rw [h]; exact Signal.noConfusion), h]

/-- Witness for C8: a dish create request without a name and with price `0`
reports the name failure only. -/
theorem dish_chains_report_first_failing_check_witness :
    runChain (Dishes.exports.create "n1") ⟨"", bodyOf [("price", .int 0)]⟩ noLocals sampleStore =
      ⟨.error 400 "Dish must include a name", noLocals, sampleStore⟩ :=
  (dish_chains_report_first_failing_check "n1" sampleToStr ⟨"", bodyOf [("price", .int 0)]⟩
    sampleStore).2.1 .undefined rfl rfl

namespace Dishes

theorem truthy_of_positive_integer (price : JsVal) (hg : price.gtZero = true)
    (hi : price.isInteger = true) : price.truthy = true := by
  cases price <;> simp [JsVal.gtZero, JsVal.isInteger, JsVal.truthy] at hg hi ⊢
  omega

theorem validatePrice_valid (req : Request) (l : Locals) (s : Store) (price : JsVal)
    (hprice : JsVal.dataField req.body "price" = some price)
    (hi : price.isInteger = true) (hg : price.gtZero = true) :
    validatePrice req l s = ⟨.next, l, s⟩ := by
  unfold validatePrice
  rw [hprice]
  simp [hi, hg, truthy_of_positive_integer price hg hi]

theorem validateProperties_valid (p : String) (req : Request) (l : Locals) (s : Store)
    (v : JsVal) (hv : JsVal.dataField req.body p = some v) (ht : v.truthy = true) :
    validateProperties p req l s = ⟨.next, l, s⟩ := by
  rw [validateProperties_eq, hv]
  simp [ht]

/-- A payload with truthy name, description and image_url and a positive integer
price passes the four checks of the dish chains. -/
theorem create_checks_pass (req : Request) (l : Locals) (s : Store)
    (name description price image_url : JsVal)
    (hname : JsVal.dataField req.body "name" = some name)
    (hdescription : JsVal.dataField req.body "description" = some description)
    (himage : JsVal.dataField req.body "image_url" = some image_url)
    (hprice : JsVal.dataField req.body "price" = some price)
    (hn : name.truthy = true) (hd : description.truthy = true) (hu : image_url.truthy = true)
    (hi : price.isInteger = true) (hg : price.gtZero = true) :
    ∀ c ∈ [validateProperties "name", validateProperties "description",
      validateProperties "image_url", validatePrice], (c req l s).signal = .next := by
  intro c hc
  simp only [List.mem_cons, List.mem_singleton, List.not_mem_nil, or_false] at hc
  rcases hc with rfl | rfl | rfl | rfl
  · rw [validateProperties_valid _ req l s name hname hn]
  · rw [validateProperties_valid _ req l s description hdescription hd]
  · rw [validateProperties_valid _ req l s image_url himage hu]
  · rw [validatePrice_valid req l s price hprice hi hg]

theorem create_eq (nextId : String) (req : Request) (l : Locals) (s : Store)
    (name description price image_url : JsVal)
    (hname : JsVal.dataField req.body "name" = some name)
    (hdescription : JsVal.dataField req.body "description" = some description)
    (himage : JsVal.dataField req.body "image_url" = some image_url)
    (hprice : JsVal.dataField req.body "price" = some price) :
    create nextId req l s =
      ⟨.respond 201 (.dish ⟨.str nextId, name, description, price, image_url⟩), l,
        { s with dishes := s.dishes ++ [⟨.str nextId, name, description, price, image_url⟩] }⟩ := by
  obtain ⟨d, hd, hn⟩ := dataField_eq_some hname
  have field : ∀ k v, JsVal.dataField req.body k = some v → JsVal.getProp d k = some v := by
    intro k v h
    obtain ⟨d', hd', hk⟩ := dataField_eq_some h
    rw [hd] at hd'
    cases hd'
    exact hk
  unfold create
  rw [hd]
  simp only [hn, field _ _ hdescription, field _ _ himage, field _ _ hprice]

end Dishes

/-! ### C9: dish create, then read -/

/-- C9. For every store and every dish create request whose name, description
and image_url are non-empty (truthy) and whose price is a positive integer,
create succeeds with 201 and appends the dish made of the generated id and the
four submitted values; provided the generated id is not used by a dish of the
collection, a read by that id on the resulting store answers 200 with exactly
that dish: the submitted name, description, price and image_url, and the
generated id (non-empty when the generator returns a non-empty string). -/
theorem dish_create_read_round_trip (nextId : String) (req : Request) (s : Store)
    (name description price image_url : JsVal) (body' : JsVal)
    (hname : JsVal.dataField req.body "name" = some name)
    (hdescription : JsVal.dataField req.body "description" = some description)
    (himage : JsVal.dataField req.body "image_url" = some image_url)
    (hprice : JsVal.dataField req.body "price" = some price)
    (hn : name.truthy = true) (hd : description.truthy = true) (hu : image_url.truthy = true)
    (hi : price.isInteger = true) (hg : price.gtZero = true)
    (hfresh : ∀ x ∈ s.dishes, x.id.eqStr nextId = false) :
    runChain (Dishes.exports.create nextId) req noLocals s =
        ⟨.respond 201 (.dish ⟨.str nextId, name, description, price, image_url⟩), noLocals,
          { s with
            dishes := s.dishes ++ [⟨.str nextId, name, description, price, image_url⟩] }⟩ ∧
      (runChain Dishes.exports.read ⟨nextId, body'⟩ noLocals
          (runChain (Dishes.exports.create nextId) req noLocals s).store).signal =
        .respond 200 (.dish ⟨.str nextId, name, description, price, image_url⟩) ∧
      (nextId ≠ "" → (JsVal.str nextId).truthy = true) := by
  have hchain : Dishes.exports.create nextId =
      [Dishes.validateProperties "name", Dishes.validateProperties "description",
        Dishes.validateProperties "image_url", Dishes.validatePrice] ++
        [Dishes.create nextId] := rfl
  have hpass := Dishes.create_checks_pass req noLocals s name description price image_url
    hname hdescription himage hprice hn hd hu hi hg
  have hcreate := Dishes.create_eq nextId req noLocals s name description price image_url
    hname hdescription himage hprice
  have hrun : runChain (Dishes.exports.create nextId) req noLocals s =
      ⟨.respond 201 (.dish ⟨.str nextId, name, description, price, image_url⟩), noLocals,
        { s with
          dishes := s.dishes ++ [⟨.str nextId, name, description, price, image_url⟩] }⟩ := by
    rw [hchain, (runChain_checks Dishes.pure_create_checks).2 hpass,
      runChain_cons_of_stop (by rw [hcreate]; exact Signal.noConfusion), hcreate]
  refine ⟨hrun, ?_, ?_⟩
  · rw [hrun]
    have hex := Dishes.dishExists_found ⟨nextId, body'⟩ noLocals
      { s with dishes := s.dishes ++ [⟨.str nextId, name, description, price, image_url⟩] }
      s.dishes [] ⟨.str nextId, name, description, price, image_url⟩ rfl hfresh
      (eqStr_eq_true.mpr rfl)
    unfold Dishes.exports.read
    rw [runChain_cons_of_next (by rw [hex]), hex]
    have hread : Dishes.read ⟨nextId, body'⟩ { noLocals with dish := some s.dishes.length }
        { s with dishes := s.dishes ++ [⟨.str nextId, name, description, price, image_url⟩] } =
        ⟨.respond 200 (.dish ⟨.str nextId, name, description, price, image_url⟩),
          { noLocals with dish := some s.dishes.length },
          { s with
            dishes := s.dishes ++ [⟨.str nextId, name, description, price, image_url⟩] }⟩ := by
      unfold Dishes.read
      simp only [Option.bind, getElem?_append_cons_length]
    rw [runChain_cons_of_stop (by rw [hread]; exact Signal.noConfusion), hread]
  · intro hne
    simpa [JsVal.truthy] using hne

/-- Witness for C9: creating the dish "Soup" in the sample store with the fresh
id `n1`, then reading `n1`. -/
theorem dish_create_read_round_trip_witness :
    (runChain Dishes.exports.read ⟨"n1", .obj []⟩ noLocals
        (runChain (Dishes.exports.create "n1")
          ⟨"", bodyOf [("name", .str "Soup"), ("description", .str "Hot"),
            ("image_url", .str "soup.png"), ("price", .int 7)]⟩ noLocals sampleStore).store).signal =
      .respond 200 (.dish ⟨.str "n1", .str "Soup", .str "Hot", .int 7, .str "soup.png"⟩) :=
  (dish_create_read_round_trip "n1"
    ⟨"", bodyOf [("name", .str "Soup"), ("description", .str "Hot"),
      ("image_url", .str "soup.png"), ("price", .int 7)]⟩ sampleStore (.str "Soup") (.str "Hot")
    (.int 7) (.str "soup.png") (.obj []) rfl rfl rfl rfl rfl rfl rfl rfl rfl
    (fun x hx => by rw [List.mem_singleton.mp hx]; rfl)).2.1

namespace Dishes

theorem validateProperties_error (p : String) (req : Request) (l : Locals) (s : Store)
    (st : Nat) (msg : String) (h : (validateProperties p req l s).signal = .error st msg) :
    st = 400 ∧ msg = "Dish must include a " ++ p := by
  rw [validateProperties_eq] at h
  cases hv : JsVal.dataField req.body p with
  | none => rw [hv] at h; cases h
  | some v =>
    rw [hv] at h
    cases ht : v.truthy
    · simp only [ht, Bool.false_eq_true, if_false, Signal.error.injEq] at h
      exact ⟨h.1.symm, h.2.symm⟩
    · simp [ht] at h

theorem validatePrice_error (req : Request) (l : Locals) (s : Store)
    (st : Nat) (msg : String) (h : (validatePrice req l s).signal = .error st msg) :
    st = 400 ∧ msg = "Dish must have a price that is an integer greater than 0" := by
  unfold validatePrice at h
  split at h
  · cases h
  · split at h
    · cases h
    · simp only [Signal.error.injEq] at h
      exact ⟨h.1.symm, h.2.symm⟩

theorem update_error (toStr : JsVal → Option String) (req : Request) (l : Locals) (s : Store)
    (st : Nat) (msg : String) (h : (update toStr req l s).signal = .error st msg) :
    st = 400 ∧ ∃ id text, JsVal.dataField req.body "id" = some id ∧ id.truthy = true ∧
      id ≠ .str req.routeId ∧ toStr id = some text ∧
      msg = "Dish id does not match route id. Dish: " ++ text ++ ", Route: " ++ req.routeId := by
  unfold update at h
  cases hd : JsVal.dataOf req.body with
  | none => rw [hd] at h; cases h
  | some d =>
    rw [hd] at h
    dsimp only at h
    split at h
    · rename_i id name description price image_url hid _ _ _ _
      split at h
      · rename_i hcond
        simp only [Bool.and_eq_true, Bool.not_eq_true', eqStr_eq_false] at hcond
        split at h
        · cases h
        · rename_i text htext
          simp only [Signal.error.injEq] at h
          exact ⟨h.1.symm, id, text, by simp [JsVal.dataField, hd, hid], hcond.1, hcond.2,
            htext, h.2.symm⟩
      · split at h <;> cases h
    · cases h

/-- When the handler `update` raises an exception although `res.locals.dish` is
a dish of the store: either `data` cannot be read (the body or its `data` is
`null`), or the payload id is truthy, differs from the route id and cannot be
converted to a string. -/
theorem update_throw (toStr : JsVal → Option String) (req : Request) (l : Locals) (s : Store)
    (i : Nat) (dish : Dish) (hl : l.dish = some i) (hi : s.dishes[i]? = some dish)
    (h : (update toStr req l s).signal = .throw) :
    JsVal.dataField req.body "name" = none ∨
      ∃ id, JsVal.dataField req.body "id" = some id ∧ id.truthy = true ∧
        id ≠ .str req.routeId ∧ toStr id = none := by
  unfold update at h
  cases hd : JsVal.dataOf req.body with
  | none => left; simp [JsVal.dataField, hd]
  | some d =>
    rw [hd] at h
    dsimp only at h
    split at h
    · rename_i id name description price image_url hid _ _ _ _
      split at h
      · rename_i hcond
        simp only [Bool.and_eq_true, Bool.not_eq_true', eqStr_eq_false] at hcond
        split at h
        · rename_i htext
          right
          exact ⟨id, by simp [JsVal.dataField, hd, hid], hcond.1, hcond.2, htext⟩
        · cases h
      · exfalso
        simp only [hl, hi, Option.bind, Option.map] at h
        cases h
    · rename_i hno
      left
      cases hn : d.getProp "name" with
      | none => simp [JsVal.dataField, hd, hn]
      | some v =>
        exfalso
        obtain ⟨a, ha⟩ := getProp_some_of_some hn "id"
        obtain ⟨b, hb⟩ := getProp_some_of_some hn "description"
        obtain ⟨c, hc⟩ := getProp_some_of_some hn "price"
        obtain ⟨e, he⟩ := getProp_some_of_some hn "image_url"
        exact hno a v b c e ha hn hb hc he

theorem update_signal_ne_next (toStr : JsVal → Option String) (req : Request) (l : Locals)
    (s : Store) : (update toStr req l s).signal ≠ .next := by
  unfold update
  split
  · exact Signal.noConfusion
  · split
    · split
      · split <;> exact Signal.noConfusion
      · split <;> exact Signal.noConfusion
    · exact Signal.noConfusion

theorem update_eq (toStr : JsVal → Option String) (req : Request) (l : Locals) (s : Store)
    (pre post : List Dish) (d : Dish) (id name description price image_url : JsVal)
    (hs : s.dishes = pre ++ d :: post) (hl : l.dish = some pre.length)
    (hidf : JsVal.dataField req.body "id" = some id)
    (hname : JsVal.dataField req.body "name" = some name)
    (hdescription : JsVal.dataField req.body "description" = some description)
    (himage : JsVal.dataField req.body "image_url" = some image_url)
    (hprice : JsVal.dataField req.body "price" = some price)
    (hmatch : id.truthy = false ∨ id = .str req.routeId) :
    update toStr req l s =
      ⟨.respond 200 (.dish ⟨d.id, name, description, price, image_url⟩), l,
        { s with dishes := pre ++ ⟨d.id, name, description, price, image_url⟩ :: post }⟩ := by
  obtain ⟨dat, hd, hn⟩ := dataField_eq_some hname
  have field : ∀ k v, JsVal.dataField req.body k = some v → JsVal.getProp dat k = some v := by
    intro k v h
    obtain ⟨d', hd', hk⟩ := dataField_eq_some h
    rw [hd] at hd'
    cases hd'
    exact hk
  have hcond : (id.truthy && !id.eqStr req.routeId) = false := by
    rcases hmatch with h | h
    · simp [h]
    · simp [eqStr_eq_true.mpr h]
  unfold update
  rw [hd]
  simp only [hn, field _ _ hidf, field _ _ hdescription, field _ _ himage, field _ _ hprice,
    hcond, hl, hs, Option.bind, getElem?_append_cons_length, Option.map, set_append_cons_length,
    Bool.false_eq_true, if_false]

end Dishes

namespace Orders

/-! ### `find` and `indexOf` in the quantity check -/

/-- What `findInvalid` returns is the first line with a bad quantity: it sits at
the returned position and every earlier line has a good quantity. -/
theorem findInvalid_some (ds : List JsVal) (i : Nat) (x : JsVal)
    (h : findInvalid ds = some (some (i, x))) :
    ds[i]? = some x ∧ (∃ q, x.getProp "quantity" = some q ∧ badQuantity q = true) ∧
      ∀ j y, j < i → ds[j]? = some y →
        ∃ q, y.getProp "quantity" = some q ∧ badQuantity q = false := by
  induction ds generalizing i with
  | nil => simp [findInvalid] at h
  | cons d ds ih =>
    unfold findInvalid at h
    cases hq : d.getProp "quantity" with
    | none => rw [hq] at h; cases h
    | some q =>
      rw [hq] at h
      dsimp only at h
      cases hb : badQuantity q
      · simp only [hb, Bool.false_eq_true, if_false, Option.map_eq_some'] at h
        obtain ⟨r, hr, w, rfl, hw⟩ := h
        simp only [Prod.mk.injEq] at hw
        obtain ⟨rfl, rfl⟩ := hw
        obtain ⟨h1, h2, h3⟩ := ih w.1 hr
        refine ⟨by simpa using h1, h2, ?_⟩
        intro j y hj hy
        cases j with
        | zero =>
          simp only [List.getElem?_cons_zero, Option.some.injEq] at hy
          subst hy
          exact ⟨q, hq, hb⟩
        | succ j =>
          simp only [List.getElem?_cons_succ] at hy
          exact h3 j y (by omega) hy
      · simp only [hb, if_true, Option.some.injEq, Prod.mk.injEq] at h
        obtain ⟨rfl, rfl⟩ := h
        refine ⟨List.getElem?_cons_zero, ⟨q, hq, hb⟩, ?_⟩
        intro j y hj
        omega

/-- The scan of `indexOf` stops at the first position whose test succeeds. -/
theorem indexOfFrom_eq (x : JsVal) (slot : Nat) (ys : List JsVal) (k i : Nat) (y : JsVal)
    (hi : ys[i]? = some y)
    (hat : (if x.isRef then (k + i == slot) else JsVal.strictEqPrim y x) = true)
    (hbefore : ∀ j z, j < i → ys[j]? = some z →
      (if x.isRef then (k + j == slot) else JsVal.strictEqPrim z x) = false) :
    indexOfFrom x slot ys k = some (k + i) := by
  induction ys generalizing k i with
  | nil => simp at hi
  | cons d ds ih =>
    unfold indexOfFrom
    cases i with
    | zero =>
      simp only [List.getElem?_cons_zero, Option.some.injEq] at hi
      subst hi
      simp only [Nat.add_zero] at hat ⊢
      rw [if_pos hat]
    | succ i =>
      have h0 := hbefore 0 d (by omega) List.getElem?_cons_zero
      simp only [Nat.add_zero] at h0
      rw [if_neg (by rw [h0]; exact Bool.false_ne_true)]
      simp only [List.getElem?_cons_succ] at hi
      have := ih (k + 1) i hi (by rw [show k + 1 + i = k + (i + 1) by omega]; exact hat)
        (by
          intro j z hj hz
          have := hbefore (j + 1) z (by omega) (by simpa using hz)
          rw [show k + 1 + j = k + (j + 1) by omega]
          exact this)
      rw [this]
      congr 1
      omega

/-- A truthy primitive value is strictly equal to itself. -/
theorem strictEqPrim_self (x : JsVal) (hx : x.truthy = true) (hr : x.isRef = false) :
    JsVal.strictEqPrim x x = true := by
  cases x <;> simp [JsVal.strictEqPrim, JsVal.truthy, JsVal.isRef] at hx hr ⊢

/-- A value strictly equal to a truthy primitive has no `quantity`. -/
theorem getProp_of_strictEqPrim (z x : JsVal) (hx : x.truthy = true)
    (h : JsVal.strictEqPrim z x = true) : z.getProp "quantity" = some .undefined := by
  cases z <;> cases x <;> simp [JsVal.strictEqPrim, JsVal.truthy, JsVal.getProp] at hx h ⊢

/-- When the first line with a bad quantity is truthy (as every object is), the
quantity check fails with the message naming the position of that line: the
least index of a line failing the rule. -/
theorem validateDishQuantity_least_index (req : Request) (l : Locals) (s : Store)
    (ds : List JsVal) (i : Nat) (x : JsVal)
    (hd : JsVal.dataField req.body "dishes" = some (.arr ds))
    (hfind : findInvalid ds = some (some (i, x))) (hx : x.truthy = true) :
    validateDishQuantity req l s = ⟨.error 400 (quantityMessage (i : Int)), l, s⟩ := by
  obtain ⟨hi, -, hbefore⟩ := findInvalid_some ds i x hfind
  have hidx : indexOfFrom x i ds 0 = some (0 + i) := by
    apply indexOfFrom_eq x i ds 0 i x hi
    · cases hr : x.isRef
      · simpa using strictEqPrim_self x hx hr
      · simp
    · intro j z hj hz
      cases hr : x.isRef
      · simp only [Bool.false_eq_true, if_false]
        cases hs : JsVal.strictEqPrim z x
        · rfl
        · exfalso
          obtain ⟨q, hq, hb⟩ := hbefore j z hj hz
          rw [getProp_of_strictEqPrim z x hx hs] at hq
          cases hq
          simp [badQuantity, JsVal.truthy] at hb
      · simp only [if_true, Nat.zero_add]
        simpa using Nat.ne_of_lt hj
  unfold validateDishQuantity
  rw [hd]
  simp only [hfind, hx, if_true, indexOf, hidx, Nat.zero_add]

end Orders

namespace Orders

/-! ### Order create on a valid payload -/

theorem pure_create_checks_orders :
    ∀ c ∈ [validateDeliverTo, validateMobileNumber, validateDishes, validateDishQuantity],
      Pure c := by
  intro c hc
  simp only [List.mem_cons, List.mem_singleton, List.not_mem_nil, or_false] at hc
  rcases hc with rfl | rfl | rfl | rfl
  · exact pure_validateDeliverTo
  · exact pure_validateMobileNumber
  · exact pure_validateDishes
  · exact pure_validateDishQuantity

/-- A payload that passes `validateDeliverTo` has a readable `data`, with a truthy
`deliverTo`. -/
theorem validateDeliverTo_next (req : Request) (l : Locals) (s : Store)
    (h : (validateDeliverTo req l s).signal = .next) :
    ∃ v, JsVal.dataField req.body "deliverTo" = some v ∧ v.truthy = true := by
  rw [validateDeliverTo_eq] at h
  cases hv : JsVal.dataField req.body "deliverTo" with
  | none => rw [hv] at h; cases h
  | some v =>
    rw [hv] at h
    cases ht : v.truthy
    · simp [ht] at h
    · exact ⟨v, rfl, ht⟩

theorem create_eq_orders (nextId : String) (req : Request) (l : Locals) (s : Store)
    (deliverTo mobileNumber dishes : JsVal)
    (hd : JsVal.dataField req.body "deliverTo" = some deliverTo)
    (hm : JsVal.dataField req.body "mobileNumber" = some mobileNumber)
    (hds : JsVal.dataField req.body "dishes" = some dishes) :
    create nextId req l s =
      ⟨.respond 201 (.order ⟨.str nextId, deliverTo, mobileNumber, dishes, .undefined⟩), l,
        { s with
          orders := s.orders ++ [⟨.str nextId, deliverTo, mobileNumber, dishes, .undefined⟩] }⟩ := by
  obtain ⟨dat, hdat, hn⟩ := dataField_eq_some hd
  have field : ∀ k v, JsVal.dataField req.body k = some v → JsVal.getProp dat k = some v := by
    intro k v h
    obtain ⟨d', hd', hk⟩ := dataField_eq_some h
    rw [hdat] at hd'
    cases hd'
    exact hk
  unfold create
  rw [hdat]
  simp only [hn, field _ _ hm, field _ _ hds]

/-- Order create on a payload that passes the four checks: the new order is made
of the generated id, `deliverTo`, `mobileNumber` and `dishes`, and has no
`status`. -/
theorem exports_create_valid (nextId : String) (req : Request) (s : Store)
    (hvalid : ∀ c ∈ [validateDeliverTo, validateMobileNumber, validateDishes,
      validateDishQuantity], (c req noLocals s).signal = .next) :
    ∃ deliverTo mobileNumber dishes,
      JsVal.dataField req.body "deliverTo" = some deliverTo ∧
      JsVal.dataField req.body "mobileNumber" = some mobileNumber ∧
      JsVal.dataField req.body "dishes" = some dishes ∧
      runChain (exports.create nextId) req noLocals s =
        ⟨.respond 201 (.order ⟨.str nextId, deliverTo, mobileNumber, dishes, .undefined⟩),
          noLocals,
          { s with
            orders := s.orders ++
              [⟨.str nextId, deliverTo, mobileNumber, dishes, .undefined⟩] }⟩ := by
  obtain ⟨d, hd, -⟩ := validateDeliverTo_next req noLocals s (hvalid _ (by simp))
  obtain ⟨m, hm⟩ := dataField_some_of_some hd "mobileNumber"
  obtain ⟨ds, hds⟩ := dataField_some_of_some hd "dishes"
  refine ⟨d, m, ds, hd, hm, hds, ?_⟩
  have hchain : exports.create nextId =
      [validateDeliverTo, validateMobileNumber, validateDishes, validateDishQuantity] ++
        [create nextId] := rfl
  have hcreate := create_eq_orders nextId req noLocals s d m ds hd hm hds
  rw [hchain, (runChain_checks pure_create_checks_orders).2 hvalid,
    runChain_cons_of_stop (by rw [hcreate]; exact Signal.noConfusion), hcreate]

end Orders

/-! ### C11: the status of a new order -/

/-- C11, counterexample. A valid order create request whose payload carries
the status `pending` is answered with, and stores, an order without status. -/
theorem create_drops_the_payload_status :
    JsVal.dataField sampleOrderPayload "status" = some (.str "pending") ∧
      runChain (Orders.exports.create "n1") ⟨"", sampleOrderPayload⟩ noLocals sampleStore =
        ⟨.respond 201 (.order ⟨.str "n1", .str "9 Oak Ave", .str "555-0000",
            .arr [line "d1" (.int 4)], .undefined⟩), noLocals,
          { sampleStore with
            orders := sampleStore.orders ++
              [⟨.str "n1", .str "9 Oak Ave", .str "555-0000", .arr [line "d1" (.int 4)],
                .undefined⟩] }⟩ :=
  ⟨rfl, rfl⟩

/-- C11, amended. For every valid order create request (one that passes the
four checks of the create chain), the returned and stored new order consists of
the generated id and the payload's `deliverTo`, `mobileNumber` and `dishes`,
and it has no status, whatever status the payload carries: creation neither
forces the status to `pending` nor keeps a provided status. -/
theorem create_stores_no_status (nextId : String) (req : Request) (s : Store)
    (hvalid : ∀ c ∈ [Orders.validateDeliverTo, Orders.validateMobileNumber,
      Orders.validateDishes, Orders.validateDishQuantity], (c req noLocals s).signal = .next) :
    ∃ order : Order,
      (runChain (Orders.exports.create nextId) req noLocals s).signal =
        .respond 201 (.order order) ∧
      (runChain (Orders.exports.create nextId) req noLocals s).store =
        { s with orders := s.orders ++ [order] } ∧
      order.id = .str nextId ∧
      JsVal.dataField req.body "deliverTo" = some order.deliverTo ∧
      JsVal.dataField req.body "mobileNumber" = some order.mobileNumber ∧
      JsVal.dataField req.body "dishes" = some order.dishes ∧
      order.status = .undefined := by
  obtain ⟨d, m, ds, hd, hm, hds, hrun⟩ := Orders.exports_create_valid nextId req s hvalid
  exact ⟨⟨.str nextId, d, m, ds, .undefined⟩, by rw [hrun], by rw [hrun], rfl, hd, hm, hds, rfl⟩

/-- Witness for C11: the sample payload with status `pending`, created in the
sample store. -/
theorem create_stores_no_status_witness :
    ∃ order : Order,
      (runChain (Orders.exports.create "n1") ⟨"", sampleOrderPayload⟩ noLocals sampleStore).signal =
        .respond 201 (.order order) ∧ order.status = .undefined := by
  obtain ⟨order, h1, -, -, -, -, -, h2⟩ := create_stores_no_status "n1" ⟨"", sampleOrderPayload⟩
    sampleStore (by
      intro c hc
      simp only [List.mem_cons, List.mem_singleton, List.not_mem_nil, or_false] at hc
      rcases hc with rfl | rfl | rfl | rfl <;> rfl)
  exact ⟨order, h1, h2⟩

namespace Orders

/-! ### The handler `update` and the id check -/

theorem validateOrderIdMatch_eq (toStr : JsVal → Option String) (req : Request) (l : Locals)
    (s : Store) (id : JsVal) (hid : JsVal.dataField req.body "id" = some id) :
    validateOrderIdMatch toStr req l s =
      if id.truthy && !id.eqStr req.routeId then
        match toStr id with
        | none => ⟨.throw, l, s⟩
        | some text =>
          ⟨.error 400 ("Order id does not match route id. Order: " ++ text ++ ", Route: " ++
            req.routeId ++ "."), l, s⟩
      else ⟨.next, l, s⟩ := by
  unfold validateOrderIdMatch
  rw [hid]

theorem update_eq_orders (req : Request) (l : Locals) (s : Store) (pre post : List Order)
    (o : Order) (deliverTo mobileNumber dishes status : JsVal)
    (hs : s.orders = pre ++ o :: post) (hl : l.order = some pre.length)
    (hd : JsVal.dataField req.body "deliverTo" = some deliverTo)
    (hm : JsVal.dataField req.body "mobileNumber" = some mobileNumber)
    (hds : JsVal.dataField req.body "dishes" = some dishes)
    (hst : JsVal.dataField req.body "status" = some status) :
    update req l s =
      ⟨.respond 200 (.order ⟨o.id, deliverTo, mobileNumber, dishes, status⟩), l,
        { s with orders := pre ++ ⟨o.id, deliverTo, mobileNumber, dishes, status⟩ :: post }⟩ := by
  obtain ⟨dat, hdat, hn⟩ := dataField_eq_some hd
  have field : ∀ k v, JsVal.dataField req.body k = some v → JsVal.getProp dat k = some v := by
    intro k v h
    obtain ⟨d', hd', hk⟩ := dataField_eq_some h
    rw [hdat] at hd'
    cases hd'
    exact hk
  unfold update
  rw [hdat]
  simp only [hn, field _ _ hm, field _ _ hds, field _ _ hst, hl, hs, Option.bind,
    getElem?_append_cons_length, Option.map, set_append_cons_length]

/-- When the lookup finds the order and the chain sends a response, all seven
checks passed and the response is that of the handler `update`. -/
theorem exports_update_respond (toStr : JsVal → Option String) (req : Request) (s : Store)
    (pre post : List Order) (o : Order) (hs : s.orders = pre ++ o :: post)
    (hpre : ∀ x ∈ pre, x.id.eqStr req.routeId = false) (hid : o.id.eqStr req.routeId = true)
    (st : Nat) (b : Body)
    (hr : (runChain (exports.update toStr) req noLocals s).signal = .respond st b) :
    (∀ c ∈ [validateDeliverTo, validateMobileNumber, validateDishes, validateDishQuantity,
        validateOrderIdMatch toStr, validateOrderStatus, validateOrderDelivered],
        (c req { noLocals with order := some pre.length } s).signal = .next) ∧
      runChain (exports.update toStr) req noLocals s =
        update req { noLocals with order := some pre.length } s := by
  have hchain := exports_update_found toStr req s pre post o hs hpre hid
  rw [hchain] at hr ⊢
  rcases runChain_checks_cases _ [update] req { noLocals with order := some pre.length } s
      (pure_update_checks toStr) with ⟨p, c, q, hsplit, -, -, hres⟩ | ⟨hall, hres⟩
  · exfalso
    have hc : c ∈ [validateDeliverTo, validateMobileNumber, validateDishes,
        validateDishQuantity, validateOrderIdMatch toStr, validateOrderStatus,
        validateOrderDelivered] := by
      rw [hsplit]; simp
    rw [hres] at hr
    exact (pure_update_checks toStr c hc req _ s).2.2 st b hr
  · refine ⟨hall, ?_⟩
    rw [hres]
    have hne : (update req { noLocals with order := some pre.length } s).signal ≠ .next := by
      rw [hres] at hr
      intro hn
      rw [runChain_cons_of_next hn] at hr
      cases hr
    exact runChain_cons_of_stop hne

/-- A chain that sends a response found an order with the route id. -/
theorem exports_update_respond_found (toStr : JsVal → Option String) (req : Request) (s : Store)
    (st : Nat) (b : Body)
    (hr : (runChain (exports.update toStr) req noLocals s).signal = .respond st b) :
    ∃ pre o post, s.orders = pre ++ o :: post ∧
      (∀ x ∈ pre, x.id.eqStr req.routeId = false) ∧ o.id.eqStr req.routeId = true := by
  by_cases h : ∃ x ∈ s.orders, x.id.eqStr req.routeId = true
  · exact exists_first_match (fun order : Order => order.id.eqStr req.routeId) s.orders h
  · exfalso
    have hnone : ∀ x ∈ s.orders, x.id.eqStr req.routeId = false := by
      intro x hx
      cases hx' : x.id.eqStr req.routeId
      · rfl
      · exact absurd ⟨x, hx, hx'⟩ h
    have h1 := orderExists_missing req noLocals s hnone
    unfold exports.update at hr
    rw [runChain_cons_of_stop (by rw [h1]; exact Signal.noConfusion), h1] at hr
    cases hr

end Orders

/-! ### The status check and the delivered lock -/

namespace Orders

/-- A payload that passes `validateOrderStatus` carries one of the four statuses. -/
theorem validateOrderStatus_next (req : Request) (l : Locals) (s : Store)
    (h : (validateOrderStatus req l s).signal = .next) :
    ∃ t ∈ validStatuses, JsVal.dataField req.body "status" = some (.str t) := by
  unfold validateOrderStatus at h
  cases hv : JsVal.dataField req.body "status" with
  | none => rw [hv] at h; cases h
  | some v =>
    rw [hv] at h
    dsimp only at h
    cases hany : validStatuses.any (fun t => v.eqStr t)
    · simp [hany] at h
    · rw [List.any_eq_true] at hany
      obtain ⟨t, ht, ht'⟩ := hany
      exact ⟨t, ht, by rw [eqStr_eq_true.mp ht']⟩

theorem validateOrderDelivered_next (req : Request) (l : Locals) (s : Store)
    (pre post : List Order) (o : Order) (hs : s.orders = pre ++ o :: post)
    (hl : l.order = some pre.length) (hst : o.status ≠ .str "delivered") :
    validateOrderDelivered req l s = ⟨.next, l, s⟩ := by
  rw [validateOrderDelivered_found req l s pre post o hs hl, eqStr_eq_false.mpr hst]
  rfl

end Orders

/-! ### C13: the status is validated for membership only -/

/-- C13. (a) Let `o`, the first order with the route id, have a status other
than `delivered` (possibly none).  For every payload that passes the deliverTo,
mobileNumber, dishes, quantity and id checks and whose status is any one of
`pending`, `preparing`, `out-for-delivery`, `delivered`, order update answers
200 and the order becomes `o` with its deliverTo, mobileNumber, dishes and
status replaced by the payload values: the status is the requested one,
whatever the current status.  (b) For every store and request, an update whose
status is missing or not one of the four values never succeeds, and leaves the
store unchanged. -/
theorem update_validates_status_membership (toStr : JsVal → Option String) (req : Request)
    (s : Store) :
    (∀ (pre post : List Order) (o : Order) (deliverTo mobileNumber dishes : JsVal) (t : String),
      s.orders = pre ++ o :: post →
      (∀ x ∈ pre, x.id.eqStr req.routeId = false) → o.id.eqStr req.routeId = true →
      o.status ≠ .str "delivered" →
      (∀ c ∈ [Orders.validateDeliverTo, Orders.validateMobileNumber, Orders.validateDishes,
        Orders.validateDishQuantity, Orders.validateOrderIdMatch toStr],
        (c req noLocals s).signal = .next) →
      JsVal.dataField req.body "deliverTo" = some deliverTo →
      JsVal.dataField req.body "mobileNumber" = some mobileNumber →
      JsVal.dataField req.body "dishes" = some dishes →
      t ∈ Orders.validStatuses → JsVal.dataField req.body "status" = some (.str t) →
      runChain (Orders.exports.update toStr) req noLocals s =
        ⟨.respond 200 (.order ⟨o.id, deliverTo, mobileNumber, dishes, .str t⟩),
          { noLocals with order := some pre.length },
          { s with orders := pre ++ ⟨o.id, deliverTo, mobileNumber, dishes, .str t⟩ :: post }⟩) ∧
    ((∀ t ∈ Orders.validStatuses, JsVal.dataField req.body "status" ≠ some (.str t)) →
      (∀ st b, (runChain (Orders.exports.update toStr) req noLocals s).signal ≠ .respond st b) ∧
        (runChain (Orders.exports.update toStr) req noLocals s).store = s) := by
  constructor
  · intro pre post o d m ds t hs hpre hid hnd hfive hd hm hds ht hstatus
    have hchain := Orders.exports_update_found toStr req s pre post o hs hpre hid
    have hseven : ∀ c ∈ [Orders.validateDeliverTo, Orders.validateMobileNumber,
        Orders.validateDishes, Orders.validateDishQuantity, Orders.validateOrderIdMatch toStr,
        Orders.validateOrderStatus, Orders.validateOrderDelivered],
        (c req { noLocals with order := some pre.length } s).signal = .next := by
      intro c hc
      simp only [List.mem_cons, List.mem_singleton, List.not_mem_nil, or_false] at hc
      have five : ∀ c ∈ [Orders.validateDeliverTo, Orders.validateMobileNumber,
          Orders.validateDishes, Orders.validateDishQuantity,
          Orders.validateOrderIdMatch toStr],
          (c req { noLocals with order := some pre.length } s).signal = .next := by
        intro c hc
        have hc6 : c ∈ [Orders.validateDeliverTo, Orders.validateMobileNumber,
            Orders.validateDishes, Orders.validateDishQuantity,
            Orders.validateOrderIdMatch toStr, Orders.validateOrderStatus] := by
          simp only [List.mem_cons, List.mem_singleton, List.not_mem_nil, or_false] at hc ⊢
          tauto
        rw [Orders.payload_check_signal toStr req _ noLocals s s c hc6]
        exact hfive c hc
      rcases hc with rfl | rfl | rfl | rfl | rfl | rfl | rfl
      · exact five _ (by simp)
      · exact five _ (by simp)
      · exact five _ (by simp)
      · exact five _ (by simp)
      · exact five _ (by simp)
      · rw [Orders.validateOrderStatus_recognized req _ s t ht hstatus]
      · rw [Orders.validateOrderDelivered_next req _ s pre post o hs rfl hnd]
    have hupd := Orders.update_eq_orders req { noLocals with order := some pre.length } s pre
      post o d m ds (.str t) hs rfl hd hm hds hstatus
    rw [hchain, (runChain_checks (Orders.pure_update_checks toStr)).2 hseven,
      runChain_cons_of_stop (by rw [hupd]; exact Signal.noConfusion), hupd]
  · intro hbad
    have hno : ∀ st b,
        (runChain (Orders.exports.update toStr) req noLocals s).signal ≠ .respond st b := by
      intro st b hr
      obtain ⟨pre, o, post, hs, hpre, hid⟩ :=
        Orders.exports_update_respond_found toStr req s st b hr
      obtain ⟨hall, -⟩ := Orders.exports_update_respond toStr req s pre post o hs hpre hid st b hr
      obtain ⟨t, ht, hstatus⟩ := Orders.validateOrderStatus_next req _ s
        (hall Orders.validateOrderStatus (by simp))
      exact hbad t ht hstatus
    refine ⟨hno, ?_⟩
    rcases Orders.atomic_order_exports_update toStr req noLocals s with h | ⟨st, b, h⟩
    · exact h
    · exact absurd h (hno st b)

/-- Witness for C13: in the sample store, the pending order `o1` is moved to
`delivered` by a valid update. -/
theorem update_validates_status_membership_witness :
    runChain (Orders.exports.update sampleToStr)
        ⟨"o1", bodyOf [("deliverTo", .str "9 Oak Ave"), ("mobileNumber", .str "555-0000"),
          ("dishes", .arr [line "d1" (.int 4)]), ("status", .str "delivered")]⟩ noLocals
        sampleStore =
      ⟨.respond 200 (.order ⟨.str "o1", .str "9 Oak Ave", .str "555-0000",
          .arr [line "d1" (.int 4)], .str "delivered"⟩), { noLocals with order := some 0 },
        { sampleStore with
          orders := [⟨.str "o1", .str "9 Oak Ave", .str "555-0000", .arr [line "d1" (.int 4)],
            .str "delivered"⟩, orderDelivered] }⟩ :=
  (update_validates_status_membership sampleToStr
    ⟨"o1", bodyOf [("deliverTo", .str "9 Oak Ave"), ("mobileNumber", .str "555-0000"),
      ("dishes", .arr [line "d1" (.int 4)]), ("status", .str "delivered")]⟩ sampleStore).1 []
    [orderDelivered] orderPending (.str "9 Oak Ave") (.str "555-0000")
    (.arr [line "d1" (.int 4)]) "delivered" rfl (fun _ hx => nomatch hx) rfl
    (by intro h; simp [orderPending] at h)
    (by
      intro c hc
      simp only [List.mem_cons, List.mem_singleton, List.not_mem_nil, or_false] at hc
      rcases hc with rfl | rfl | rfl | rfl | rfl <;> rfl)
    rfl rfl rfl (by simp [Orders.validStatuses]) rfl

/-! ### C16: what a successful order update changes -/

/-- C16. For every store and every order update request that succeeds (the
chain sends a response): the response is 200 with the updated order; that
order is the first order of the collection whose id is the route id (no entry
before it has that id), with its id unchanged and its deliverTo, mobileNumber,
dishes and status equal to the payload's values; and the collection afterwards
is the old one with that single entry replaced in place, so it has the same
length, the same entry order and every other order unchanged. -/
theorem successful_update_changes_only_target (toStr : JsVal → Option String) (req : Request)
    (s : Store) (st : Nat) (b : Body)
    (hr : (runChain (Orders.exports.update toStr) req noLocals s).signal = .respond st b) :
    ∃ (pre post : List Order) (o : Order) (deliverTo mobileNumber dishes status : JsVal),
      s.orders = pre ++ o :: post ∧
      (∀ x ∈ pre, x.id.eqStr req.routeId = false) ∧ o.id = .str req.routeId ∧
      JsVal.dataField req.body "deliverTo" = some deliverTo ∧
      JsVal.dataField req.body "mobileNumber" = some mobileNumber ∧
      JsVal.dataField req.body "dishes" = some dishes ∧
      JsVal.dataField req.body "status" = some status ∧
      st = 200 ∧ b = .order ⟨o.id, deliverTo, mobileNumber, dishes, status⟩ ∧
      (runChain (Orders.exports.update toStr) req noLocals s).store =
        { s with orders := pre ++ ⟨o.id, deliverTo, mobileNumber, dishes, status⟩ :: post } ∧
      (runChain (Orders.exports.update toStr) req noLocals s).store.orders.length =
        s.orders.length := by
  obtain ⟨pre, o, post, hs, hpre, hid⟩ := Orders.exports_update_respond_found toStr req s st b hr
  obtain ⟨hall, hrun⟩ := Orders.exports_update_respond toStr req s pre post o hs hpre hid st b hr
  obtain ⟨d, hd, -⟩ := Orders.validateDeliverTo_next req _ s
    (hall Orders.validateDeliverTo (by simp))
  obtain ⟨m, hm⟩ := dataField_some_of_some hd "mobileNumber"
  obtain ⟨ds, hds⟩ := dataField_some_of_some hd "dishes"
  obtain ⟨v, hv⟩ := dataField_some_of_some hd "status"
  have hupd := Orders.update_eq_orders req { noLocals with order := some pre.length } s pre
    post o d m ds v hs rfl hd hm hds hv
  rw [hrun, hupd] at hr
  simp only [Signal.respond.injEq] at hr
  refine ⟨pre, post, o, d, m, ds, v, hs, hpre, eqStr_eq_true.mp hid, hd, hm, hds, hv,
    hr.1.symm, hr.2.symm, by rw [hrun, hupd], ?_⟩
  rw [hrun, hupd]
  simp [hs]

/-- Witness for C16: the successful update of order `o1` of the sample store. -/
theorem successful_update_changes_only_target_witness :
    ∃ (pre post : List Order) (o : Order) (deliverTo mobileNumber dishes status : JsVal),
      sampleStore.orders = pre ++ o :: post ∧
      (runChain (Orders.exports.update sampleToStr) ⟨"o1", sampleOrderPayload⟩ noLocals
        sampleStore).store =
        { sampleStore with
          orders := pre ++ ⟨o.id, deliverTo, mobileNumber, dishes, status⟩ :: post } := by
  obtain ⟨pre, post, o, d, m, ds, v, h1, -, -, -, -, -, -, -, -, h2, -⟩ :=
    successful_update_changes_only_target sampleToStr ⟨"o1", sampleOrderPayload⟩ sampleStore 200
      (.order ⟨.str "o1", .str "9 Oak Ave", .str "555-0000", .arr [line "d1" (.int 4)],
        .str "pending"⟩) rfl
  exact ⟨pre, post, o, d, m, ds, v, h1, h2⟩

/-! ### C17: exceptions raised by the validators -/

/-- C17. Validators that raise a `TypeError` instead of ending with pass or a
400/404.  With the body `{ data: null }` the default `= {}` does not apply, and
`validateProperties`, `validatePrice`, `validateDeliverTo` and the dish create
chain raise when they read a property of `null`.  With a valid order payload
whose `dishes` is `[null]`, the callback of `find` reads `quantity` of `null`:
`validateDishQuantity` and with it the order create chain raise. -/
theorem validators_raise_on_null :
    (Dishes.validateProperties "name" ⟨"", .obj [("data", .null)]⟩ noLocals sampleStore).signal =
        .throw ∧
      (Dishes.validatePrice ⟨"", .obj [("data", .null)]⟩ noLocals sampleStore).signal = .throw ∧
      (Orders.validateDeliverTo ⟨"", .obj [("data", .null)]⟩ noLocals sampleStore).signal =
        .throw ∧
      (runChain (Dishes.exports.create "n1") ⟨"", .obj [("data", .null)]⟩ noLocals
        sampleStore).signal = .throw ∧
      (Orders.validateDishQuantity
        ⟨"", bodyOf [("deliverTo", .str "120 SW"), ("mobileNumber", .str "555-1234"),
          ("dishes", .arr [.null])]⟩ noLocals sampleStore).signal = .throw ∧
      (runChain (Orders.exports.create "n1")
        ⟨"", bodyOf [("deliverTo", .str "120 SW"), ("mobileNumber", .str "555-1234"),
          ("dishes", .arr [.null])]⟩ noLocals sampleStore).signal = .throw :=
  ⟨rfl, rfl, rfl, rfl, rfl, rfl⟩

/-! ### C18: the dishes shape check -/

namespace Orders

theorem notNonEmptyArray_eq_false (v : JsVal) :
    notNonEmptyArray v = false ↔ ∃ x xs, v = .arr (x :: xs) := by
  cases v with
  | arr items =>
    cases items with
    | nil => simp [notNonEmptyArray]
    | cons x xs => simp [notNonEmptyArray]
  | _ => simp [notNonEmptyArray]

end Orders

/-- C18, counterexample. An order create request without `dishes` fails the
dishes check with the message "Order must include a dish", which is not the
"must include at least one dish" message. -/
theorem missing_dishes_message_is_not_at_least_one :
    JsVal.dataField (bodyOf [("deliverTo", .str "120 SW"), ("mobileNumber", .str "555-1234")])
        "dishes" = some .undefined ∧
      (runChain (Orders.exports.create "n1")
        ⟨"", bodyOf [("deliverTo", .str "120 SW"), ("mobileNumber", .str "555-1234")]⟩ noLocals
        sampleStore).signal = .error 400 "Order must include a dish" ∧
      (runChain (Orders.exports.create "n1")
        ⟨"", bodyOf [("deliverTo", .str "120 SW"), ("mobileNumber", .str "555-1234")]⟩ noLocals
        sampleStore).signal ≠ .error 400 "Order must include at least one dish" := by
  refine ⟨rfl, rfl, ?_⟩
  intro h
  have h' : Signal.error 400 "Order must include a dish" =
      Signal.error 400 "Order must include at least one dish" := h
  simp at h'

/-- C18, amended. For every request that reaches the dishes check (its `data`
can be read; the check is the same in the create and the update chain): when
`dishes` is missing or otherwise falsy, the check fails with the 400 message
"Order must include a dish"; when `dishes` is truthy but is not an array or is
an empty array, it fails with the different 400 message "Order must include at
least one dish"; and it passes exactly when `dishes` is a non-empty array.  The
check never changes the store. -/
theorem dishes_shape_check (req : Request) (l : Locals) (s : Store) (dishes : JsVal)
    (hv : JsVal.dataField req.body "dishes" = some dishes) :
    (dishes.truthy = false →
      Orders.validateDishes req l s = ⟨.error 400 "Order must include a dish", l, s⟩) ∧
    (dishes.truthy = true → (∀ x xs, dishes ≠ .arr (x :: xs)) →
      Orders.validateDishes req l s =
        ⟨.error 400 "Order must include at least one dish", l, s⟩) ∧
    ((Orders.validateDishes req l s).signal = .next ↔ ∃ x xs, dishes = .arr (x :: xs)) ∧
    "Order must include a dish" ≠ "Order must include at least one dish" := by
  refine ⟨?_, ?_, ?_, by decide⟩
  · intro hf
    unfold Orders.validateDishes
    rw [hv]
    simp [hf]
  · intro ht hna
    have hn : Orders.notNonEmptyArray dishes = true := by
      cases h : Orders.notNonEmptyArray dishes
      · obtain ⟨x, xs, hx⟩ := (Orders.notNonEmptyArray_eq_false dishes).mp h
        exact absurd hx (hna x xs)
      · rfl
    unfold Orders.validateDishes
    rw [hv]
    simp [ht, hn]
  · unfold Orders.validateDishes
    rw [hv]
    constructor
    · intro h
      cases ht : dishes.truthy
      · simp [ht] at h
      · cases hn : Orders.notNonEmptyArray dishes
        · exact (Orders.notNonEmptyArray_eq_false dishes).mp hn
        · simp [ht, hn] at h
    · rintro ⟨x, xs, rfl⟩
      rfl

/-- Witness for C18: an empty `dishes` array gets the "at least one dish"
message. -/
theorem dishes_shape_check_witness :
    Orders.validateDishes ⟨"", bodyOf [("dishes", .arr [])]⟩ noLocals sampleStore =
      ⟨.error 400 "Order must include at least one dish", noLocals, sampleStore⟩ :=
  (dishes_shape_check ⟨"", bodyOf [("dishes", .arr [])]⟩ noLocals sampleStore (.arr []) rfl).2.1
    rfl (by intro x xs h; simp at h)

/-! ### C19: the text of the missing-field messages -/

namespace Orders

theorem validateDeliverTo_error (req : Request) (l : Locals) (s : Store) (st : Nat)
    (msg : String) (h : (validateDeliverTo req l s).signal = .error st msg) :
    st = 400 ∧ msg = "Order must include a deliverTo" := by
  rw [validateDeliverTo_eq] at h
  cases hv : JsVal.dataField req.body "deliverTo" with
  | none => rw [hv] at h; cases h
  | some v =>
    rw [hv] at h
    cases ht : v.truthy
    · simp only [ht, Bool.false_eq_true, if_false, Signal.error.injEq] at h
      exact ⟨h.1.symm, h.2.symm⟩
    · simp [ht] at h

theorem validateMobileNumber_error (req : Request) (l : Locals) (s : Store) (st : Nat)
    (msg : String) (h : (validateMobileNumber req l s).signal = .error st msg) :
    st = 400 ∧ msg = "Order must include a mobileNumber" := by
  rw [validateMobileNumber_eq] at h
  cases hv : JsVal.dataField req.body "mobileNumber" with
  | none => rw [hv] at h; cases h
  | some v =>
    rw [hv] at h
    cases ht : v.truthy
    · simp only [ht, Bool.false_eq_true, if_false, Signal.error.injEq] at h
      exact ⟨h.1.symm, h.2.symm⟩
    · simp [ht] at h

end Orders

/-- C19, counterexample. A dish create request with an empty `data` fails the
name check with the message "Dish must include a name", not "Missing field:
name". -/
theorem missing_name_message_is_not_missing_field :
    (Dishes.validateProperties "name" ⟨"", bodyOf []⟩ noLocals sampleStore).signal =
        .error 400 "Dish must include a name" ∧
      (Dishes.validateProperties "name" ⟨"", bodyOf []⟩ noLocals sampleStore).signal ≠
        .error 400 "Missing field: name" := by
  refine ⟨rfl, ?_⟩
  intro h
  have h' : Signal.error 400 "Dish must include a name" =
      Signal.error 400 "Missing field: name" := h
  simp at h'

/-- C19, amended. A request failing a non-empty field check is rejected with
status 400 and a message naming the offending field: for the dish fields name,
description and image_url the message is "Dish must include a <fieldName>";
for the order fields it is "Order must include a deliverTo" and "Order must
include a mobileNumber". -/
theorem missing_field_messages (req : Request) (l : Locals) (s : Store) (st : Nat)
    (msg : String) :
    (∀ p ∈ ["name", "description", "image_url"],
      (Dishes.validateProperties p req l s).signal = .error st msg →
        st = 400 ∧ msg = "Dish must include a " ++ p) ∧
    ((Orders.validateDeliverTo req l s).signal = .error st msg →
      st = 400 ∧ msg = "Order must include a deliverTo") ∧
    ((Orders.validateMobileNumber req l s).signal = .error st msg →
      st = 400 ∧ msg = "Order must include a mobileNumber") :=
  ⟨fun p _ h => Dishes.validateProperties_error p req l s st msg h,
    Orders.validateDeliverTo_error req l s st msg,
    Orders.validateMobileNumber_error req l s st msg⟩

/-- Witness for C19: the failure of the image_url check on an empty `data`. -/
theorem missing_field_messages_witness :
    (Dishes.validateProperties "image_url" ⟨"", bodyOf []⟩ noLocals sampleStore).signal =
        .error 400 "Dish must include a image_url" ∧
      ((400 : Nat) = 400 ∧
        "Dish must include a image_url" = "Dish must include a " ++ "image_url") :=
  ⟨rfl, (missing_field_messages ⟨"", bodyOf []⟩ noLocals sampleStore 400
    "Dish must include a image_url").1 "image_url" (by simp) rfl⟩

/-! ### C20: a freshly created order cannot be deleted -/

/-- C20. Let `s1` be the store after a valid order create request (one that
passes the four checks of the create chain, whatever status its payload
carries) whose generated id is not used in the collection.  (a) An order
destroy on the returned id issued on `s1` fails with the 400 "An order cannot
be deleted unless it is pending" and leaves the collection unchanged.  (b) If
an order update on that id succeeds on `s1`, giving the store `s2`, then order
destroy on `s2` succeeds with 204 (and removes the order) when the update's
payload status was `pending`, and fails with the same 400 otherwise: the
order becomes deletable only through an update that sets its status to
`pending`. -/
theorem fresh_order_cannot_be_deleted (nextId : String) (toStr : JsVal → Option String)
    (req : Request) (s s1 : Store)
    (hvalid : ∀ c ∈ [Orders.validateDeliverTo, Orders.validateMobileNumber,
      Orders.validateDishes, Orders.validateDishQuantity], (c req noLocals s).signal = .next)
    (hfresh : ∀ x ∈ s.orders, x.id.eqStr nextId = false)
    (hs1 : s1 = (runChain (Orders.exports.create nextId) req noLocals s).store) :
    (∀ body,
      (runChain Orders.exports.destroy ⟨nextId, body⟩ noLocals s1).signal =
          .error 400 "An order cannot be deleted unless it is pending" ∧
        (runChain Orders.exports.destroy ⟨nextId, body⟩ noLocals s1).store = s1) ∧
    (∀ body st b s2,
      (runChain (Orders.exports.update toStr) ⟨nextId, body⟩ noLocals s1).signal =
        .respond st b →
      s2 = (runChain (Orders.exports.update toStr) ⟨nextId, body⟩ noLocals s1).store →
      ∀ body',
        (JsVal.dataField body "status" = some (.str "pending") →
          (runChain Orders.exports.destroy ⟨nextId, body'⟩ noLocals s2).signal =
              .respond 204 .empty ∧
            (runChain Orders.exports.destroy ⟨nextId, body'⟩ noLocals s2).store.orders =
              s.orders) ∧
        (JsVal.dataField body "status" ≠ some (.str "pending") →
          (runChain Orders.exports.destroy ⟨nextId, body'⟩ noLocals s2).signal =
              .error 400 "An order cannot be deleted unless it is pending" ∧
            (runChain Orders.exports.destroy ⟨nextId, body'⟩ noLocals s2).store = s2)) := by
  obtain ⟨d, m, ds, -, -, -, hrun⟩ := Orders.exports_create_valid nextId req s hvalid
  rw [hrun] at hs1
  have hs1o : s1.orders = s.orders ++ (⟨.str nextId, d, m, ds, .undefined⟩ : Order) :: [] := by
    rw [hs1]
  have hid : ∀ (o : Order), o.id = .str nextId → ∀ body : JsVal,
      o.id.eqStr (⟨nextId, body⟩ : Request).routeId = true :=
    fun o ho _ => eqStr_eq_true.mpr ho
  constructor
  · intro body
    have h := Orders.exports_destroy_found ⟨nextId, body⟩ s1 s.orders []
      ⟨.str nextId, d, m, ds, .undefined⟩ hs1o hfresh (hid _ rfl body)
    have hp : (JsVal.undefined).eqStr "pending" = false := rfl
    simp only [hp, Bool.not_false, if_true] at h
    rw [h]
    exact ⟨rfl, rfl⟩
  · intro body st b s2 hr hs2 body'
    obtain ⟨hall, hrun2⟩ := Orders.exports_update_respond toStr ⟨nextId, body⟩ s1 s.orders []
      ⟨.str nextId, d, m, ds, .undefined⟩ hs1o hfresh (hid _ rfl body) st b hr
    obtain ⟨d', hd', -⟩ := Orders.validateDeliverTo_next ⟨nextId, body⟩ _ s1
      (hall Orders.validateDeliverTo (by simp))
    obtain ⟨m', hm'⟩ := dataField_some_of_some hd' "mobileNumber"
    obtain ⟨ds', hds'⟩ := dataField_some_of_some hd' "dishes"
    obtain ⟨v, hv⟩ := dataField_some_of_some hd' "status"
    have hupd := Orders.update_eq_orders ⟨nextId, body⟩
      { noLocals with order := some s.orders.length } s1 s.orders []
      ⟨.str nextId, d, m, ds, .undefined⟩ d' m' ds' v hs1o rfl hd' hm' hds' hv
    rw [hrun2, hupd] at hs2
    have hs2o : s2.orders = s.orders ++ (⟨.str nextId, d', m', ds', v⟩ : Order) :: [] := by
      rw [hs2]
    have h := Orders.exports_destroy_found ⟨nextId, body'⟩ s2 s.orders []
      ⟨.str nextId, d', m', ds', v⟩ hs2o hfresh (hid _ rfl body')
    dsimp only at h hv
    constructor
    · intro hpend
      rw [hv] at hpend
      cases hpend
      have hp : (JsVal.str "pending").eqStr "pending" = true := rfl
      simp only [hp, Bool.not_true, Bool.false_eq_true, if_false] at h
      rw [h]
      exact ⟨rfl, by simp⟩
    · intro hnp
      have hp : v.eqStr "pending" = false := by
        rw [eqStr_eq_false]
        intro hvp
        exact hnp (by rw [hv, hvp])
      simp only [hp, Bool.not_false, if_true] at h
      rw [h]
      exact ⟨rfl, rfl⟩

/-- Witness for C20: the sample payload (status `pending`) created in the sample
store under the fresh id `n1`, then deleted at once. -/
theorem fresh_order_cannot_be_deleted_witness :
    (runChain Orders.exports.destroy ⟨"n1", .obj []⟩ noLocals
        (runChain (Orders.exports.create "n1") ⟨"", sampleOrderPayload⟩ noLocals
          sampleStore).store).signal =
      .error 400 "An order cannot be deleted unless it is pending" :=
  ((fresh_order_cannot_be_deleted "n1" sampleToStr ⟨"", sampleOrderPayload⟩ sampleStore
    (runChain (Orders.exports.create "n1") ⟨"", sampleOrderPayload⟩ noLocals sampleStore).store
    (by
      intro c hc
      simp only [List.mem_cons, List.mem_singleton, List.not_mem_nil, or_false] at hc
      rcases hc with rfl | rfl | rfl | rfl <;> rfl)
    (by
      intro x hx
      simp only [sampleStore, List.mem_cons, List.mem_singleton, List.not_mem_nil,
        or_false] at hx
      rcases hx with rfl | rfl <;> rfl)
    rfl).1 (.obj [])).1

namespace Dishes

/-! ### What a succeeding dish chain has checked -/

theorem validateProperties_next (p : String) (req : Request) (l : Locals) (s : Store)
    (h : (validateProperties p req l s).signal = .next) :
    ∃ v, JsVal.dataField req.body p = some v ∧ v.truthy = true := by
  rw [validateProperties_eq] at h
  cases hv : JsVal.dataField req.body p with
  | none => rw [hv] at h; cases h
  | some v =>
    rw [hv] at h
    cases ht : v.truthy
    · simp [ht] at h
    · exact ⟨v, rfl, ht⟩

theorem validatePrice_next (req : Request) (l : Locals) (s : Store)
    (h : (validatePrice req l s).signal = .next) :
    ∃ price, JsVal.dataField req.body "price" = some price ∧ price.isInteger = true ∧
      price.gtZero = true := by
  unfold validatePrice at h
  cases hv : JsVal.dataField req.body "price" with
  | none => rw [hv] at h; cases h
  | some price =>
    rw [hv] at h
    dsimp only at h
    cases hc : (price.truthy && price.isInteger && price.gtZero)
    · simp [hc] at h
    · simp only [Bool.and_eq_true] at hc
      exact ⟨price, rfl, hc.1.2, hc.2⟩

/-- The fields a payload has when it passes the four dish checks. -/
theorem checks_pass_fields (req : Request) (l : Locals) (s : Store)
    (hall : ∀ c ∈ [validateProperties "name", validateProperties "description",
      validateProperties "image_url", validatePrice], (c req l s).signal = .next) :
    ∃ name description price image_url,
      JsVal.dataField req.body "name" = some name ∧
      JsVal.dataField req.body "description" = some description ∧
      JsVal.dataField req.body "price" = some price ∧
      JsVal.dataField req.body "image_url" = some image_url ∧
      name.truthy = true ∧ description.truthy = true ∧ image_url.truthy = true ∧
      price.isInteger = true ∧ price.gtZero = true := by
  obtain ⟨n, hn, hnt⟩ := validateProperties_next _ req l s
    (hall (validateProperties "name") (by simp))
  obtain ⟨d, hd, hdt⟩ := validateProperties_next _ req l s
    (hall (validateProperties "description") (by simp))
  obtain ⟨u, hu, hut⟩ := validateProperties_next _ req l s
    (hall (validateProperties "image_url") (by simp))
  obtain ⟨p, hp, hpi, hpg⟩ := validatePrice_next req l s (hall validatePrice (by simp))
  exact ⟨n, d, p, u, hn, hd, hp, hu, hnt, hdt, hut, hpi, hpg⟩

/-- What the handler `update` has done when it sends a response. -/
theorem update_respond (toStr : JsVal → Option String) (req : Request) (l : Locals) (s : Store)
    (st : Nat) (b : Body) (h : (update toStr req l s).signal = .respond st b) :
    ∃ i dish name description price image_url,
      s.dishes[i]? = some dish ∧
      JsVal.dataField req.body "name" = some name ∧
      JsVal.dataField req.body "description" = some description ∧
      JsVal.dataField req.body "price" = some price ∧
      JsVal.dataField req.body "image_url" = some image_url ∧
      (update toStr req l s).store =
        { s with dishes := s.dishes.set i ⟨dish.id, name, description, price, image_url⟩ } := by
  unfold update at h
  cases hd : JsVal.dataOf req.body with
  | none => rw [hd] at h; cases h
  | some d =>
    rw [hd] at h
    dsimp only at h
    split at h
    · rename_i id name description price image_url hid hname hdesc hprice himg
      split at h
      · split at h <;> cases h
      · rename_i hcond
        split at h
        · cases h
        · rename_i i dish hfound
          have hget : s.dishes[i]? = some dish := by
            cases hl : l.dish with
            | none => rw [hl] at hfound; cases hfound
            | some j =>
              rw [hl] at hfound
              simp only [Option.bind, Option.map_eq_some', Prod.mk.injEq] at hfound
              obtain ⟨dish', hd', rfl, rfl⟩ := hfound
              exact hd'
          refine ⟨i, dish, name, description, price, image_url, hget, ?_, ?_, ?_, ?_, ?_⟩
          · simp [JsVal.dataField, hd, hname]
          · simp [JsVal.dataField, hd, hdesc]
          · simp [JsVal.dataField, hd, hprice]
          · simp [JsVal.dataField, hd, himg]
          · unfold update
            simp only [hd, hid, hname, hdesc, hprice, himg, hcond, hfound]
            rfl
    · cases h

end Dishes

/-! ### C15: the dish data invariant -/

/-- C15. If every dish of the store has a strictly positive integer price and
non-empty name, description and image_url, the same holds for every dish of the
store after any dish create request and after any dish update request,
successful or failed, for every payload.  This holds for every reading
`nonEmpty` of "non-empty" that truthy values satisfy: in particular for
"truthy" itself and for "defined and not the empty string". -/
theorem dish_invariant_preserved (nonEmpty : JsVal → Bool)
    (hne : ∀ v, v.truthy = true → nonEmpty v = true) (nextId : String)
    (toStr : JsVal → Option String) (req : Request) (s : Store)
    (hinv : ∀ d ∈ s.dishes, dishWellFormed nonEmpty d = true) :
    (∀ d ∈ (runChain (Dishes.exports.create nextId) req noLocals s).store.dishes,
      dishWellFormed nonEmpty d = true) ∧
    (∀ d ∈ (runChain (Dishes.exports.update toStr) req noLocals s).store.dishes,
      dishWellFormed nonEmpty d = true) := by
  have hnew : ∀ (id name description price image_url : JsVal),
      name.truthy = true → description.truthy = true → image_url.truthy = true →
      price.isInteger = true → price.gtZero = true →
      dishWellFormed nonEmpty ⟨id, name, description, price, image_url⟩ = true := by
    intro id n d p u hn hd hu hi hg
    simp [dishWellFormed, hne n hn, hne d hd, hne u hu, hi, hg]
  constructor
  · rcases Dishes.atomic_dish_exports_create nextId req noLocals s with h | ⟨st, b, hr⟩
    · rw [h]; exact hinv
    · have hchain : Dishes.exports.create nextId =
          [Dishes.validateProperties "name", Dishes.validateProperties "description",
            Dishes.validateProperties "image_url", Dishes.validatePrice] ++
            [Dishes.create nextId] := rfl
      rw [hchain] at hr ⊢
      rcases runChain_checks_cases _ [Dishes.create nextId] req noLocals s
          Dishes.pure_create_checks with ⟨p, c, q, hsplit, -, -, hres⟩ | ⟨hall, hres⟩
      · exfalso
        have hc : c ∈ [Dishes.validateProperties "name",
            Dishes.validateProperties "description", Dishes.validateProperties "image_url",
            Dishes.validatePrice] := by
          rw [hsplit]; simp
        rw [hres] at hr
        exact (Dishes.pure_create_checks c hc req noLocals s).2.2 st b hr
      · obtain ⟨n, d, p, u, hn, hd, hp, hu, hnt, hdt, hut, hpi, hpg⟩ :=
          Dishes.checks_pass_fields req noLocals s hall
        have hcreate := Dishes.create_eq nextId req noLocals s n d p u hn hd hu hp
        rw [hres, runChain_cons_of_stop (by rw [hcreate]; exact Signal.noConfusion), hcreate]
        intro x hx
        simp only [List.mem_append, List.mem_singleton] at hx
        rcases hx with hx | rfl
        · exact hinv x hx
        · exact hnew _ _ _ _ _ hnt hdt hut hpi hpg
  · rcases Dishes.atomic_dish_exports_update toStr req noLocals s with h | ⟨st, b, hr⟩
    · rw [h]; exact hinv
    · have hchain : Dishes.exports.update toStr =
          Dishes.dishExists :: ([Dishes.validateProperties "name",
            Dishes.validateProperties "description", Dishes.validateProperties "image_url",
            Dishes.validatePrice] ++ [Dishes.update toStr]) := rfl
      rw [hchain] at hr ⊢
      by_cases hn : (Dishes.dishExists req noLocals s).signal = .next
      · rw [runChain_cons_of_next hn] at hr ⊢
        rw [Dishes.store_dishExists] at hr ⊢
        rcases runChain_checks_cases _ [Dishes.update toStr] req
            (Dishes.dishExists req noLocals s).locals s
            Dishes.pure_create_checks with ⟨p, c, q, hsplit, -, -, hres⟩ | ⟨hall, hres⟩
        · exfalso
          have hc : c ∈ [Dishes.validateProperties "name",
              Dishes.validateProperties "description", Dishes.validateProperties "image_url",
              Dishes.validatePrice] := by
            rw [hsplit]; simp
          rw [hres] at hr
          exact (Dishes.pure_create_checks c hc req _ s).2.2 st b hr
        · rw [hres, runChain_cons_of_stop (Dishes.update_signal_ne_next toStr req _ _)] at hr ⊢
          obtain ⟨n, d, p, u, hn, hd, hp, hu, hnt, hdt, hut, hpi, hpg⟩ :=
            Dishes.checks_pass_fields req _ s hall
          obtain ⟨i, dish, n', d', p', u', -, hn', hd', hp', hu', hstore⟩ :=
            Dishes.update_respond toStr req _ s st b hr
          rw [hn] at hn'
          rw [hd] at hd'
          rw [hp] at hp'
          rw [hu] at hu'
          cases hn'
          cases hd'
          cases hp'
          cases hu'
          rw [hstore]
          intro x hx
          rcases List.mem_or_eq_of_mem_set hx with hx | rfl
          · exact hinv x hx
          · exact hnew _ _ _ _ _ hnt hdt hut hpi hpg
      · exfalso
        rw [runChain_cons_of_stop hn] at hr
        unfold Dishes.dishExists at hr
        split at hr <;> cases hr

/-- Witness for C15: the sample store satisfies the invariant read as "defined
and not the empty string", and still does after an update of dish `d1`. -/
theorem dish_invariant_preserved_witness :
    (runChain (Dishes.exports.update sampleToStr)
        ⟨"d1", bodyOf [("name", .str "Soup"), ("description", .str "Hot"),
          ("image_url", .str "soup.png"), ("price", .int 7)]⟩ noLocals
        sampleStore).store.dishes.all (dishWellFormed presentNonEmpty) = true :=
  List.all_eq_true.mpr (dish_invariant_preserved presentNonEmpty
    (by
      intro v hv
      cases v <;> simp [JsVal.truthy, presentNonEmpty, JsVal.isDefined, JsVal.isEmptyStr,
        JsVal.eqStr] at hv ⊢
      exact hv)
    "n1" sampleToStr
    ⟨"d1", bodyOf [("name", .str "Soup"), ("description", .str "Hot"),
      ("image_url", .str "soup.png"), ("price", .int 7)]⟩ sampleStore
    (by
      intro d hd
      simp only [sampleStore, List.mem_singleton] at hd
      subst hd
      rfl)).2

/-! ### C14: the order data invariant -/

/-- C14. The sample store satisfies the order data invariant; after the order
create request with payload
`{ deliverTo: "120 SW", mobileNumber: "555-1234", dishes: [0] }` it does not:
the quantity check lets the line `0`, which has no quantity, through (the
defect shown for C4), and create stores the order. -/
theorem create_can_break_order_invariant :
    ordersWellFormed sampleStore = true ∧
      ordersWellFormed
        (runChain (Orders.exports.create "n1")
          ⟨"", bodyOf [("deliverTo", .str "120 SW"), ("mobileNumber", .str "555-1234"),
            ("dishes", .arr [.int 0])]⟩ noLocals sampleStore).store = false :=
  ⟨rfl, rfl⟩

namespace Orders

theorem badQuantity_eq_false (q : JsVal) (h : badQuantity q = false) :
    q.isInteger = true ∧ q.gtZero = true := by
  cases q <;>
    simp [badQuantity, JsVal.truthy, JsVal.isNumber, JsVal.isInteger, JsVal.leZero,
      JsVal.gtZero] at h ⊢
  exact ⟨h.1.2, h.2⟩

theorem findInvalid_none (ds : List JsVal) (h : findInvalid ds = some none) :
    ∀ y ∈ ds, lineWellFormed y = true := by
  induction ds with
  | nil => simp
  | cons d ds ih =>
    unfold findInvalid at h
    cases hq : d.getProp "quantity" with
    | none => rw [hq] at h; cases h
    | some q =>
      rw [hq] at h
      dsimp only at h
      cases hb : badQuantity q
      · simp only [hb, Bool.false_eq_true, if_false, Option.map_eq_some'] at h
        obtain ⟨r, hr, hr'⟩ := h
        cases r with
        | some w => simp at hr'
        | none =>
          intro y hy
          rcases List.mem_cons.mp hy with rfl | hy
          · obtain ⟨h1, h2⟩ := badQuantity_eq_false q hb
            simp [lineWellFormed, hq, h1, h2]
          · exact ih hr y hy
      · simp [hb] at h

/-- A payload whose lines are all truthy and that passes the quantity check has
only well-formed lines. -/
theorem validateDishQuantity_next (req : Request) (l : Locals) (s : Store)
    (hlines : ∀ ds, JsVal.dataField req.body "dishes" = some (.arr ds) →
      ∀ x ∈ ds, x.truthy = true)
    (h : (validateDishQuantity req l s).signal = .next) :
    ∃ ds, JsVal.dataField req.body "dishes" = some (.arr ds) ∧
      ∀ y ∈ ds, lineWellFormed y = true := by
  unfold validateDishQuantity at h
  split at h
  · rename_i ds hds
    refine ⟨ds, hds, ?_⟩
    split at h
    · cases h
    · rename_i hf
      exact findInvalid_none ds hf
    · rename_i slot x hf
      exfalso
      obtain ⟨hx, -, -⟩ := findInvalid_some ds slot x hf
      have hmem : x ∈ ds := List.getElem?_mem hx
      simp [hlines ds hds x hmem] at h
  · cases h

theorem validateDishes_next (req : Request) (l : Locals) (s : Store)
    (h : (validateDishes req l s).signal = .next) :
    ∃ x xs, JsVal.dataField req.body "dishes" = some (.arr (x :: xs)) := by
  unfold validateDishes at h
  cases hv : JsVal.dataField req.body "dishes" with
  | none => rw [hv] at h; cases h
  | some v =>
    rw [hv] at h
    dsimp only at h
    cases ht : v.truthy
    · simp [ht] at h
    · cases hn : notNonEmptyArray v
      · obtain ⟨x, xs, rfl⟩ := (notNonEmptyArray_eq_false v).mp hn
        exact ⟨x, xs, rfl⟩
      · simp [ht, hn] at h

/-- The order invariant for an order whose dishes and status were validated. -/
theorem orderWellFormed_of_checked (id deliverTo mobileNumber status : JsVal) (x : JsVal)
    (xs : List JsVal) (hlines : ∀ y ∈ x :: xs, lineWellFormed y = true)
    (hstatus : status = .undefined ∨ ∃ t ∈ validStatuses, status = .str t) :
    orderWellFormed ⟨id, deliverTo, mobileNumber, .arr (x :: xs), status⟩ = true := by
  have h1 : (x :: xs).all lineWellFormed = true := List.all_eq_true.mpr hlines
  have h2 : (!status.isDefined || validStatuses.any (fun t => status.eqStr t)) = true := by
    rcases hstatus with rfl | ⟨t, ht, rfl⟩
    · rfl
    · have : validStatuses.any (fun u => (JsVal.str t).eqStr u) = true :=
        List.any_eq_true.mpr ⟨t, ht, eqStr_eq_true.mpr rfl⟩
      simp [this]
  simp only [orderWellFormed, h1, h2, Bool.and_self]

end Orders

namespace Orders

/-- Apart from the falsy-line defect of the quantity check, the order chains keep
the order data invariant: it is preserved by every order create, update and
destroy request whose `dishes` lines, if any, are all truthy (as objects are). -/
theorem order_invariant_preserved_of_truthy_lines (nextId : String) (toStr : JsVal → Option String)
    (req : Request) (s : Store)
    (hlines : ∀ ds, JsVal.dataField req.body "dishes" = some (.arr ds) →
      ∀ x ∈ ds, x.truthy = true)
    (hinv : ordersWellFormed s = true) :
    ordersWellFormed (runChain (exports.create nextId) req noLocals s).store = true ∧
      ordersWellFormed (runChain (exports.update toStr) req noLocals s).store = true ∧
      ordersWellFormed (runChain exports.destroy req noLocals s).store = true := by
  have hinv' : ∀ x ∈ s.orders, orderWellFormed x = true := List.all_eq_true.mp hinv
  have hchecked : ∀ (l : Locals) (id deliverTo mobileNumber dishes status : JsVal),
      (validateDishes req l s).signal = .next → (validateDishQuantity req l s).signal = .next →
      JsVal.dataField req.body "dishes" = some dishes →
      (status = .undefined ∨ ∃ t ∈ validStatuses, status = .str t) →
      orderWellFormed ⟨id, deliverTo, mobileNumber, dishes, status⟩ = true := by
    intro l id d m ds v h1 h2 hds hv
    obtain ⟨x, xs, hx⟩ := validateDishes_next req l s h1
    obtain ⟨ds', hds', hall⟩ := validateDishQuantity_next req l s hlines h2
    rw [hx] at hds hds'
    cases hds
    cases hds'
    exact orderWellFormed_of_checked id d m v x xs hall hv
  refine ⟨?_, ?_, ?_⟩
  · rcases atomic_order_exports_create nextId req noLocals s with h | ⟨st, b, hr⟩
    · rw [h]; exact hinv
    · have hchain : exports.create nextId =
          [validateDeliverTo, validateMobileNumber, validateDishes, validateDishQuantity] ++
            [create nextId] := rfl
      rcases runChain_checks_cases _ [create nextId] req noLocals s
          pure_create_checks_orders with ⟨p, c, q, hsplit, -, -, hres⟩ | ⟨hall, -⟩
      · exfalso
        have hc : c ∈ [validateDeliverTo, validateMobileNumber, validateDishes,
            validateDishQuantity] := by
          rw [hsplit]; simp
        rw [hchain, hres] at hr
        exact (pure_create_checks_orders c hc req noLocals s).2.2 st b hr
      · obtain ⟨d, m, ds, -, -, hds, hrun⟩ := exports_create_valid nextId req s hall
        rw [hrun]
        unfold ordersWellFormed
        rw [List.all_eq_true]
        intro x hx
        simp only [List.mem_append, List.mem_singleton] at hx
        rcases hx with hx | rfl
        · exact hinv' x hx
        · exact hchecked noLocals _ _ _ _ _ (hall validateDishes (by simp))
            (hall validateDishQuantity (by simp)) hds (Or.inl rfl)
  · rcases atomic_order_exports_update toStr req noLocals s with h | ⟨st, b, hr⟩
    · rw [h]; exact hinv
    · obtain ⟨pre, o, post, hs, hpre, hid⟩ := exports_update_respond_found toStr req s st b hr
      obtain ⟨hall, hrun⟩ := exports_update_respond toStr req s pre post o hs hpre hid st b hr
      obtain ⟨d, hd, -⟩ := validateDeliverTo_next req _ s (hall validateDeliverTo (by simp))
      obtain ⟨m, hm⟩ := dataField_some_of_some hd "mobileNumber"
      obtain ⟨ds, hds⟩ := dataField_some_of_some hd "dishes"
      obtain ⟨t, ht, hv⟩ := validateOrderStatus_next req _ s (hall validateOrderStatus (by simp))
      have hupd := update_eq_orders req { noLocals with order := some pre.length } s pre post o
        d m ds (.str t) hs rfl hd hm hds hv
      rw [hrun, hupd]
      unfold ordersWellFormed
      rw [List.all_eq_true]
      intro x hx
      simp only [List.mem_append, List.mem_cons] at hx
      rcases hx with hx | rfl | hx
      · exact hinv' x (by rw [hs]; simp [hx])
      · exact hchecked _ _ _ _ _ _ (hall validateDishes (by simp))
          (hall validateDishQuantity (by simp)) hds (Or.inr ⟨t, ht, rfl⟩)
      · exact hinv' x (by rw [hs]; simp [hx])
  · by_cases h : ∃ x ∈ s.orders, x.id.eqStr req.routeId = true
    · obtain ⟨pre, o, post, hs, hpre, hid⟩ :=
        exists_first_match (fun order : Order => order.id.eqStr req.routeId) s.orders h
      rw [exports_destroy_found req s pre post o hs hpre hid]
      split
      · exact hinv
      · unfold ordersWellFormed
        rw [List.all_eq_true]
        intro x hx
        simp only [List.mem_append] at hx
        rcases hx with hx | hx
        · exact hinv' x (by rw [hs]; simp [hx])
        · exact hinv' x (by rw [hs]; simp [hx])
    · rcases atomic_order_exports_destroy req noLocals s with hst | ⟨st, b, hr⟩
      · rw [hst]; exact hinv
      · exfalso
        have hnone : ∀ x ∈ s.orders, x.id.eqStr req.routeId = false := by
          intro x hx
          cases hx' : x.id.eqStr req.routeId
          · rfl
          · exact absurd ⟨x, hx, hx'⟩ h
        have h1 := orderExists_missing req noLocals s hnone
        unfold exports.destroy at hr
        rw [runChain_cons_of_stop (by rw [h1]; exact Signal.noConfusion), h1] at hr
        cases hr

end Orders

/-! ### Exceptions of the payload checks -/

/-- The field `k` of `data` cannot be read exactly when the body is `undefined` or
`null`, or its `data` is `null`. -/
theorem dataField_eq_none_iff (body : JsVal) (k : String) :
    JsVal.dataField body k = none ↔
      body = .undefined ∨ body = .null ∨ JsVal.getProp body "data" = some .null := by
  cases body with
  | obj fields =>
    cases h : JsVal.lookup "data" fields <;>
      simp [JsVal.dataField, JsVal.dataOf, JsVal.getProp, h]
  | _ => simp [JsVal.dataField, JsVal.dataOf, JsVal.getProp]

namespace Dishes

theorem validateProperties_throw (p : String) (req : Request) (l : Locals) (s : Store)
    (h : (validateProperties p req l s).signal = .throw) :
    JsVal.dataField req.body p = none := by
  rw [validateProperties_eq] at h
  cases hv : JsVal.dataField req.body p with
  | none => rfl
  | some v =>
    rw [hv] at h
    cases ht : v.truthy <;> simp [ht] at h

theorem validatePrice_throw (req : Request) (l : Locals) (s : Store)
    (h : (validatePrice req l s).signal = .throw) :
    JsVal.dataField req.body "price" = none := by
  unfold validatePrice at h
  cases hv : JsVal.dataField req.body "price" with
  | none => rfl
  | some v =>
    rw [hv] at h
    dsimp only at h
    split at h <;> cases h

/-- The handler `update` on a payload whose id is truthy and differs from the
route id. -/
theorem update_mismatch (toStr : JsVal → Option String) (req : Request) (l : Locals)
    (s : Store) (id : JsVal) (hidf : JsVal.dataField req.body "id" = some id)
    (ht : id.truthy = true) (hne : id ≠ .str req.routeId) :
    update toStr req l s =
      match toStr id with
      | none => ⟨.throw, l, s⟩
      | some text =>
        ⟨.error 400
          ("Dish id does not match route id. Dish: " ++ text ++ ", Route: " ++ req.routeId),
          l, s⟩ := by
  obtain ⟨dat, hd, hi⟩ := dataField_eq_some hidf
  obtain ⟨a, ha⟩ := getProp_some_of_some hi "name"
  obtain ⟨b, hb⟩ := getProp_some_of_some hi "description"
  obtain ⟨c, hc⟩ := getProp_some_of_some hi "price"
  obtain ⟨e, he⟩ := getProp_some_of_some hi "image_url"
  unfold update
  rw [hd]
  simp only [hi, ha, hb, hc, he, ht, eqStr_eq_false.mpr hne, Bool.not_false, Bool.and_self,
    if_true]

end Dishes

/-! ### C2: the delivered lock -/


/-- C2, counterexample. The sample store holds the delivered order `o2`; an
update of `o2` with an empty payload fails with the missing-`deliverTo`
validation error, not with the delivered-order error. -/
theorem delivered_update_can_report_validation_error :
    orderDelivered ∈ sampleStore.orders ∧ orderDelivered.id = .str "o2" ∧
      orderDelivered.status = .str "delivered" ∧
      (runChain (Orders.exports.update sampleToStr) ⟨"o2", .obj []⟩ noLocals sampleStore).signal =
        .error 400 "Order must include a deliverTo" ∧
      (runChain (Orders.exports.update sampleToStr) ⟨"o2", .obj []⟩ noLocals sampleStore).signal ≠
        .error 400 "A delivered order cannot be changed" := by
  refine ⟨by simp [sampleStore], rfl, rfl, rfl, ?_⟩
  intro h
  have h' : Signal.error 400 "Order must include a deliverTo" =
      Signal.error 400 "A delivered order cannot be changed" := h
  simp at h'

/-- C2, amended. Let the first order of the store whose id is the route id have
status `delivered`.  Then, for every payload: order destroy fails with the 400
not-pending lifecycle error and leaves the store unchanged; order update never
sends a response (it ends in an error or an exception) and leaves the store
unchanged; when the payload passes the six payload checks that precede the
lock (deliverTo, mobileNumber, dishes, quantity, id match, status), the update
fails with the 400 error "A delivered order cannot be changed"; otherwise it
fails with the failure of the first of those six checks that does not pass:
for every split of their list into the checks before, one check and the checks
after, if the checks before pass and that check does not, the update ends as
that check does (its error, or its exception). -/
theorem delivered_order_is_locked (toStr : JsVal → Option String) (req : Request) (s : Store)
    (pre post : List Order) (o : Order) (hs : s.orders = pre ++ o :: post)
    (hpre : ∀ x ∈ pre, x.id.eqStr req.routeId = false) (hid : o.id.eqStr req.routeId = true)
    (hst : o.status = .str "delivered") :
    ((runChain Orders.exports.destroy req noLocals s).signal =
        .error 400 "An order cannot be deleted unless it is pending" ∧
      (runChain Orders.exports.destroy req noLocals s).store = s) ∧
    ((∀ st b, (runChain (Orders.exports.update toStr) req noLocals s).signal ≠ .respond st b) ∧
      (runChain (Orders.exports.update toStr) req noLocals s).signal ≠ .next ∧
      (runChain (Orders.exports.update toStr) req noLocals s).store = s) ∧
    ((∀ c ∈ [Orders.validateDeliverTo, Orders.validateMobileNumber, Orders.validateDishes,
        Orders.validateDishQuantity, Orders.validateOrderIdMatch toStr,
        Orders.validateOrderStatus], (c req noLocals s).signal = .next) →
      (runChain (Orders.exports.update toStr) req noLocals s).signal =
        .error 400 "A delivered order cannot be changed") ∧
    (∀ before c after,
      [Orders.validateDeliverTo, Orders.validateMobileNumber, Orders.validateDishes,
        Orders.validateDishQuantity, Orders.validateOrderIdMatch toStr,
        Orders.validateOrderStatus] = before ++ c :: after →
      (∀ c' ∈ before, (c' req noLocals s).signal = .next) →
      (c req noLocals s).signal ≠ .next →
      (runChain (Orders.exports.update toStr) req noLocals s).signal =
        (c req noLocals s).signal) := by
  have hchain := Orders.exports_update_found toStr req s pre post o hs hpre hid
  have hdel : Orders.validateOrderDelivered req { noLocals with order := some pre.length } s =
      ⟨.error 400 "A delivered order cannot be changed",
        { noLocals with order := some pre.length }, s⟩ := by
    rw [Orders.validateOrderDelivered_found req _ s pre post o hs rfl, hst]
    rfl
  refine ⟨?_, ?_, ?_, ?_⟩
  · have h := Orders.exports_destroy_found req s pre post o hs hpre hid
    have hp : o.status.eqStr "pending" = false := by rw [hst]; decide
    simp only [hp, Bool.not_false, if_true] at h
    rw [h]
    exact ⟨rfl, rfl⟩
  · rw [hchain]
    rcases runChain_checks_cases _ [Orders.update] req { noLocals with order := some pre.length }
        s (Orders.pure_update_checks toStr) with ⟨p, c, q, hsplit, -, hfail, hr⟩ | ⟨hall, -⟩
    · have hc : c ∈ [Orders.validateDeliverTo, Orders.validateMobileNumber,
          Orders.validateDishes, Orders.validateDishQuantity, Orders.validateOrderIdMatch toStr,
          Orders.validateOrderStatus, Orders.validateOrderDelivered] := by
        rw [hsplit]; simp
      have hpc := Orders.pure_update_checks toStr c hc req { noLocals with order := some pre.length } s
      rw [hr]
      exact ⟨hpc.2.2, hfail, hpc.2.1⟩
    · exfalso
      have h := hall Orders.validateOrderDelivered (by simp)
      rw [hdel] at h
      cases h
  · intro hpass
    have hpass' := Orders.payload_checks_pass toStr req noLocals
      { noLocals with order := some pre.length } s hpass
    rw [hchain, (runChain_checks (Orders.pure_update_checks toStr)).1 _
      Orders.validateOrderDelivered [] rfl hpass' (by rw [hdel]; exact Signal.noConfusion), hdel]
  · intro before c after hsplit hbefore hfail
    have hmem : ∀ c' ∈ before ++ c :: after,
        (c' req { noLocals with order := some pre.length } s).signal =
          (c' req noLocals s).signal := by
      intro c' hc'
      rw [← hsplit] at hc'
      exact Orders.payload_check_signal toStr req _ noLocals s s c' hc'
    have hseven : [Orders.validateDeliverTo, Orders.validateMobileNumber,
        Orders.validateDishes, Orders.validateDishQuantity, Orders.validateOrderIdMatch toStr,
        Orders.validateOrderStatus, Orders.validateOrderDelivered] =
        before ++ c :: (after ++ [Orders.validateOrderDelivered]) := by
      have h7 : [Orders.validateDeliverTo, Orders.validateMobileNumber,
          Orders.validateDishes, Orders.validateDishQuantity,
          Orders.validateOrderIdMatch toStr, Orders.validateOrderStatus,
          Orders.validateOrderDelivered] =
          [Orders.validateDeliverTo, Orders.validateMobileNumber, Orders.validateDishes,
            Orders.validateDishQuantity, Orders.validateOrderIdMatch toStr,
            Orders.validateOrderStatus] ++ [Orders.validateOrderDelivered] := rfl
      rw [h7, hsplit]
      simp
    have hbefore' : ∀ c' ∈ before,
        (c' req { noLocals with order := some pre.length } s).signal = .next := by
      intro c' hc'
      rw [hmem c' (List.mem_append_left _ hc')]
      exact hbefore c' hc'
    have hc : (c req { noLocals with order := some pre.length } s).signal =
        (c req noLocals s).signal :=
      hmem c (List.mem_append_right _ (List.mem_cons_self _ _))
    rw [hchain, (runChain_checks (Orders.pure_update_checks toStr)).1 before c
      (after ++ [Orders.validateOrderDelivered]) hseven hbefore' (by rw [hc]; exact hfail), hc]

/-- Witness for C2: in the sample store, a valid update of the delivered order
`o2` that asks for status `pending` is rejected by the lock. -/
theorem delivered_order_is_locked_witness :
    (runChain (Orders.exports.update sampleToStr) ⟨"o2", sampleOrderPayload⟩ noLocals
        sampleStore).signal = .error 400 "A delivered order cannot be changed" :=
  (delivered_order_is_locked sampleToStr ⟨"o2", sampleOrderPayload⟩ sampleStore [orderPending] []
    orderDelivered rfl (fun x hx => by rw [List.mem_singleton.mp hx]; rfl) rfl rfl).2.2.1
    (by
      intro c hc
      simp only [List.mem_cons, List.mem_singleton, List.not_mem_nil, or_false] at hc
      rcases hc with rfl | rfl | rfl | rfl | rfl | rfl <;> rfl)

/-! ### C5: dish create with an invalid price -/

/-- C5, counterexample. A dish create request with price `0` and no name fails
with the missing-name message, not with the invalid-price message. -/
theorem invalid_price_can_report_missing_name :
    JsVal.dataField (bodyOf [("price", .int 0)]) "price" = some (.int 0) ∧
      (runChain (Dishes.exports.create "n1") ⟨"", bodyOf [("price", .int 0)]⟩ noLocals
        sampleStore).signal = .error 400 "Dish must include a name" ∧
      (runChain (Dishes.exports.create "n1") ⟨"", bodyOf [("price", .int 0)]⟩ noLocals
        sampleStore).signal ≠
          .error 400 "Dish must have a price that is an integer greater than 0" := by
  refine ⟨rfl, rfl, ?_⟩
  intro h
  have h' : Signal.error 400 "Dish must include a name" =
      Signal.error 400 "Dish must have a price that is an integer greater than 0" := h
  simp at h'

/-- C5, amended. For every dish create request whose price is not an integer or
is not greater than 0 (so: non-integer, zero or negative), creation fails with a
400 and the store, in particular the length of the dishes collection, is
unchanged; when name, description and image_url pass their checks, the message
is "Dish must have a price that is an integer greater than 0"; otherwise it is
the message of the first of those three checks that fails: for every split of
the list name, description, image_url into the fields before, one field and
the fields after, if the checks of the fields before pass and the check of
that field does not, the message is "Dish must include a <that field>". -/
theorem create_rejects_invalid_price (nextId : String) (req : Request) (s : Store)
    (price : JsVal) (hprice : JsVal.dataField req.body "price" = some price)
    (hbad : price.isInteger = false ∨ price.gtZero = false) :
    (∃ msg, (runChain (Dishes.exports.create nextId) req noLocals s).signal = .error 400 msg) ∧
    (runChain (Dishes.exports.create nextId) req noLocals s).store = s ∧
    (runChain (Dishes.exports.create nextId) req noLocals s).store.dishes.length =
      s.dishes.length ∧
    ((∀ c ∈ [Dishes.validateProperties "name", Dishes.validateProperties "description",
        Dishes.validateProperties "image_url"], (c req noLocals s).signal = .next) →
      (runChain (Dishes.exports.create nextId) req noLocals s).signal =
        .error 400 "Dish must have a price that is an integer greater than 0") ∧
    (∀ before p after, ["name", "description", "image_url"] = before ++ p :: after →
      (∀ p' ∈ before, (Dishes.validateProperties p' req noLocals s).signal = .next) →
      (Dishes.validateProperties p req noLocals s).signal ≠ .next →
      (runChain (Dishes.exports.create nextId) req noLocals s).signal =
        .error 400 ("Dish must include a " ++ p)) := by
  have hvp := Dishes.validatePrice_invalid req noLocals s price hprice hbad
  have hchain : Dishes.exports.create nextId =
      [Dishes.validateProperties "name", Dishes.validateProperties "description",
        Dishes.validateProperties "image_url", Dishes.validatePrice] ++
        [Dishes.create nextId] := rfl
  have hmain : (∃ msg, (runChain (Dishes.exports.create nextId) req noLocals s).signal =
      .error 400 msg) ∧ (runChain (Dishes.exports.create nextId) req noLocals s).store = s := by
    rw [hchain]
    rcases runChain_checks_cases _ [Dishes.create nextId] req noLocals s
        Dishes.pure_create_checks with ⟨p, c, q, hsplit, -, hfail, hr⟩ | ⟨hall, -⟩
    · have hc : c ∈ [Dishes.validateProperties "name", Dishes.validateProperties "description",
          Dishes.validateProperties "image_url", Dishes.validatePrice] := by
        rw [hsplit]; simp
      have hpc := Dishes.pure_create_checks c hc req noLocals s
      rw [hr]
      refine ⟨?_, hpc.2.1⟩
      simp only [List.mem_cons, List.mem_singleton, List.not_mem_nil, or_false] at hc
      rcases hc with rfl | rfl | rfl | rfl
      · exact ⟨_, Dishes.validateProperties_fails_400 _ _ req noLocals s price hprice hfail⟩
      · exact ⟨_, Dishes.validateProperties_fails_400 _ _ req noLocals s price hprice hfail⟩
      · exact ⟨_, Dishes.validateProperties_fails_400 _ _ req noLocals s price hprice hfail⟩
      · exact ⟨_, by rw [hvp]⟩
    · exfalso
      have h := hall Dishes.validatePrice (by simp)
      rw [hvp] at h
      cases h
  refine ⟨hmain.1, hmain.2, by rw [hmain.2], ?_, ?_⟩
  · intro hpass
    rw [hchain, (runChain_checks Dishes.pure_create_checks).1 _ Dishes.validatePrice [] rfl hpass
      (by rw [hvp]; exact Signal.noConfusion), hvp]
  · intro before p after hsplit hbefore hfail
    have hfour : [Dishes.validateProperties "name", Dishes.validateProperties "description",
        Dishes.validateProperties "image_url", Dishes.validatePrice] =
        before.map Dishes.validateProperties ++ Dishes.validateProperties p ::
          (after.map Dishes.validateProperties ++ [Dishes.validatePrice]) := by
      have h4 : [Dishes.validateProperties "name", Dishes.validateProperties "description",
          Dishes.validateProperties "image_url", Dishes.validatePrice] =
          ["name", "description", "image_url"].map Dishes.validateProperties ++
            [Dishes.validatePrice] := rfl
      rw [h4, hsplit]
      simp
    have hbefore' : ∀ c' ∈ before.map Dishes.validateProperties,
        (c' req noLocals s).signal = .next := by
      intro c' hc'
      obtain ⟨p', hp', rfl⟩ := List.mem_map.mp hc'
      exact hbefore p' hp'
    rw [hchain, (runChain_checks Dishes.pure_create_checks).1 _ (Dishes.validateProperties p)
      _ hfour hbefore' hfail]
    exact Dishes.validateProperties_fails_400 p "price" req noLocals s price hprice hfail

/-- Witness for C5: a complete dish payload whose price is `-2`. -/
theorem create_rejects_invalid_price_witness :
    (runChain (Dishes.exports.create "n1")
        ⟨"", bodyOf [("name", .str "Soup"), ("description", .str "Hot"),
          ("image_url", .str "soup.png"), ("price", .int (-2))]⟩ noLocals sampleStore).signal =
      .error 400 "Dish must have a price that is an integer greater than 0" :=
  (create_rejects_invalid_price "n1"
    ⟨"", bodyOf [("name", .str "Soup"), ("description", .str "Hot"),
      ("image_url", .str "soup.png"), ("price", .int (-2))]⟩ sampleStore (.int (-2)) rfl
    (Or.inr rfl)).2.2.2.1
    (by
      intro c hc
      simp only [List.mem_cons, List.mem_singleton, List.not_mem_nil, or_false] at hc
      rcases hc with rfl | rfl | rfl <;> rfl)

/-! ### C10: dish update -/

/-- C10, counterexample. In the sample store, an update of dish `d1` whose
payload passes the four dish checks but carries the id `d9` fails with the 400
id-mismatch error: a failure that is neither not-found, nor missing-field, nor
invalid-price. -/
theorem dish_update_can_fail_on_id_mismatch :
    (∀ c ∈ [Dishes.validateProperties "name", Dishes.validateProperties "description",
        Dishes.validateProperties "image_url", Dishes.validatePrice],
        (c ⟨"d1", mismatchedDishPayload⟩ noLocals sampleStore).signal = .next) ∧
      (runChain (Dishes.exports.update sampleToStr) ⟨"d1", mismatchedDishPayload⟩ noLocals
        sampleStore).signal =
          .error 400 "Dish id does not match route id. Dish: d9, Route: d1" := by
  refine ⟨?_, rfl⟩
  intro c hc
  simp only [List.mem_cons, List.mem_singleton, List.not_mem_nil, or_false] at hc
  rcases hc with rfl | rfl | rfl | rfl <;> rfl

/-- C10, amended. (a) Let `d` be the first dish of the store whose id is the
route id.  For every payload with truthy name, description and image_url and a
positive integer price, and whose id is absent (or otherwise falsy) or equal
to the route id, dish update answers 200 with the updated dish: `d` with its
name, description, price and image_url overwritten by the payload values and
its id untouched; that dish replaces `d` in the collection and every other
entry is unchanged.  (b) The errors dish update can produce are the 404
not-found, the 400 missing-field of name, description or image_url, the 400
invalid-price, and the 400 id-mismatch of a payload whose id is truthy, differs
from the route id and converts to a string.  (c) The only other failure is an
exception, raised when `data` cannot be read (the body, or its `data`, is
`null`) or when the payload id is truthy, differs from the route id and cannot
be converted to a string.  (d) The chain always ends in one of these: a
response, an error or an exception.  (e) Both exceptions occur: with an
existing dish, an unreadable `data` raises one; and a payload that passes the
four checks with a truthy id different from the route id gets the 400
id-mismatch when the id converts to a string and an exception when it does
not, the store being unchanged in each case. -/
theorem dish_update_contract (toStr : JsVal → Option String) (req : Request) (s : Store) :
    (∀ (pre post : List Dish) (d : Dish) (id name description price image_url : JsVal),
      s.dishes = pre ++ d :: post →
      (∀ x ∈ pre, x.id.eqStr req.routeId = false) → d.id.eqStr req.routeId = true →
      JsVal.dataField req.body "id" = some id →
      JsVal.dataField req.body "name" = some name →
      JsVal.dataField req.body "description" = some description →
      JsVal.dataField req.body "image_url" = some image_url →
      JsVal.dataField req.body "price" = some price →
      name.truthy = true → description.truthy = true → image_url.truthy = true →
      price.isInteger = true → price.gtZero = true →
      (id.truthy = false ∨ id = .str req.routeId) →
      runChain (Dishes.exports.update toStr) req noLocals s =
        ⟨.respond 200 (.dish ⟨d.id, name, description, price, image_url⟩),
          { noLocals with dish := some pre.length },
          { s with dishes := pre ++ ⟨d.id, name, description, price, image_url⟩ :: post }⟩) ∧
    (∀ st msg, (runChain (Dishes.exports.update toStr) req noLocals s).signal = .error st msg →
      (st = 404 ∧ msg = "Dish does not exist: " ++ req.routeId) ∨
      (st = 400 ∧ (msg = "Dish must include a name" ∨ msg = "Dish must include a description" ∨
        msg = "Dish must include a image_url" ∨
        msg = "Dish must have a price that is an integer greater than 0")) ∨
      (st = 400 ∧ ∃ id text, JsVal.dataField req.body "id" = some id ∧ id.truthy = true ∧
        id ≠ .str req.routeId ∧ toStr id = some text ∧
        msg = "Dish id does not match route id. Dish: " ++ text ++ ", Route: " ++
          req.routeId)) ∧
    ((runChain (Dishes.exports.update toStr) req noLocals s).signal = .throw →
      (req.body = .undefined ∨ req.body = .null ∨
        JsVal.getProp req.body "data" = some .null) ∨
      ∃ id, JsVal.dataField req.body "id" = some id ∧ id.truthy = true ∧
        id ≠ .str req.routeId ∧ toStr id = none) ∧
    (runChain (Dishes.exports.update toStr) req noLocals s).signal ≠ .next ∧
    (∀ (pre post : List Dish) (d : Dish), s.dishes = pre ++ d :: post →
      (∀ x ∈ pre, x.id.eqStr req.routeId = false) → d.id.eqStr req.routeId = true →
      ((req.body = .undefined ∨ req.body = .null ∨
          JsVal.getProp req.body "data" = some .null) →
        (runChain (Dishes.exports.update toStr) req noLocals s).signal = .throw ∧
          (runChain (Dishes.exports.update toStr) req noLocals s).store = s) ∧
      (∀ id, JsVal.dataField req.body "id" = some id → id.truthy = true →
        id ≠ .str req.routeId →
        (∀ c ∈ [Dishes.validateProperties "name", Dishes.validateProperties "description",
          Dishes.validateProperties "image_url", Dishes.validatePrice],
          (c req noLocals s).signal = .next) →
        (∀ text, toStr id = some text →
          (runChain (Dishes.exports.update toStr) req noLocals s).signal =
              .error 400 ("Dish id does not match route id. Dish: " ++ text ++ ", Route: " ++
                req.routeId) ∧
            (runChain (Dishes.exports.update toStr) req noLocals s).store = s) ∧
        (toStr id = none →
          (runChain (Dishes.exports.update toStr) req noLocals s).signal = .throw ∧
            (runChain (Dishes.exports.update toStr) req noLocals s).store = s))) := by
  have hchain : Dishes.exports.update toStr =
      Dishes.dishExists :: ([Dishes.validateProperties "name",
        Dishes.validateProperties "description", Dishes.validateProperties "image_url",
        Dishes.validatePrice] ++ [Dishes.update toStr]) := rfl
  have hfound : ∀ (pre post : List Dish) (d : Dish), s.dishes = pre ++ d :: post →
      (∀ x ∈ pre, x.id.eqStr req.routeId = false) → d.id.eqStr req.routeId = true →
      runChain (Dishes.exports.update toStr) req noLocals s =
        runChain ([Dishes.validateProperties "name", Dishes.validateProperties "description",
          Dishes.validateProperties "image_url", Dishes.validatePrice] ++
          [Dishes.update toStr]) req { noLocals with dish := some pre.length } s := by
    intro pre post d hs hpre hid
    have hex := Dishes.dishExists_found req noLocals s pre post d hs hpre hid
    rw [hchain, runChain_cons_of_next (by rw [hex]), hex]
  have hmissing : (¬ ∃ x ∈ s.dishes, x.id.eqStr req.routeId = true) →
      runChain (Dishes.exports.update toStr) req noLocals s =
        ⟨.error 404 ("Dish does not exist: " ++ req.routeId), noLocals, s⟩ := by
    intro h
    have hnone : ∀ x ∈ s.dishes, x.id.eqStr req.routeId = false := by
      intro x hx
      cases hx' : x.id.eqStr req.routeId
      · rfl
      · exact absurd ⟨x, hx, hx'⟩ h
    have h1 := Dishes.dishExists_missing req noLocals s hnone
    rw [hchain, runChain_cons_of_stop (by rw [h1]; exact Signal.noConfusion), h1]
  refine ⟨?_, ?_, ?_, ?_, ?_⟩
  · intro pre post d id name description price image_url hs hpre hid hidf hname hdescription
      himage hprice hn hd hu hi hg hmatch
    have hpass := Dishes.create_checks_pass req { noLocals with dish := some pre.length } s
      name description price image_url hname hdescription himage hprice hn hd hu hi hg
    have hupd := Dishes.update_eq toStr req { noLocals with dish := some pre.length } s pre post
      d id name description price image_url hs rfl hidf hname hdescription himage hprice hmatch
    rw [hfound pre post d hs hpre hid, (runChain_checks Dishes.pure_create_checks).2 hpass,
      runChain_cons_of_stop (by rw [hupd]; exact Signal.noConfusion), hupd]
  · intro st msg herr
    by_cases hex : ∃ x ∈ s.dishes, x.id.eqStr req.routeId = true
    · obtain ⟨pre, d, post, hs, hpre, hid⟩ :=
        exists_first_match (fun dish : Dish => dish.id.eqStr req.routeId) s.dishes hex
      rw [hfound pre post d hs hpre hid] at herr
      rcases runChain_checks_cases _ [Dishes.update toStr] req
          { noLocals with dish := some pre.length } s
          Dishes.pure_create_checks with ⟨p, c, q, hsplit, -, -, hr⟩ | ⟨-, hr⟩
      · have hc : c ∈ [Dishes.validateProperties "name", Dishes.validateProperties "description",
            Dishes.validateProperties "image_url", Dishes.validatePrice] := by
          rw [hsplit]; simp
        rw [hr] at herr
        right; left
        simp only [List.mem_cons, List.mem_singleton, List.not_mem_nil, or_false] at hc
        rcases hc with rfl | rfl | rfl | rfl
        · obtain ⟨h1, h2⟩ := Dishes.validateProperties_error _ req _ _ st msg herr
          exact ⟨h1, Or.inl (h2.trans (by decide))⟩
        · obtain ⟨h1, h2⟩ := Dishes.validateProperties_error _ req _ _ st msg herr
          exact ⟨h1, Or.inr (Or.inl (h2.trans (by decide)))⟩
        · obtain ⟨h1, h2⟩ := Dishes.validateProperties_error _ req _ _ st msg herr
          exact ⟨h1, Or.inr (Or.inr (Or.inl (h2.trans (by decide))))⟩
        · obtain ⟨h1, h2⟩ := Dishes.validatePrice_error req _ _ st msg herr
          exact ⟨h1, Or.inr (Or.inr (Or.inr h2))⟩
      · rw [hr, runChain_cons_of_stop (Dishes.update_signal_ne_next toStr req _ _)] at herr
        right; right
        exact Dishes.update_error toStr req _ _ st msg herr
    · rw [hmissing hex] at herr
      left
      simp only [Signal.error.injEq] at herr
      exact ⟨herr.1.symm, herr.2.symm⟩
  · intro hthrow
    by_cases hex : ∃ x ∈ s.dishes, x.id.eqStr req.routeId = true
    · obtain ⟨pre, d, post, hs, hpre, hid⟩ :=
        exists_first_match (fun dish : Dish => dish.id.eqStr req.routeId) s.dishes hex
      rw [hfound pre post d hs hpre hid] at hthrow
      have hnone : ∀ k, JsVal.dataField req.body k = none →
          (req.body = .undefined ∨ req.body = .null ∨
            JsVal.getProp req.body "data" = some .null) :=
        fun k hk => (dataField_eq_none_iff req.body k).mp hk
      rcases runChain_checks_cases _ [Dishes.update toStr] req
          { noLocals with dish := some pre.length } s
          Dishes.pure_create_checks with ⟨p, c, q, hsplit, -, -, hr⟩ | ⟨-, hr⟩
      · have hc : c ∈ [Dishes.validateProperties "name", Dishes.validateProperties "description",
            Dishes.validateProperties "image_url", Dishes.validatePrice] := by
          rw [hsplit]; simp
        rw [hr] at hthrow
        left
        simp only [List.mem_cons, List.mem_singleton, List.not_mem_nil, or_false] at hc
        rcases hc with rfl | rfl | rfl | rfl
        · exact hnone _ (Dishes.validateProperties_throw _ req _ _ hthrow)
        · exact hnone _ (Dishes.validateProperties_throw _ req _ _ hthrow)
        · exact hnone _ (Dishes.validateProperties_throw _ req _ _ hthrow)
        · exact hnone _ (Dishes.validatePrice_throw req _ _ hthrow)
      · rw [hr, runChain_cons_of_stop (Dishes.update_signal_ne_next toStr req _ _)] at hthrow
        rcases Dishes.update_throw toStr req { noLocals with dish := some pre.length } s
            pre.length d rfl (by rw [hs]; exact getElem?_append_cons_length pre d post)
            hthrow with h | h
        · exact Or.inl (hnone _ h)
        · exact Or.inr h
    · rw [hmissing hex] at hthrow
      cases hthrow
  · by_cases hex : ∃ x ∈ s.dishes, x.id.eqStr req.routeId = true
    · obtain ⟨pre, d, post, hs, hpre, hid⟩ :=
        exists_first_match (fun dish : Dish => dish.id.eqStr req.routeId) s.dishes hex
      rw [hfound pre post d hs hpre hid]
      rcases runChain_checks_cases _ [Dishes.update toStr] req
          { noLocals with dish := some pre.length } s
          Dishes.pure_create_checks with ⟨p, c, q, hsplit, -, hfail, hr⟩ | ⟨-, hr⟩
      · rw [hr]; exact hfail
      · rw [hr, runChain_cons_of_stop (Dishes.update_signal_ne_next toStr req _ _)]
        exact Dishes.update_signal_ne_next toStr req _ _
    · rw [hmissing hex]
      exact Signal.noConfusion
  · intro pre post d hs hpre hid
    constructor
    · intro hbody
      have hname : JsVal.dataField req.body "name" = none :=
        (dataField_eq_none_iff req.body "name").mpr hbody
      have hthrow : Dishes.validateProperties "name" req
          { noLocals with dish := some pre.length } s =
          ⟨.throw, { noLocals with dish := some pre.length }, s⟩ := by
        rw [Dishes.validateProperties_eq, hname]
      rw [hfound pre post d hs hpre hid, List.cons_append,
        runChain_cons_of_stop (by rw [hthrow]; exact Signal.noConfusion), hthrow]
      exact ⟨rfl, rfl⟩
    · intro id hidf ht hne hpass
      have hpass' : ∀ c ∈ [Dishes.validateProperties "name",
          Dishes.validateProperties "description", Dishes.validateProperties "image_url",
          Dishes.validatePrice],
          (c req { noLocals with dish := some pre.length } s).signal = .next := by
        obtain ⟨n, ds, p, u, hn, hd, hp, hu, hnt, hdt, hut, hpi, hpg⟩ :=
          Dishes.checks_pass_fields req noLocals s hpass
        exact Dishes.create_checks_pass req _ s n ds p u hn hd hu hp hnt hdt hut hpi hpg
      have hrun : runChain (Dishes.exports.update toStr) req noLocals s =
          Dishes.update toStr req { noLocals with dish := some pre.length } s := by
        rw [hfound pre post d hs hpre hid, (runChain_checks Dishes.pure_create_checks).2 hpass',
          runChain_cons_of_stop (Dishes.update_signal_ne_next toStr req _ _)]
      have hupd := Dishes.update_mismatch toStr req { noLocals with dish := some pre.length } s
        id hidf ht hne
      rw [hrun, hupd]
      constructor
      · intro text htext
        rw [htext]
        exact ⟨rfl, rfl⟩
      · intro hno
        rw [hno]
        exact ⟨rfl, rfl⟩

/-- Witness for C10: in the sample store, a valid update of dish `d1` without
an id in the payload overwrites its four fields and keeps its id. -/
theorem dish_update_contract_witness :
    runChain (Dishes.exports.update sampleToStr)
        ⟨"d1", bodyOf [("name", .str "Soup"), ("description", .str "Hot"),
          ("image_url", .str "soup.png"), ("price", .int 7)]⟩ noLocals sampleStore =
      ⟨.respond 200 (.dish ⟨.str "d1", .str "Soup", .str "Hot", .int 7, .str "soup.png"⟩),
        { noLocals with dish := some 0 },
        { sampleStore with
          dishes := [⟨.str "d1", .str "Soup", .str "Hot", .int 7, .str "soup.png"⟩] }⟩ :=
  (dish_update_contract sampleToStr
    ⟨"d1", bodyOf [("name", .str "Soup"), ("description", .str "Hot"),
      ("image_url", .str "soup.png"), ("price", .int 7)]⟩ sampleStore).1 [] [] dishA .undefined
    (.str "Soup") (.str "Hot") (.int 7) (.str "soup.png") rfl (fun _ hx => nomatch hx) rfl rfl
    rfl rfl rfl rfl rfl rfl rfl rfl rfl (Or.inl rfl)

/-! ### C12: the id check of order update -/

/-- C12, counterexample. In the sample store, an update of order `o1` with a
valid payload whose id is the number `0` (an id different from the route id)
passes the id check and succeeds: the order is overwritten. -/
theorem update_accepts_falsy_mismatched_id :
    JsVal.dataField zeroIdOrderPayload "id" = some (.int 0) ∧
      (Orders.validateOrderIdMatch sampleToStr ⟨"o1", zeroIdOrderPayload⟩ noLocals
        sampleStore).signal = .next ∧
      (runChain (Orders.exports.update sampleToStr) ⟨"o1", zeroIdOrderPayload⟩ noLocals
        sampleStore).signal =
          .respond 200 (.order ⟨.str "o1", .str "9 Oak Ave", .str "555-0000",
            .arr [line "d1" (.int 4)], .str "preparing"⟩) :=
  ⟨rfl, rfl, rfl⟩

/-- C12, amended. Let the store contain an order with the route id.  For every
payload that passes the deliverTo, mobileNumber, dishes and quantity checks and
carries a truthy id different from the route id: when the id converts to a
string, order update fails with the 400 error "Order id does not match route
id. Order: <payload id>, Route: <route id>." and the store, so every field of
the existing order, is unchanged; when the id cannot be converted to a string,
the id check raises an exception, and the store is unchanged as well.  A
payload whose id is absent, falsy (`null`, `false`, `0`, the empty string) or
equal to the route id passes the id check. -/
theorem update_rejects_truthy_mismatched_id (toStr : JsVal → Option String) (req : Request)
    (s : Store) :
    (∀ (pre post : List Order) (o : Order) (id : JsVal),
      s.orders = pre ++ o :: post →
      (∀ x ∈ pre, x.id.eqStr req.routeId = false) → o.id.eqStr req.routeId = true →
      (∀ c ∈ [Orders.validateDeliverTo, Orders.validateMobileNumber, Orders.validateDishes,
        Orders.validateDishQuantity], (c req noLocals s).signal = .next) →
      JsVal.dataField req.body "id" = some id → id.truthy = true → id ≠ .str req.routeId →
      (∀ text, toStr id = some text →
        (runChain (Orders.exports.update toStr) req noLocals s).signal =
            .error 400 ("Order id does not match route id. Order: " ++ text ++ ", Route: " ++
              req.routeId ++ ".") ∧
          (runChain (Orders.exports.update toStr) req noLocals s).store = s) ∧
      (toStr id = none →
        (runChain (Orders.exports.update toStr) req noLocals s).signal = .throw ∧
          (runChain (Orders.exports.update toStr) req noLocals s).store = s)) ∧
    (∀ (l : Locals) (id : JsVal), JsVal.dataField req.body "id" = some id →
      (id.truthy = false ∨ id = .str req.routeId) →
      (Orders.validateOrderIdMatch toStr req l s).signal = .next) := by
  constructor
  · intro pre post o id hs hpre hid hfour hidf ht hne
    have hchain := Orders.exports_update_found toStr req s pre post o hs hpre hid
    have hfour' : ∀ c ∈ [Orders.validateDeliverTo, Orders.validateMobileNumber,
        Orders.validateDishes, Orders.validateDishQuantity],
        (c req { noLocals with order := some pre.length } s).signal = .next := by
      intro c hc
      have hc6 : c ∈ [Orders.validateDeliverTo, Orders.validateMobileNumber,
          Orders.validateDishes, Orders.validateDishQuantity,
          Orders.validateOrderIdMatch toStr, Orders.validateOrderStatus] := by
        simp only [List.mem_cons, List.mem_singleton, List.not_mem_nil, or_false] at hc ⊢
        tauto
      rw [Orders.payload_check_signal toStr req _ noLocals s s c hc6]
      exact hfour c hc
    have hcheck : Orders.validateOrderIdMatch toStr req
        { noLocals with order := some pre.length } s =
        match toStr id with
        | none => ⟨.throw, { noLocals with order := some pre.length }, s⟩
        | some text =>
          ⟨.error 400 ("Order id does not match route id. Order: " ++ text ++ ", Route: " ++
            req.routeId ++ "."), { noLocals with order := some pre.length }, s⟩ := by
      rw [Orders.validateOrderIdMatch_eq toStr req _ s id hidf]
      simp [ht, eqStr_eq_false.mpr hne]
    have hstop : (Orders.validateOrderIdMatch toStr req
        { noLocals with order := some pre.length } s).signal ≠ .next := by
      rw [hcheck]
      cases toStr id <;> exact Signal.noConfusion
    have hrun : runChain (Orders.exports.update toStr) req noLocals s =
        Orders.validateOrderIdMatch toStr req { noLocals with order := some pre.length } s := by
      rw [hchain]
      exact (runChain_checks (Orders.pure_update_checks toStr)).1 _
        (Orders.validateOrderIdMatch toStr)
        [Orders.validateOrderStatus, Orders.validateOrderDelivered] rfl hfour' hstop
    rw [hrun, hcheck]
    constructor
    · intro text htext
      rw [htext]
      exact ⟨rfl, rfl⟩
    · intro hno
      rw [hno]
      exact ⟨rfl, rfl⟩
  · intro l id hidf hok
    rw [Orders.validateOrderIdMatch_eq toStr req l s id hidf]
    rcases hok with h | h
    · simp [h]
    · simp [eqStr_eq_true.mpr h]

/-- Witness for C12: in the sample store, a valid update of order `o1` whose
payload carries the id `o9` is rejected, and the store is unchanged. -/
theorem update_rejects_truthy_mismatched_id_witness :
    (runChain (Orders.exports.update sampleToStr) ⟨"o1", mismatchedOrderPayload⟩ noLocals
        sampleStore).signal =
        .error 400 "Order id does not match route id. Order: o9, Route: o1." ∧
      (runChain (Orders.exports.update sampleToStr) ⟨"o1", mismatchedOrderPayload⟩ noLocals
        sampleStore).store = sampleStore :=
  ((update_rejects_truthy_mismatched_id sampleToStr ⟨"o1", mismatchedOrderPayload⟩
    sampleStore).1 [] [orderDelivered] orderPending (.str "o9") rfl (fun _ hx => nomatch hx) rfl
    (by
      intro c hc
      simp only [List.mem_cons, List.mem_singleton, List.not_mem_nil, or_false] at hc
      rcases hc with rfl | rfl | rfl | rfl <;> rfl)
    rfl rfl (by intro h; simp at h)).1 "o9" rfl

/-- An id that cannot be converted to a string: in the sample store, an otherwise
valid update of order `o1`, or of dish `d1`, whose payload id is the object
`{ toString: 1 }` ends in the exception raised by the template literal, and the
store is unchanged. -/
theorem update_raises_on_unconvertible_id :
    runChain (Orders.exports.update sampleToStr)
        ⟨"o1", bodyOf [("id", .obj [("toString", .int 1)]), ("deliverTo", .str "9 Oak Ave"),
          ("mobileNumber", .str "555-0000"), ("dishes", .arr [line "d1" (.int 4)]),
          ("status", .str "preparing")]⟩ noLocals sampleStore =
        ⟨.throw, { noLocals with order := some 0 }, sampleStore⟩ ∧
      runChain (Dishes.exports.update sampleToStr)
        ⟨"d1", bodyOf [("id", .obj [("toString", .int 1)]), ("name", .str "Soup"),
          ("description", .str "Hot"), ("image_url", .str "soup.png"), ("price", .int 7)]⟩
        noLocals sampleStore =
        ⟨.throw, { noLocals with dish := some 0 }, sampleStore⟩ :=
  ⟨rfl, rfl⟩

end GrubDash
